import Mathlib

/-!
# x2sys: record decoding and track reading

A shallow embedding of `x2sys.c` (the X2SYS crossover library of GMT) and
theorems about it.

Conventions of the embedding.

* A C `double` is a value of an arbitrary type `D` equipped with the
  operations the library uses (`DoubleOps D`): the theorems hold for every
  such `D`.  `Dec` is one concrete choice (exact decimal numbers plus a NaN)
  used to evaluate the code on concrete inputs.
* An array together with its length (`s->info`, `s->n_fields`) is a list.
* A `FILE *` is the list of characters (bytes) not yet read.
* Functions and macros that live outside `x2sys.c` (`GMT_scanf`,
  `GMT_lon_range_adjust`, `BUFSIZ`, `GMT_CHUNK`, `sizeof (long)`, the byte
  order of the machine) are fields of the environment `Env D`.
* Automatic variables that the C code reads before writing them have the
  indeterminate value recorded in `Locals`.
* A function that can loop forever returns `none` when it does.
-/

namespace X2sys

/-! ## Doubles -/

/-- Operations on C `double` used by `x2sys.c`. -/
structure DoubleOps (D : Type) where
  /-- The value produced by `GMT_make_dnan`. -/
  nan : D
  /-- The test `GMT_is_dnan`. -/
  isNan : D → Bool
  /-- The C comparison `==`. -/
  eq : D → D → Bool
  /-- The C product `*`. -/
  mul : D → D → D
  /-- The C sum `+`. -/
  add : D → D → D
  /-- The conversion `(double)` of an integer value. -/
  ofInt : Int → D
  /-- The `double` whose object representation is the given bytes. -/
  ofBytes : List Char → D

/-! ## The schema (`struct X2SYS_DATA_INFO`, `struct X2SYS_INFO`, `struct GMT_IO`) -/

/-- One field of the schema: `struct X2SYS_DATA_INFO`. -/
structure X2SYS_DATA_INFO (D : Type) where
  nan_proxy : D
  scale : D
  offset : D
  start_col : Int
  stop_col : Int
  n_cols : Int
  has_nan_proxy : Bool
  has_nans : Bool
  do_scale : Bool
  name : List Char
  format : List Char
  intype : Char

/-- The schema: `struct X2SYS_INFO`.  `n_fields` is the length of `info`. -/
structure X2SYS_INFO (D : Type) where
  info : List (X2SYS_DATA_INFO D)
  n_out_columns : Int
  n_data_cols : Int
  rec_size : Int
  x_col : Int
  y_col : Int
  t_col : Int
  skip : Int
  flags : Int
  out_order : List Int
  use_column : List Int
  geographic : Bool
  geodetic : Int
  ms_next : Bool
  multi_segment : Bool
  ms_flag : Char
  ascii_in : Bool
  ascii_out : Bool

/-- The field count `s->n_fields`. -/
def X2SYS_INFO.n_fields {D : Type} (s : X2SYS_INFO D) : Nat := s.info.length

/-- The part of `struct GMT_IO` that `x2sys.c` touches. -/
structure GMT_IO where
  in_col_type : List Int
  out_col_type : List Int

/-- Everything `x2sys.c` takes from outside: macros, platform sizes and the GMT
library functions it calls. -/
structure Env (D : Type) where
  /-- The `stdio.h` macro `BUFSIZ`, the size of the line buffers. -/
  BUFSIZ : Nat
  /-- The platform value `sizeof (long)`. -/
  sizeof_long : Nat
  /-- The GMT macro `GMT_CHUNK`, the allocation increment. -/
  GMT_CHUNK : Nat
  /-- `GMT_scanf (text, col_type, &value)`: the value stored for a text. -/
  GMT_scanf : List Char → Int → D
  /-- `GMT_lon_range_adjust (range, &lon)`: the adjusted longitude. -/
  GMT_lon_range_adjust : Int → D → D
  /-- The value of an integer object of the C type selected by the type letter
  (`c` char, `u` unsigned char, `h` short, `i` int, `l` long) whose object
  representation is the given bytes. -/
  int_of_bytes : Char → List Char → Int

/-! ## Post-processing of a record (`x2sys_read_record`, lines 202-211) -/

/-- One pass of the body of the post-processing loop for field `i`, whose
descriptor is `f` and whose raw value is `d`: returns the new `data[i]` and
the new descriptor. -/
def postField {D : Type} (F : DoubleOps D) (E : Env D) (s : X2SYS_INFO D)
    (i : Nat) (f : X2SYS_DATA_INFO D) (d : D) : D × X2SYS_DATA_INFO D :=
  let d1 :=
    if f.has_nan_proxy && F.eq d f.nan_proxy then F.nan
    else if f.do_scale then F.add (F.mul d f.scale) f.offset
    else d
  let f1 := if F.isNan d1 then { f with has_nans := true } else f
  let d2 :=
    if decide ((i : Int) = s.x_col) && s.geographic then E.GMT_lon_range_adjust s.geodetic d1
    else d1
  (d2, f1)

/-- The post-processing loop `for (i = 0; i < s->n_fields; i++)`, run from
index `i` over the remaining descriptors and the remaining values.  A `data`
array shorter than `n_fields` is not a valid argument of the C function; the
loop then stops at its end. -/
def postLoop {D : Type} (F : DoubleOps D) (E : Env D) (s : X2SYS_INFO D) :
    Nat → List (X2SYS_DATA_INFO D) → List D → List (X2SYS_DATA_INFO D) × List D
  | _, [], ds => ([], ds)
  | _, f :: fs, [] => (f :: fs, [])
  | i, f :: fs, d :: ds =>
    ((postField F E s i f d).2 :: (postLoop F E s (i + 1) fs ds).1,
     (postField F E s i f d).1 :: (postLoop F E s (i + 1) fs ds).2)

/-- The whole post-processing step: new schema and new `data`. -/
def postProcess {D : Type} (F : DoubleOps D) (E : Env D) (s : X2SYS_INFO D)
    (data : List D) : X2SYS_INFO D × List D :=
  ({ s with info := (postLoop F E s 0 s.info data).1 }, (postLoop F E s 0 s.info data).2)

/-! ## Streams (`fgets`, `fread`, `strtok`) -/

/-- An open stream: the characters not yet read. -/
abbrev FILE := List Char

/-- The C string stored in a character buffer: what precedes the first NUL. -/
def cstr (l : List Char) : List Char := l.takeWhile (fun c => c != Char.ofNat 0)

/-- The characters one `fgets` call takes from a stream when it may store at
most `n` of them (it stops after a newline), and the stream left behind. -/
def fgetsChunk : Nat → FILE → List Char × FILE
  | 0, fp => ([], fp)
  | _ + 1, [] => ([], [])
  | n + 1, c :: cs =>
    if c = '\n' then ([c], cs) else (c :: (fgetsChunk n cs).1, (fgetsChunk n cs).2)

/-- The call `fgets (line, size, fp)`: the new C string in `line` and the new
stream.  At end of input `fgets` returns NULL and leaves `line` as it was. -/
def fgets (size : Nat) (line : List Char) (fp : FILE) : List Char × FILE :=
  match fp with
  | [] => (line, [])
  | _ :: _ => (cstr (fgetsChunk (size - 1) fp).1, (fgetsChunk (size - 1) fp).2)

/-- The call `fread (ptr, size, 1, fp)`: the bytes of the item when a whole item
was read (`fread` then returns 1, otherwise 0), and the new stream.  A short
read leaves the stream at end of input. -/
def fread (size : Nat) (fp : FILE) : Option (List Char) × FILE :=
  if size = 0 then (none, fp)
  else if size ≤ fp.length then (some (fp.take size), fp.drop size)
  else (none, [])

/-- The delimiter set `" ,\t\n"` of the `strtok` calls in `x2sys_read_record`. -/
def isDelim (c : Char) : Bool := c = ' ' || c = ',' || c = '\t' || c = '\n'

/-- The tokens that `strtok (line, " ,\t\n")` followed by `strtok (NULL, " ,\t\n")`
until NULL returns, in order.  `cur` is the token being scanned, reversed. -/
def strtokFrom (cur : List Char) : List Char → List (List Char)
  | [] => if cur = [] then [] else [cur.reverse]
  | c :: cs =>
    if isDelim c then
      (if cur = [] then strtokFrom [] cs else cur.reverse :: strtokFrom [] cs)
    else strtokFrom (c :: cur) cs

/-- All tokens of a line. -/
def strtokAll (line : List Char) : List (List Char) := strtokFrom [] line

/-! ## Reading one record (`x2sys_read_record`) -/

/-- The automatic variables of `x2sys_read_record` that are read without having
been assigned on every path; on entry they hold indeterminate values. -/
structure Locals where
  line : List Char
  c : Int
  u : Int
  h : Int
  i : Int
  L : Int

/-- The state of `x2sys_read_record` inside its first loop. -/
structure ReadState (D : Type) where
  fp : FILE
  data : List D
  s : X2SYS_INFO D
  loc : Locals
  n_read : Nat
  error : Bool

/-- What one pass of the `switch` does: go on with the loop, return from the
function, never come back (`hang`), or store past the end of `data`
(`overrun`), after which C defines no behaviour. -/
inductive Flow (D : Type) where
  | next (st : ReadState D)
  | ret (v : Int) (st : ReadState D)
  | hang
  | overrun

/-- The first character `line[0]` of a C string (NUL when it is empty). -/
def firstChar (line : List Char) : Char := line.headD (Char.ofNat 0)

/-- The test `line[0] == '#' || line[0] == s->ms_flag`. -/
def isHeaderLine (ms_flag : Char) (line : List Char) : Bool :=
  firstChar line = '#' || firstChar line = ms_flag

/-- The loop
`while (line[0] == '#' || line[0] == s->ms_flag) { fgets (line, BUFSIZ, fp); if (s->multi_segment) s->ms_next = TRUE; }`
run for at most `fuel + 1` tests: the final `line`, stream and `ms_next`, or
`none` when the test still holds after `fuel` passes. -/
def skipHeaders (size : Nat) (ms_flag : Char) (multi_segment : Bool) :
    Nat → List Char → FILE → Bool → Option (List Char × FILE × Bool)
  | 0, line, fp, ms_next =>
    if isHeaderLine ms_flag line then none else some (line, fp, ms_next)
  | fuel + 1, line, fp, ms_next =>
    if isHeaderLine ms_flag line then
      skipHeaders size ms_flag multi_segment fuel (fgets size line fp).1 (fgets size line fp).2
        (if multi_segment then true else ms_next)
    else some (line, fp, ms_next)

/-- The statements `s->ms_next = FALSE; fgets (line, BUFSIZ, fp); while (...) {...}`
shared by the `A` and `a` cases.  Every pass of the loop that does not repeat
the state takes a character from the stream, so `fp.length` passes decide
whether the loop ends (`skipHeaders_fuel`); `none` is the loop that never ends. -/
def getDataLine {D : Type} (E : Env D) (s : X2SYS_INFO D) (line : List Char) (fp : FILE) :
    Option (List Char × FILE × Bool) :=
  skipHeaders E.BUFSIZ s.ms_flag s.multi_segment (fgets E.BUFSIZ line fp).2.length
    (fgets E.BUFSIZ line fp).1 (fgets E.BUFSIZ line fp).2 false

/-- The loop `while (p) { GMT_scanf (p, G->in_col_type[k], &data[k]); k++; p = strtok (NULL, ...); }`
from index `k` over the remaining tokens.  The loop has no bound on `k`: the
result is `none` when a store `data[k]` falls past the end of `data`.  Entries
of `in_col_type` beyond the list are taken as 0. -/
def scanTokens {D : Type} (E : Env D) (G : GMT_IO) :
    Nat → List (List Char) → List D → Option (List D)
  | _, [], data => some data
  | k, p :: ps, data =>
    if k < data.length then
      scanTokens E G (k + 1) ps (data.set k (E.GMT_scanf p (G.in_col_type.getD k 0)))
    else none

/-- The number of complete items `fread` reports. -/
def freadCount (r : Option (List Char) × FILE) : Nat := if r.1.isSome then 1 else 0

/-- The value of an integer variable after `fread` into it: decoded from the
bytes read, or its old value after a short read. -/
def freadInt {D : Type} (E : Env D) (ty : Char) (r : Option (List Char) × FILE) (old : Int) : Int :=
  match r.1 with
  | some b => E.int_of_bytes ty b
  | none => old

/-- One pass of the `switch (s->info[j].intype)` for field `j` with descriptor `f`.
The sizes of `short`, `int`, `float` and `double` are the 2, 4, 4 and 8 bytes
that the comments of the cases and `x2sys_record_length` give.  In the `A` case
the columns are cut from the C string in `line`: columns beyond its end hold
nothing here (in C they hold what earlier reads left in the buffer), and a
negative column is taken as 0.  In the `f` case the value stored is that of the
variable `i`, as in the source. -/
def readField {D : Type} (F : DoubleOps D) (E : Env D) (G : GMT_IO)
    (f : X2SYS_DATA_INFO D) (j : Nat) (st : ReadState D) : Flow D :=
  if f.intype = 'A' then
    let got : Option (List Char × FILE × Bool) :=
      if j = 0 then getDataLine E st.s st.loc.line st.fp
      else some (st.loc.line, st.fp, st.s.ms_next)
    match got with
    | none => .hang
    | some (line, fp, ms_next) =>
      let buffer := (line.drop f.start_col.toNat).take f.n_cols.toNat
      .next { st with
        fp := fp
        s := { st.s with ms_next := ms_next }
        loc := { st.loc with line := line }
        data := st.data.set j (E.GMT_scanf buffer (G.in_col_type.getD j 0)) }
  else if f.intype = 'a' then
    match getDataLine E st.s st.loc.line st.fp with
    | none => .hang
    | some (line, fp, ms_next) =>
      match scanTokens E G 0 (strtokAll line) st.data with
      | none => .overrun
      | some data =>
        .ret (if (strtokAll line).length ≠ st.s.n_fields then -1 else 0)
          { st with
            fp := fp
            s := { st.s with ms_next := ms_next }
            loc := { st.loc with line := line }
            data := data }
  else if f.intype = 'c' then
    let r := fread 1 st.fp
    let c := freadInt E 'c' r st.loc.c
    .next { st with
      fp := r.2, n_read := st.n_read + freadCount r
      loc := { st.loc with c := c }, data := st.data.set j (F.ofInt c) }
  else if f.intype = 'u' then
    let r := fread 1 st.fp
    let u := freadInt E 'u' r st.loc.u
    .next { st with
      fp := r.2, n_read := st.n_read + freadCount r
      loc := { st.loc with u := u }, data := st.data.set j (F.ofInt u) }
  else if f.intype = 'h' then
    let r := fread 2 st.fp
    let h := freadInt E 'h' r st.loc.h
    .next { st with
      fp := r.2, n_read := st.n_read + freadCount r
      loc := { st.loc with h := h }, data := st.data.set j (F.ofInt h) }
  else if f.intype = 'i' then
    let r := fread 4 st.fp
    let i := freadInt E 'i' r st.loc.i
    .next { st with
      fp := r.2, n_read := st.n_read + freadCount r
      loc := { st.loc with i := i }, data := st.data.set j (F.ofInt i) }
  else if f.intype = 'l' then
    let r := fread E.sizeof_long st.fp
    let L := freadInt E 'l' r st.loc.L
    .next { st with
      fp := r.2, n_read := st.n_read + freadCount r
      loc := { st.loc with L := L }, data := st.data.set j (F.ofInt L) }
  else if f.intype = 'f' then
    let r := fread 4 st.fp
    .next { st with
      fp := r.2, n_read := st.n_read + freadCount r
      data := st.data.set j (F.ofInt st.loc.i) }
  else if f.intype = 'd' then
    let r := fread 8 st.fp
    .next { st with
      fp := r.2, n_read := st.n_read + freadCount r
      data := match r.1 with
        | some b => st.data.set j (F.ofBytes b)
        | none => st.data }
  else .next { st with error := true }

/-- The loop `for (j = 0; !error && j < s->n_fields; j++) switch ...` from index
`j` over the remaining descriptors. -/
def readFields {D : Type} (F : DoubleOps D) (E : Env D) (G : GMT_IO) :
    List (X2SYS_DATA_INFO D) → Nat → ReadState D → Flow D
  | [], _, st => .next st
  | f :: fs, j, st =>
    if st.error then .next st
    else
      match readField F E G f j st with
      | .next st1 => readFields F E G fs (j + 1) st1
      | .ret v st1 => .ret v st1
      | .hang => .hang
      | .overrun => .overrun

/-- The function `x2sys_read_record (fp, data, s, G)`, entered with the automatic
variables holding `loc`: the returned value and the final state, or `none`
when the call has no defined outcome: the header-skipping loop never ends, or
the token loop stores past the end of `data`. -/
def x2sys_read_record {D : Type} (F : DoubleOps D) (E : Env D) (G : GMT_IO)
    (fp : FILE) (data : List D) (s : X2SYS_INFO D) (loc : Locals) :
    Option (Int × ReadState D) :=
  match readFields F E G s.info 0
      { fp := fp, data := data, s := s, loc := loc, n_read := 0, error := false } with
  | .hang => none
  | .overrun => none
  | .ret v st => some (v, st)
  | .next st =>
    some (if st.error || decide (st.n_read ≠ st.s.n_fields) then -1 else 0,
      { st with s := (postProcess F E st.s st.data).1, data := (postProcess F E st.s st.data).2 })

/-! ## Reading a whole file (`x2sys_skip_header`, `x2sys_read_file`) -/

/-- The per-file record `struct X2SYS_FILE_INFO`. -/
structure X2SYS_FILE_INFO where
  year : Int
  n_rows : Int
  n_segments : Int
  ms_rec : List Int
  name : List Char

/-- Modelled from the spec: `GMT_memory (prev, n, size, where)` is GMT's
allocator, not part of `x2sys.c`; the spec describes growable sequences that are
trimmed to the exact row count.  With `prev` empty (`VNULL`) it gives `n` cleared
entries; otherwise it resizes `prev` to `n` entries, keeping the leading ones. -/
def GMT_memory {α : Type} (fill : α) (prev : List α) (n : Nat) : List α :=
  (prev ++ List.replicate n fill).take n

/-- The loop `for (i = 0; i < s->skip; i++) fgets (line, BUFSIZ, fp);`. -/
def skipLines (size : Nat) : Nat → List Char → FILE → FILE
  | 0, _, fp => fp
  | n + 1, line, fp => skipLines size n (fgets size line fp).1 (fgets size line fp).2

/-- The function `x2sys_skip_header (fp, s)`: the stream after the header. -/
def x2sys_skip_header {D : Type} (E : Env D) (fp : FILE) (s : X2SYS_INFO D) : FILE :=
  if s.ascii_in then skipLines E.BUFSIZ s.skip.toNat [] fp
  else fp.drop s.skip.toNat

/-- The state of the reading loop of `x2sys_read_file`; `record` is the array
`rec` and `j` the number of rows stored so far. -/
structure FileState (D : Type) where
  fp : FILE
  record : List D
  s : X2SYS_INFO D
  z : List (List D)
  p : X2SYS_FILE_INFO
  j : Nat
  n_alloc : Nat

/-- The loop `for (i = 0; i < s->n_fields; i++) z[i][j] = rec[i];`.  A store
beyond the allocated length of a column is dropped. -/
def storeRow {D : Type} (j : Nat) : List (List D) → List D → List (List D)
  | [], _ => []
  | col :: cols, [] => col :: cols
  | col :: cols, v :: vs => col.set j v :: storeRow j cols vs

/-- The body of the loop of `x2sys_read_file` after a call of
`x2sys_read_record` that returned 0 and left the state `r`: the row is stored
at index `j`, the segment counter is advanced when a boundary was crossed and
stored in `ms_rec[j]`, `j` is incremented, and when `j` reaches `n_alloc` every
array is enlarged by `GMT_CHUNK` entries. -/
def fileStep {D : Type} (F : DoubleOps D) (E : Env D) (st : FileState D) (r : ReadState D) :
    FileState D :=
  let z1 := storeRow st.j st.z r.data
  let n_segments :=
    if r.s.multi_segment && r.s.ms_next then st.p.n_segments + 1 else st.p.n_segments
  let ms_rec1 := st.p.ms_rec.set st.j n_segments
  let grow : Bool := decide (st.j + 1 = st.n_alloc)
  let n_alloc1 := if grow then st.n_alloc + E.GMT_CHUNK else st.n_alloc
  { fp := r.fp
    record := r.data
    s := r.s
    z := if grow then z1.map (fun col => GMT_memory (F.ofInt 0) col n_alloc1) else z1
    p := { st.p with
      n_segments := n_segments
      ms_rec := if grow then GMT_memory 0 ms_rec1 n_alloc1 else ms_rec1 }
    j := st.j + 1
    n_alloc := n_alloc1 }

/-- The loop `while (!x2sys_read_record (fp, rec, s, G)) { ... }` of
`x2sys_read_file`, run for at most `fuel` calls of `x2sys_read_record`; the
`k`-th call (from 0) finds the automatic variables holding `g k`.  The result is
the state when the loop exits, `none` when it has not exited after `fuel` calls
or a call has no defined outcome (it never returns, or it stores past the end
of `rec`). -/
def fileLoop {D : Type} (F : DoubleOps D) (E : Env D) (G : GMT_IO) (g : Nat → Locals) :
    Nat → FileState D → Option (FileState D)
  | 0, _ => none
  | fuel + 1, st =>
    match x2sys_read_record F E G st.fp st.record st.s (g st.j) with
    | none => none
    | some (v, r) =>
      if v ≠ 0 then some { st with fp := r.fp, record := r.data, s := r.s }
      else fileLoop F E G g fuel (fileStep F E st r)

/-- What `x2sys_read_file` hands back: the returned value, the matrix `*data`
(empty when the file could not be opened, where `*data` is not assigned), and
the final `*s` and `*p`. -/
structure ReadFileResult (D : Type) where
  ret : Int
  data : List (List D)
  s : X2SYS_INFO D
  p : X2SYS_FILE_INFO

/-- The function `x2sys_read_file (fname, data, s, p, G)`.  `file` is the content
of the file `fname`, `none` when `fopen` fails; `fuel` bounds the number of
`x2sys_read_record` calls and `none` is returned when they do not suffice or one
of them has no defined outcome. -/
def x2sys_read_file {D : Type} (F : DoubleOps D) (E : Env D) (G : GMT_IO) (g : Nat → Locals)
    (fuel : Nat) (fname : List Char) (file : Option FILE) (s : X2SYS_INFO D)
    (p : X2SYS_FILE_INFO) : Option (ReadFileResult D) :=
  match file with
  | none => some { ret := -1, data := [], s := s, p := p }
  | some fp0 =>
    match fileLoop F E G g fuel
        { fp := x2sys_skip_header E fp0 s
          record := GMT_memory (F.ofInt 0) [] s.n_fields
          s := s
          z := List.replicate s.n_fields (GMT_memory (F.ofInt 0) [] E.GMT_CHUNK)
          p := { p with
            ms_rec := GMT_memory 0 [] E.GMT_CHUNK
            n_segments := if s.multi_segment then -1 else p.n_segments }
          j := 0
          n_alloc := E.GMT_CHUNK } with
    | none => none
    | some st =>
      some
        { ret := st.j
          data := st.z.map (fun col => GMT_memory (F.ofInt 0) col st.j)
          s := st.s
          p := { st.p with
            ms_rec := GMT_memory 0 st.p.ms_rec st.j
            n_rows := st.j
            year := 0
            name := fname.take 32 } }

/-- The number of bytes one pass of the `switch` of `x2sys_record_length` adds
for a field. -/
def fieldWidth {D : Type} (E : Env D) (f : X2SYS_DATA_INFO D) : Nat :=
  if f.intype = 'c' ∨ f.intype = 'u' then 1
  else if f.intype = 'h' then 2
  else if f.intype = 'i' ∨ f.intype = 'f' then 4
  else if f.intype = 'l' then E.sizeof_long
  else if f.intype = 'd' then 8
  else 0

/-- The function `x2sys_record_length (s)`. -/
def x2sys_record_length {D : Type} (E : Env D) (s : X2SYS_INFO D) : Nat :=
  (s.info.map (fieldWidth E)).sum

/-- The binary type letters `c`, `u`, `h`, `i`, `l`, `f`, `d`. -/
def isBinaryType (c : Char) : Bool :=
  c = 'c' || c = 'u' || c = 'h' || c = 'i' || c = 'l' || c = 'f' || c = 'd'

/-- The number of fields, read in schema order from the stream, whose `fread`
of `fieldWidth` bytes returned a complete item. -/
def completeReads {D : Type} (E : Env D) : List (X2SYS_DATA_INFO D) → FILE → Nat
  | [], _ => 0
  | f :: fs, fp =>
    freadCount (fread (fieldWidth E f) fp) + completeReads E fs (fread (fieldWidth E f) fp).2

/-- The value `x2sys_initialize` gives `do_scale` (cleared by the allocation, set by
`if (!(scale == 1.0 && offset == 0.0)) do_scale = TRUE`). -/
def initDoScale {D : Type} (F : DoubleOps D) (scale offset : D) : Bool :=
  !(F.eq scale (F.ofInt 1) && F.eq offset (F.ofInt 0))

/-! ## A concrete instance for evaluating the code -/

/-- A concrete stand-in for `double`: the exact decimal number `m / 10 ^ e`, or NaN. -/
inductive Dec where
  | nan
  | val (m : Int) (e : Nat)
  deriving DecidableEq

/-- Whether a `Dec` is the NaN. -/
def Dec.isNan : Dec → Bool
  | .nan => true
  | .val _ _ => false

/-- Numeric equality of `Dec`, false when a side is NaN. -/
def Dec.eq : Dec → Dec → Bool
  | .val m1 e1, .val m2 e2 => decide (m1 * 10 ^ e2 = m2 * 10 ^ e1)
  | _, _ => false

/-- Exact product. -/
def Dec.mul : Dec → Dec → Dec
  | .val m1 e1, .val m2 e2 => .val (m1 * m2) (e1 + e2)
  | _, _ => .nan

/-- Exact sum. -/
def Dec.add : Dec → Dec → Dec
  | .val m1 e1, .val m2 e2 => .val (m1 * 10 ^ e2 + m2 * 10 ^ e1) (e1 + e2)
  | _, _ => .nan

/-- The unsigned little-endian value of a byte string. -/
def leNat : List Char → Nat
  | [] => 0
  | b :: bs => b.toNat % 256 + 256 * leNat bs

/-- Little-endian integers: unsigned for `u`, two's complement otherwise. -/
def leInt (ty : Char) (bs : List Char) : Int :=
  if ty = 'u' then (leNat bs : Int)
  else if leNat bs < 2 ^ (8 * bs.length - 1) then (leNat bs : Int)
  else (leNat bs : Int) - 2 ^ (8 * bs.length)

/-- The operations of `Dec`.  `ofBytes` has no IEEE format to decode here and
takes the bytes as a little-endian integer. -/
def decOps : DoubleOps Dec where
  nan := .nan
  isNan := Dec.isNan
  eq := Dec.eq
  mul := Dec.mul
  add := Dec.add
  ofInt := fun n => .val n 0
  ofBytes := fun bs => .val (leInt 'l' bs) 0

/-- The digits of a decimal number after its sign: mantissa `m`, `e` digits
after the point so far, `pt` whether the point has been passed. -/
def scanDigits (sg : Int) : List Char → Nat → Nat → Bool → Dec
  | [], m, e, _ => .val (sg * m) e
  | c :: cs, m, e, pt =>
    if c.isDigit then scanDigits sg cs (m * 10 + (c.toNat - 48)) (if pt then e + 1 else e) pt
    else if c = '.' && !pt then scanDigits sg cs m e true
    else .nan

/-- Modelled from the spec: `GMT_scanf` is GMT's text-to-number conversion, not
part of `x2sys.c`; the spec says a token or column slice is parsed as a number.
Here a plain decimal number with optional minus sign is converted exactly and
every other text gives NaN. -/
def decScanf (t : List Char) (_col_type : Int) : Dec :=
  match t with
  | [] => .nan
  | '-' :: cs => if cs = [] then .nan else scanDigits (-1) cs 0 0 false
  | cs => scanDigits 1 cs 0 0 false

/-- Modelled from the spec: `GMT_lon_range_adjust` is a GMT function, not part
of `x2sys.c`; the spec says it normalizes the value into the configured
longitude domain.  Here whole turns are added or removed to reach 0 to 360
(range 0) or -180 to 180 (any other range); NaN stays NaN. -/
def decLonAdjust (range : Int) : Dec → Dec
  | .nan => .nan
  | .val m e =>
    if range = 0 then .val (m % (360 * 10 ^ e)) e
    else .val ((m + 180 * 10 ^ e) % (360 * 10 ^ e) - 180 * 10 ^ e) e

/-- An example environment over `Dec` with allocation increment `chunk`: 8-byte
`long`, little-endian integers. -/
def decEnv (chunk : Nat) : Env Dec where
  BUFSIZ := 8192
  sizeof_long := 8
  GMT_CHUNK := chunk
  GMT_scanf := decScanf
  GMT_lon_range_adjust := decLonAdjust
  int_of_bytes := leInt

/-- A descriptor of type `ty` named `nm`, with NaN proxy `proxy` (in use when
`hasProxy`), scale `sc` and offset `off`; `do_scale` is set as
`x2sys_initialize` sets it. -/
def mkField (nm : String) (ty : Char) (hasProxy : Bool) (proxy sc off : Dec) :
    X2SYS_DATA_INFO Dec where
  nan_proxy := proxy
  scale := sc
  offset := off
  start_col := 0
  stop_col := 0
  n_cols := 0
  has_nan_proxy := hasProxy
  has_nans := false
  do_scale := initDoScale decOps sc off
  name := nm.toList
  format := "%g".toList
  intype := ty

/-- A schema over the given descriptors with `x_col`, `y_col`, `t_col` as given
and every flag off. -/
def mkSchema (info : List (X2SYS_DATA_INFO Dec)) (x_col y_col t_col : Int) : X2SYS_INFO Dec where
  info := info
  n_out_columns := info.length
  n_data_cols := 0
  rec_size := 0
  x_col := x_col
  y_col := y_col
  t_col := t_col
  skip := 0
  flags := 0
  out_order := (List.range info.length).map Int.ofNat
  use_column := List.replicate info.length 1
  geographic := false
  geodetic := 0
  ms_next := false
  multi_segment := false
  ms_flag := '>'
  ascii_in := true
  ascii_out := true

/-- Column types as `x2sys_initialize` leaves them are irrelevant to `decScanf`;
an empty `GMT_IO`. -/
def noColTypes : GMT_IO where
  in_col_type := []
  out_col_type := []

/-- Automatic variables that hold an empty line and zeros on entry. -/
def zeroLocals : Locals where
  line := []
  c := 0
  u := 0
  h := 0
  i := 0
  L := 0

/-- A one-field binary schema: `depth`, a 2-byte integer with NaN proxy -9999,
scale 2 and offset 1. -/
def depthSchema : X2SYS_INFO Dec :=
  mkSchema [mkField "depth" 'h' true (.val (-9999) 0) (.val 2 0) (.val 1 0)] (-1) (-1) (-1)

/-- A one-field binary schema of a geographic data set: `lon`, a signed byte
without NaN proxy, scale 2 and offset 0, which is the x column. -/
def lonSchema : X2SYS_INFO Dec :=
  { mkSchema [mkField "lon" 'c' false (.val 0 0) (.val 2 0) (.val 0 0)] 0 (-1) (-1) with
    geographic := true }

/-- The schema of the end-to-end example of the spec: ascii-token fields `lon`
and `lat` with scale 1 and offset 0 and `depth` with NaN proxy -9999. -/
def lonLatDepth : X2SYS_INFO Dec :=
  mkSchema
    [mkField "lon" 'a' false (.val 0 0) (.val 1 0) (.val 0 0),
     mkField "lat" 'a' false (.val 0 0) (.val 1 0) (.val 0 0),
     mkField "depth" 'a' true (.val (-9999) 0) (.val 1 0) (.val 0 0)] 0 1 (-1)

/-- A one-field ascii-card schema: `depth` in columns 0 to 4. -/
def cardSchema : X2SYS_INFO Dec :=
  mkSchema
    [{ mkField "depth" 'A' false (.val 0 0) (.val 1 0) (.val 0 0) with
       start_col := 0, stop_col := 4, n_cols := 5 }] (-1) (-1) (-1)

/-- The property `P` of the state an outcome of the `switch` carries. -/
def Flow.Holds {D : Type} (P : ReadState D → Prop) : Flow D → Prop
  | .next st => P st
  | .ret _ st => P st
  | .hang => True
  | .overrun => True

/-- The rows a run of `x2sys_read_file` decodes, told without the storage: the
successive calls of `x2sys_read_record` (the `k`-th finding the automatic
variables holding `g k`) up to the first one that returns a non-zero value; for
each call that returned 0, the decoded `data` and whether the call left a
segment boundary to count (`s->multi_segment && s->ms_next`).  `none` when no
call among the first `fuel` returns a non-zero value or one has no defined
outcome. -/
def decodedRecords {D : Type} (F : DoubleOps D) (E : Env D) (G : GMT_IO) (g : Nat → Locals) :
    Nat → Nat → FILE → List D → X2SYS_INFO D → Option (List (List D × Bool))
  | 0, _, _, _, _ => none
  | fuel + 1, k, fp, record, s =>
    match x2sys_read_record F E G fp record s (g k) with
    | none => none
    | some (v, r) =>
      if v ≠ 0 then some []
      else (decodedRecords F E G g fuel (k + 1) r.fp r.data r.s).map
        (fun rows => (r.data, r.s.multi_segment && r.s.ms_next) :: rows)

/-- The segment ids of successive rows when the counter stands at `n` and each
row tells whether a boundary precedes it: the counter goes up by one at a
boundary and is recorded for the row. -/
def segIds : Int → List Bool → List Int
  | _, [] => []
  | n, b :: bs => (if b then n + 1 else n) :: segIds (if b then n + 1 else n) bs

/-- Whether `l` is one whole line of at most `n` characters: a newline as last
character and none before it.  Such a line is what one `fgets` call with room
for `n` characters takes from a stream that starts with it. -/
def lineFits : Nat → List Char → Bool
  | 0, _ => false
  | _ + 1, [] => false
  | n + 1, c :: cs => if c = '\n' then cs.isEmpty else lineFits n cs

/-- A stretch of a multi-segment text file: a run of header lines (possibly
empty) and the data line that follows it. -/
abbrev Block := List (List Char) × List Char

/-- The stream made of the given blocks followed by `tail`. -/
def fileText : List Block → FILE → FILE
  | [], tail => tail
  | b :: bs, tail => b.1.flatten ++ (b.2 ++ fileText bs tail)

/-- A stream, as `x2sys_read_file` finds it after the header, that consists of
the blocks `blocks` and then of a `tail` on which the reading stops. -/
structure SegmentedFile {D : Type} (E : Env D) (s : X2SYS_INFO D) (g : Nat → Locals)
    (blocks : List Block) (tail : FILE) (fp : FILE) : Prop where
  /-- The stream is the blocks followed by the tail. -/
  text : fp = fileText blocks tail
  /-- The schema is an ascii-token one: every field has type `a`, and there is one. -/
  ascii : (∀ f ∈ s.info, f.intype = 'a') ∧ s.info ≠ []
  /-- Every header line is one line that fits the buffer and starts with `#` or
  the segment marker. -/
  headers : ∀ b ∈ blocks, ∀ h ∈ b.1,
    lineFits (E.BUFSIZ - 1) h = true ∧ isHeaderLine s.ms_flag (cstr h) = true
  /-- Every data line is one line that fits the buffer, does not start with `#`
  or the segment marker, and has `n_fields` tokens. -/
  rows : ∀ b ∈ blocks,
    lineFits (E.BUFSIZ - 1) b.2 = true ∧ isHeaderLine s.ms_flag (cstr b.2) = false ∧
    (strtokAll (cstr b.2)).length = s.n_fields
  /-- On the tail the next call finds a line with fewer than `n_fields` tokens (a
  line with more tokens would make the call store past the record buffer). -/
  stop : ∃ r : List Char × FILE × Bool,
    getDataLine E s (g blocks.length).line tail = some r ∧
    (strtokAll r.1).length < s.n_fields

/-- The schema `lonLatDepth` with multi-segment enabled (marker `>`). -/
def segSchema : X2SYS_INFO Dec := { lonLatDepth with multi_segment := true }

/-- A multi-segment file of three rows: a run of two header lines, a row, a
second row right after it, a run of one marker line, a third row. -/
def segBlocks : List Block :=
  [(["> first\n".toList, "# note\n".toList], "1 2 3\n".toList),
   ([], "4 5 6\n".toList),
   ([">\n".toList], "7 8 9\n".toList)]

/-- A multi-segment file whose two rows come before any marker line, with one
marker line and a third row after them. -/
def lateBlocks : List Block :=
  [([], "1 2 3\n".toList),
   ([], "4 5 6\n".toList),
   ([">\n".toList], "7 8 9\n".toList)]

/-- A one-field binary schema: `v`, a signed byte without NaN proxy, scale 1 and
offset 0. -/
def byteSchema : X2SYS_INFO Dec :=
  mkSchema [mkField "v" 'c' false (.val 0 0) (.val 1 0) (.val 0 0)] (-1) (-1) (-1)

/-- A file record before any read: everything zero or empty. -/
def emptyFileInfo : X2SYS_FILE_INFO where
  year := 0
  n_rows := 0
  n_segments := 0
  ms_rec := []
  name := []

/-- What the reading loop keeps true at its head: room for row `j` in every
array, and a record buffer with one entry per column. -/
structure FileInv {D : Type} (st : FileState D) : Prop where
  room : st.j < st.n_alloc
  cols : ∀ (i : Nat) (col : List D), st.z[i]? = some col → col.length = st.n_alloc
  segs : st.p.ms_rec.length = st.n_alloc
  width : st.record.length = st.z.length

/-! ## Distances along a track (`x2sys_distances`) -/

/-- Further operations on C `double` that `x2sys_distances` uses. -/
structure DistOps (D : Type) where
  /-- The C difference `-`. -/
  sub : D → D → D
  /-- The C comparison `<=`. -/
  le : D → D → Bool
  /-- The `math.h` function `hypot`. -/
  hypot : D → D → D
  /-- The GMT macro `cosd`, the cosine of an angle in degrees. -/
  cosd : D → D
  /-- The GMT function `GMT_great_circle_dist (lon1, lat1, lon2, lat2)`. -/
  GMT_great_circle_dist : D → D → D → D → D
  /-- The constant `0.5`. -/
  half : D
  /-- The value of `0.001 * 2.0 * M_PI * 6371008.7714 / 360.0`. -/
  km_pr_deg : D

/-- The array element `a[i]`.  An index beyond the array, which the C code must
not be given, reads NaN here. -/
def arr {D : Type} (F : DoubleOps D) (a : List D) (i : Nat) : D := a.getD i F.nan

/-- The term that the loop of mode `dist_flag` (0, 1 or 2) adds to `d[prev]` to
get `d[this]`. -/
def segment {D : Type} (F : DoubleOps D) (M : DistOps D) (x y : List D) (dist_flag : Int)
    (this prev : Nat) : D :=
  if dist_flag = 0 then
    M.hypot (M.sub (arr F x this) (arr F x prev)) (M.sub (arr F y this) (arr F y prev))
  else if dist_flag = 1 then
    F.mul
      (M.hypot
        (F.mul (M.sub (arr F x this) (arr F x prev))
          (M.cosd (F.mul M.half (F.add (arr F y this) (arr F y prev)))))
        (M.sub (arr F y this) (arr F y prev)))
      M.km_pr_deg
  else
    F.mul (M.GMT_great_circle_dist (arr F x this) (arr F y this) (arr F x prev) (arr F y prev))
      M.km_pr_deg

/-- The loop `for (this = 1, prev = 0; this < n; this++, prev++) d[this] = d[prev] + ...;`
with `k` passes left. -/
def distLoop {D : Type} (F : DoubleOps D) (seg : Nat → Nat → D) :
    Nat → Nat → Nat → List D → List D
  | 0, _, _, d => d
  | k + 1, this, prev, d =>
    distLoop F seg k (this + 1) (prev + 1) (d.set this (F.add (arr F d prev) (seg this prev)))

/-- The function `x2sys_distances (x, y, n, dist_flag)`: the array `d`, or `none`
when the function ends the program (`exit (EXIT_FAILURE)` on a wrong flag).
`d` is allocated by `GMT_memory` with `n` cleared entries. -/
def x2sys_distances {D : Type} (F : DoubleOps D) (M : DistOps D) (x y : List D) (n : Nat)
    (dist_flag : Int) : Option (List D) :=
  if dist_flag = 0 ∨ dist_flag = 1 ∨ dist_flag = 2 then
    some (distLoop F (segment F M x y dist_flag) (n - 1) 1 0 (GMT_memory (F.ofInt 0) [] n))
  else none

/-- The difference of two `Dec`, exact. -/
def Dec.sub : Dec → Dec → Dec
  | .val m1 e1, .val m2 e2 => .val (m1 * 10 ^ e2 - m2 * 10 ^ e1) (e1 + e2)
  | _, _ => .nan

/-- The comparison `<=` of two `Dec`, false when a side is NaN. -/
def Dec.le : Dec → Dec → Bool
  | .val m1 e1, .val m2 e2 => decide (m1 * 10 ^ e2 ≤ m2 * 10 ^ e1)
  | _, _ => false

/-- The largest `k` up to the first argument whose square is at most `s`. -/
def isqrtBelow : Nat → Nat → Nat
  | 0, _ => 0
  | k + 1, s => if (k + 1) * (k + 1) ≤ s then k + 1 else isqrtBelow k s

/-- The function `hypot` on `Dec`: the square root of the sum of the squares,
rounded down to the decimal places of the arguments. -/
def Dec.hypot : Dec → Dec → Dec
  | .val m1 e1, .val m2 e2 =>
    .val (isqrtBelow ((m1 * 10 ^ e2).natAbs + (m2 * 10 ^ e1).natAbs)
      ((m1 * 10 ^ e2).natAbs ^ 2 + (m2 * 10 ^ e1).natAbs ^ 2)) (e1 + e2)
  | _, _ => .nan

/-- The cosine of an angle in degrees on `Dec`: exact at 0, 60, 90, 120 and 180
degrees, where it is a decimal number, and NaN elsewhere. -/
def Dec.cosd (a : Dec) : Dec :=
  if Dec.eq a (.val 0 0) then .val 1 0
  else if Dec.eq a (.val 60 0) then .val 5 1
  else if Dec.eq a (.val 90 0) then .val 0 0
  else if Dec.eq a (.val 120 0) then .val (-5) 1
  else if Dec.eq a (.val 180 0) then .val (-1) 0
  else .nan

/-- Modelled from the spec: `GMT_great_circle_dist` is a GMT function, not part
of `x2sys.c`; the spec calls it the great-circle distance between two points,
which `x2sys_distances` takes in degrees.  On `Dec` it is given for two points
of one meridian (the difference of the latitudes, as a non-negative number) and
is NaN otherwise. -/
def Dec.greatCircle (lon1 lat1 lon2 lat2 : Dec) : Dec :=
  if Dec.eq lon1 lon2 then
    (if Dec.le lat2 lat1 then Dec.sub lat1 lat2 else Dec.sub lat2 lat1)
  else .nan

/-- The operations of `x2sys_distances` on `Dec`; `km_pr_deg` to eight decimal
places. -/
def decDist : DistOps Dec where
  sub := Dec.sub
  le := Dec.le
  hypot := Dec.hypot
  cosd := Dec.cosd
  GMT_great_circle_dist := Dec.greatCircle
  half := .val 5 1
  km_pr_deg := .val 11119492664 8

/-! ## Choosing and writing output columns (`x2sys_pick_fields`, `x2sys_output_record`) -/

/-- The tokens that `strtok (line, ",")` followed by `strtok (NULL, ",")` until
NULL returns, in order: the maximal runs of characters other than the comma.
`cur` is the token being scanned, reversed. -/
def commaTokensFrom (cur : List Char) : List Char → List (List Char)
  | [] => if cur = [] then [] else [cur.reverse]
  | c :: cs =>
    if c = ',' then
      (if cur = [] then commaTokensFrom [] cs else cur.reverse :: commaTokensFrom [] cs)
    else commaTokensFrom (c :: cur) cs

/-- The names that `x2sys_pick_fields` finds in `string`: the tokens of the copy
`strncpy (line, string, BUFSIZ)`.  A `string` of `BUFSIZ` characters or more
leaves `line` without its final NUL; the copy is then taken as it stands. -/
def pickNames {D : Type} (E : Env D) (string : List Char) : List (List Char) :=
  commaTokensFrom [] (string.take E.BUFSIZ)

/-- The loop `j = 0; while (j < s->n_fields && strcmp (p, s->info[j].name)) j++;`
from index `j` over the remaining descriptors: the final `j`, which is
`n_fields` when no name equals `p`. -/
def findName {D : Type} (p : List Char) : List (X2SYS_DATA_INFO D) → Nat → Nat
  | [], j => j
  | f :: fs, j => if p = f.name then j else findName p fs (j + 1)

/-- The call `memset ((void *)s->use_column, 0, (size_t)(s->n_fields * sizeof (int)))`. -/
def clearColumns (n : Nat) (use_column : List Int) : List Int :=
  List.replicate (min n use_column.length) 0 ++ use_column.drop n

/-- The loop `while (p) { ... p = strtok (NULL, ","); i++; }` of
`x2sys_pick_fields` over the remaining names, `i` names having been handled:
the schema with `out_order`, `use_column` and `n_out_columns` set, or `none`
when a name is unknown and the function ends the program
(`exit (EXIT_FAILURE)`).  A store beyond the end of `out_order` is dropped. -/
def pickLoop {D : Type} : List (List Char) → Nat → X2SYS_INFO D → Option (X2SYS_INFO D)
  | [], i, s => some { s with n_out_columns := i }
  | p :: ps, i, s =>
    if findName p s.info 0 < s.n_fields then
      pickLoop ps (i + 1)
        { s with
          out_order := s.out_order.set i (findName p s.info 0)
          use_column := s.use_column.set (findName p s.info 0) 1 }
    else none

/-- The function `x2sys_pick_fields (string, s)`: the new `*s`, or `none` when the
function ends the program on an unknown column name. -/
def x2sys_pick_fields {D : Type} (E : Env D) (string : List Char) (s : X2SYS_INFO D) :
    Option (X2SYS_INFO D) :=
  pickLoop (pickNames E string) 0 { s with use_column := clearColumns s.n_fields s.use_column }

/-- What `x2sys_output_record` takes from outside `x2sys.c`. -/
structure OutEnv (D : Type) where
  /-- The characters `fprintf (fp, format, value)` writes. -/
  fprintf : List Char → D → List Char
  /-- The 8 bytes of the object representation of a `double`. -/
  bytes_of_double : D → List Char

/-- The statement
`(GMT_is_dnan (data[k])) ? fprintf (fp, "NaN") : fprintf (fp, s->info[k].format, data[k]);`
for `k = s->out_order[i]`: the characters written.  An `out_order` entry, field
or value beyond its array reads 0, an empty format or NaN here. -/
def outputCell {D : Type} (F : DoubleOps D) (O : OutEnv D) (s : X2SYS_INFO D)
    (data : List D) (i : Nat) : List Char :=
  if F.isNan (arr F data (s.out_order.getD i 0).toNat) then "NaN".toList
  else O.fprintf ((s.info.map (fun f => f.format)).getD (s.out_order.getD i 0).toNat [])
    (arr F data (s.out_order.getD i 0).toNat)

/-- The loop `for (i = 0; i < s->n_out_columns-1; i++) { ...; fputc ('\t', fp); }`
from index `i` with `k` passes left: the characters written. -/
def outputAsciiLoop {D : Type} (F : DoubleOps D) (O : OutEnv D) (s : X2SYS_INFO D)
    (data : List D) : Nat → Nat → List Char
  | 0, _ => []
  | k + 1, i => outputCell F O s data i ++ '\t' :: outputAsciiLoop F O s data k (i + 1)

/-- The loop `for (i = 0; i < s->n_out_columns; i++) { k = s->out_order[i]; fwrite (...); }`
from index `i` with `k` passes left: the bytes written. -/
def outputBinaryLoop {D : Type} (F : DoubleOps D) (O : OutEnv D) (s : X2SYS_INFO D)
    (data : List D) : Nat → Nat → List Char
  | 0, _ => []
  | k + 1, i =>
    O.bytes_of_double (arr F data (s.out_order.getD i 0).toNat) ++
      outputBinaryLoop F O s data k (i + 1)

/-- The function `x2sys_output_record (fp, data, s)`: the content of the output
stream `fp` after the call, and the value returned.  After the ascii loop `i`
is `n_out_columns - 1`, or 0 when the loop made no pass. -/
def x2sys_output_record {D : Type} (F : DoubleOps D) (O : OutEnv D) (fp : List Char)
    (data : List D) (s : X2SYS_INFO D) : List Char × Int :=
  if s.ascii_out then
    (fp ++ outputAsciiLoop F O s data (s.n_out_columns - 1).toNat 0 ++
      outputCell F O s data (s.n_out_columns - 1).toNat ++ ['\n'], s.n_out_columns)
  else
    (fp ++ outputBinaryLoop F O s data s.n_out_columns.toNat 0, s.n_out_columns)

/-- The decimal digits of `n`, most significant first, in front of `acc`;
`fuel` bounds their number. -/
def natDigits : Nat → Nat → List Char → List Char
  | 0, _, acc => acc
  | fuel + 1, n, acc =>
    if n < 10 then Char.ofNat (48 + n) :: acc
    else natDigits fuel (n / 10) (Char.ofNat (48 + n % 10) :: acc)

/-- Modelled from the spec: `fprintf` with a field's format string belongs to the
C library; the spec says the value is emitted using the format string.  On
`Dec` every format writes the number in plain decimal notation with the
decimal places it carries. -/
def decPrint (_format : List Char) : Dec → List Char
  | .nan => "nan".toList
  | .val m e =>
    (if m < 0 then ['-'] else []) ++
      natDigits (m.natAbs + 1) (m.natAbs / 10 ^ e) [] ++
      (if e = 0 then []
       else '.' :: (natDigits e (m.natAbs % 10 ^ e) []).leftpad e '0')

/-- The output environment of `Dec`: decimal printing, and as the 8 bytes of a
value the little-endian two's-complement bytes of its mantissa (the exponent is
not stored; the examples use whole numbers). -/
def decOut : OutEnv Dec where
  fprintf := decPrint
  bytes_of_double := fun d =>
    match d with
    | .nan => List.replicate 8 (Char.ofNat 255)
    | .val m _ => (List.range 8).map (fun k => Char.ofNat ((m % 2 ^ 64).toNat / 256 ^ k % 256))

/-- The two-field schema `lon`, `lat` of ascii-token fields, as
`x2sys_initialize` leaves its output columns: all of them, in schema order. -/
def lonLat : X2SYS_INFO Dec :=
  mkSchema
    [mkField "lon" 'a' false (.val 0 0) (.val 1 0) (.val 0 0),
     mkField "lat" 'a' false (.val 0 0) (.val 1 0) (.val 0 0)] 0 1 (-1)

/-! ## Reading the definition file (`x2sys_n_data_cols`, `x2sys_initialize`) -/

/-- The function `x2sys_n_data_cols (s)`: the number of fields that are neither
the x, y or t column nor deselected.  A `use_column` entry beyond the array
reads 0. -/
def x2sys_n_data_cols {D : Type} (s : X2SYS_INFO D) : Int :=
  (((List.range s.n_fields).filter (fun (i : Nat) =>
    !(decide (Int.ofNat i = s.x_col)) && !(decide (Int.ofNat i = s.y_col)) &&
    !(decide (Int.ofNat i = s.t_col)) && !(decide (s.use_column.getD i 0 = 0)))).length : Int)

/-- The `ctype.h` test `isspace` in the C locale. -/
def isSpace (c : Char) : Bool :=
  c = ' ' || c = '\t' || c = '\n' || c = Char.ofNat 11 || c = Char.ofNat 12 || c = '\r'

/-- The `ctype.h` function `tolower` in the C locale. -/
def tolower (c : Char) : Char :=
  if 65 ≤ c.toNat ∧ c.toNat ≤ 90 then Char.ofNat (c.toNat + 32) else c

/-- The text after the white space that `sscanf` skips. -/
def skipSpace (l : List Char) : List Char := l.dropWhile isSpace

/-- The `sscanf` conversion `%s`: the next run of characters that are not white
space, and the text after it; `none` at the end of the text. -/
def scanf_s (l : List Char) : Option (List Char × List Char) :=
  if (skipSpace l).takeWhile (fun c => !isSpace c) = [] then none
  else some ((skipSpace l).takeWhile (fun c => !isSpace c),
    (skipSpace l).dropWhile (fun c => !isSpace c))

/-- The `sscanf` directives ` %c` (white space, then one character). -/
def scanf_c (l : List Char) : Option (Char × List Char) :=
  match skipSpace l with
  | [] => none
  | c :: cs => some (c, cs)

/-- The value of a run of decimal digits read after the value `acc`, and the
text after the run. -/
def scanDigitsNat : List Char → Nat → Nat × List Char
  | [], acc => (acc, [])
  | c :: cs, acc =>
    if c.isDigit then scanDigitsNat cs (acc * 10 + (c.toNat - 48)) else (acc, c :: cs)

/-- The `sscanf` conversion `%d`: white space, an optional sign and decimal
digits; `none` when no digit follows.  The value is not reduced to the range of
`int`. -/
def scanf_d (l : List Char) : Option (Int × List Char) :=
  match skipSpace l with
  | [] => none
  | '-' :: cs =>
    if (cs.headD ' ').isDigit then
      some (-((scanDigitsNat cs 0).1 : Int), (scanDigitsNat cs 0).2)
    else none
  | '+' :: cs =>
    if (cs.headD ' ').isDigit then some (((scanDigitsNat cs 0).1 : Int), (scanDigitsNat cs 0).2)
    else none
  | c :: cs =>
    if c.isDigit then
      some (((scanDigitsNat (c :: cs) 0).1 : Int), (scanDigitsNat (c :: cs) 0).2)
    else none

/-- The function `atoi`: the leading integer of a text, 0 when there is none. -/
def atoi (l : List Char) : Int :=
  match scanf_d l with
  | some r => r.1
  | none => 0

/-- What `x2sys_initialize` takes from outside `x2sys.c`. -/
structure InitEnv (D : Type) where
  /-- The `sscanf` conversion `%lf`: the number read and the text after it; `none`
  when the text does not start with a number. -/
  scanf_lf : List Char → Option (D × List Char)
  /-- The GMT column type `GMT_IS_LON`. -/
  GMT_IS_LON : Int
  /-- The GMT column type `GMT_IS_LAT`. -/
  GMT_IS_LAT : Int
  /-- The GMT column type `GMT_IS_UNKNOWN`. -/
  GMT_IS_UNKNOWN : Int

/-- The values `x2sys_initialize` finds in storage that it never cleared: an
entry of `X->info` that the enlargement by `GMT_memory` added, and the automatic
variables `yes_no` and `cardcol`. -/
structure InitJunk (D : Type) where
  entry : X2SYS_DATA_INFO D
  yes_no : Char
  cardcol : List Char

/-- The progress of one `sscanf` call on a data line: the descriptor and the
variables `yes_no` and `cardcol` as assigned so far, and the text still to be
converted, `none` once a conversion has failed (the remaining conversions are
then not made). -/
structure LineScan (D : Type) where
  f : X2SYS_DATA_INFO D
  yes_no : Char
  cardcol : List Char
  rest : Option (List Char)

/-- One conversion of a `sscanf` call: `scan` reads the value from the text and
`assign` stores it. -/
def convert {D α : Type} (scan : List Char → Option (α × List Char))
    (assign : LineScan D → α → LineScan D) (st : LineScan D) : LineScan D :=
  match st.rest with
  | none => st
  | some r =>
    match scan r with
    | none => { st with rest := none }
    | some (v, r1) => { assign st v with rest := some r1 }

/-- The call
`sscanf (line, "%s %c %c %lf %lf %lf %s %s", name, &intype, &yes_no, &nan_proxy, &scale, &offset, format, cardcol)`
on the descriptor `f`. -/
def sscanfDataLine {D : Type} (I : InitEnv D) (line : List Char) (f : X2SYS_DATA_INFO D)
    (yes_no : Char) (cardcol : List Char) : LineScan D :=
  let s0 : LineScan D := { f := f, yes_no := yes_no, cardcol := cardcol, rest := some line }
  let s1 := convert scanf_s (fun st v => { st with f := { st.f with name := v } }) s0
  let s2 := convert scanf_c (fun st v => { st with f := { st.f with intype := v } }) s1
  let s3 := convert scanf_c (fun st v => { st with yes_no := v }) s2
  let s4 := convert (fun r => I.scanf_lf (skipSpace r))
    (fun st v => { st with f := { st.f with nan_proxy := v } }) s3
  let s5 := convert (fun r => I.scanf_lf (skipSpace r))
    (fun st v => { st with f := { st.f with scale := v } }) s4
  let s6 := convert (fun r => I.scanf_lf (skipSpace r))
    (fun st v => { st with f := { st.f with offset := v } }) s5
  let s7 := convert scanf_s (fun st v => { st with f := { st.f with format := v } }) s6
  convert scanf_s (fun st v => { st with cardcol := v }) s7

/-- The statements of the ASCII-card case:
`sscanf (cardcol, "%d-%d", &start_col, &stop_col); n_cols = stop_col - start_col + 1;`. -/
def cardColumns {D : Type} (cardcol : List Char) (f : X2SYS_DATA_INFO D) : X2SYS_DATA_INFO D :=
  let f1 : X2SYS_DATA_INFO D :=
    match scanf_d cardcol with
    | none => f
    | some (a, r) =>
      match r with
      | '-' :: r1 =>
        (match scanf_d r1 with
         | none => { f with start_col := a }
         | some (b, _) => { f with start_col := a, stop_col := b })
      | _ => { f with start_col := a }
  { f1 with n_cols := f1.stop_col - f1.start_col + 1 }

/-- Lines 315 to 324 of `x2sys_initialize` for one data line, on the descriptor
`f` found in `X->info[i]`: the `sscanf` call, the card columns, and the flags
`has_nan_proxy` and `do_scale`. -/
def initField {D : Type} (F : DoubleOps D) (I : InitEnv D) (line : List Char)
    (f : X2SYS_DATA_INFO D) (yes_no : Char) (cardcol : List Char) : LineScan D :=
  let sc := sscanfDataLine I line f yes_no cardcol
  let f1 := if sc.f.intype = 'A' then cardColumns sc.cardcol sc.f else sc.f
  let f2 := if tolower sc.yes_no ≠ 'Y' then { f1 with has_nan_proxy := true } else f1
  let f3 := if initDoScale F f2.scale f2.offset then { f2 with do_scale := true } else f2
  { sc with f := f3 }

/-- The state of the reading loop of `x2sys_initialize`: `X->info` is the
allocated array of `n_alloc` entries, `i` the number of fields read. -/
structure InitState (D : Type) where
  X : X2SYS_INFO D
  i : Nat
  n_alloc : Nat
  yes_no : Char
  cardcol : List Char

/-- Whether a field name is one of two given names (`!strcmp (name, a) || !strcmp (name, b)`). -/
def isNamed (a b : String) (name : List Char) : Bool :=
  decide (name = a.toList) || decide (name = b.toList)

/-- The part of the loop body of `x2sys_initialize` for a data line (lines 315 to
332). -/
def initDataLine {D : Type} (F : DoubleOps D) (I : InitEnv D) (J : InitJunk D)
    (line : List Char) (st : InitState D) : InitState D :=
  let sc := initField F I line (st.X.info.getD st.i J.entry) st.yes_no st.cardcol
  let grow : Bool := decide (st.i + 1 = st.n_alloc)
  { X := { st.X with
      info :=
        if grow then GMT_memory J.entry (st.X.info.set st.i sc.f) (st.n_alloc + 10)
        else st.X.info.set st.i sc.f
      ascii_in := if tolower sc.f.intype ≠ 'a' then false else st.X.ascii_in
      x_col := if isNamed "x" "lon" sc.f.name then (st.i : Int) else st.X.x_col
      y_col := if isNamed "y" "lat" sc.f.name then (st.i : Int) else st.X.y_col
      t_col := if isNamed "t" "time" sc.f.name then (st.i : Int) else st.X.t_col }
    i := st.i + 1
    n_alloc := if grow then st.n_alloc + 10 else st.n_alloc
    yes_no := sc.yes_no
    cardcol := sc.cardcol }

/-- The part of the loop body of `x2sys_initialize` for a line that starts with
`#` (lines 305 to 311); `strncmp` compares the first 6, 7, 3 and 9 characters. -/
def initDirective {D : Type} (line : List Char) (X : X2SYS_INFO D) : X2SYS_INFO D :=
  let X1 := if line.take 6 = "#SKIP ".toList then { X with skip := atoi (line.drop 6) } else X
  let X2 := if line.take 7 = "#BINARY".toList then { X1 with ascii_in := false } else X1
  let X3 := if line.take 3 = "#GE".toList then { X2 with geographic := true } else X2
  if line.take 9 = "#MULTISEG".toList then
    { X3 with
      multi_segment := true
      ms_flag :=
        match scanf_s line with
        | none => X3.ms_flag
        | some (_, r) =>
          match scanf_c r with
          | none => X3.ms_flag
          | some (c, _) => c }
  else X3

/-- The loop `while (fgets (line, BUFSIZ, fp)) { ... }` of `x2sys_initialize`
over the lines that the `fgets` calls return. -/
def initLoop {D : Type} (F : DoubleOps D) (I : InitEnv D) (J : InitJunk D) :
    List (List Char) → InitState D → InitState D
  | [], st => st
  | line :: ls, st =>
    if line = [] then initLoop F I J ls st
    else if firstChar line = '#' then
      initLoop F I J ls { st with X := initDirective line st.X }
    else initLoop F I J ls (initDataLine F I J line st)

/-- The lines that successive `fgets (line, size, fp)` calls return until the end
of the stream; `fuel` bounds their number (each call takes a character when
`size` is at least 2). -/
def fgetsAll (size : Nat) : Nat → FILE → List (List Char)
  | 0, _ => []
  | fuel + 1, fp =>
    match fp with
    | [] => []
    | _ :: _ => (fgets size [] fp).1 :: fgetsAll size fuel (fgets size [] fp).2

/-- The lines of a definition file as `x2sys_initialize` reads them. -/
def defLines {D : Type} (E : Env D) (fp : FILE) : List (List Char) :=
  fgetsAll E.BUFSIZ fp.length fp

/-- The loop `for (i = 0; i < X->n_fields; i++) { X->out_order[i] = i; X->use_column[i] = 1; G->in_col_type[i] = G->out_col_type[i] = ...; }`
from index `i` with `k` passes left.  A store beyond the end of an array of `G`
is dropped. -/
def initOrder {D : Type} (I : InitEnv D) : Nat → Nat → X2SYS_INFO D × GMT_IO → X2SYS_INFO D × GMT_IO
  | 0, _, r => r
  | k + 1, i, (X, G) =>
    initOrder I k (i + 1)
      ({ X with out_order := X.out_order.set i (i : Int), use_column := X.use_column.set i 1 },
       { in_col_type := G.in_col_type.set i
           (if X.x_col = (i : Int) then I.GMT_IS_LON
            else if X.y_col = (i : Int) then I.GMT_IS_LAT else I.GMT_IS_UNKNOWN)
         out_col_type := G.out_col_type.set i
           (if X.x_col = (i : Int) then I.GMT_IS_LON
            else if X.y_col = (i : Int) then I.GMT_IS_LAT else I.GMT_IS_UNKNOWN) })

/-- The reader that `X->read_file` is set to. -/
inductive Reader where
  | x2sys_read_gmtfile
  | x2sys_read_mgd77file
  | x2sys_read_file
  deriving DecidableEq

/-- What `x2sys_initialize` hands back: the schema `*X` (returned), the reader
stored in `X->read_file`, and the column types left in `*G`. -/
structure InitResult (D : Type) where
  X : X2SYS_INFO D
  read_file : Reader
  G : GMT_IO

/-- A descriptor as `GMT_memory` clears it: every member zero. -/
def clearedField {D : Type} (F : DoubleOps D) : X2SYS_DATA_INFO D where
  nan_proxy := F.ofInt 0
  scale := F.ofInt 0
  offset := F.ofInt 0
  start_col := 0
  stop_col := 0
  n_cols := 0
  has_nan_proxy := false
  has_nans := false
  do_scale := false
  name := []
  format := []
  intype := Char.ofNat 0

/-- The schema after the first statements of `x2sys_initialize`: cleared by
`GMT_memory`, with room for 10 fields, then `ascii_in = TRUE`, the three columns
set to -1, the marker `>`, and what the name of the format decides. -/
def initSchema {D : Type} (F : DoubleOps D) (fname : List Char) : X2SYS_INFO D where
  info := GMT_memory (clearedField F) [] 10
  n_out_columns := 0
  n_data_cols := 0
  rec_size := 0
  x_col := -1
  y_col := -1
  t_col := -1
  skip := 0
  flags := 0
  out_order := []
  use_column := []
  geographic := decide (fname = "gmt".toList) || decide (fname = "mgd77".toList)
  geodetic := if fname = "mgd77".toList then 1 else 0
  ms_next := false
  multi_segment := false
  ms_flag := '>'
  ascii_in := true
  ascii_out := false

/-- The function `x2sys_initialize (fname, G)`.  `deffile` is the content of the
file `X2SYS_HOME/fname.def`, `none` when it cannot be opened: `x2sys_fopen` then
ends the program and the result is `none`.  `rec_size` counts 8 bytes for a
`double`. -/
def x2sys_initialize {D : Type} (F : DoubleOps D) (E : Env D) (I : InitEnv D) (J : InitJunk D)
    (fname : List Char) (deffile : Option FILE) (G : GMT_IO) : Option (InitResult D) :=
  match deffile with
  | none => none
  | some fp =>
    let st := initLoop F I J (defLines E fp)
      { X := initSchema F fname, i := 0, n_alloc := 10, yes_no := J.yes_no, cardcol := J.cardcol }
    let X1 : X2SYS_INFO D :=
      { st.X with
        info := if st.i < st.n_alloc then GMT_memory J.entry st.X.info st.i else st.X.info
        n_out_columns := (st.i : Int)
        out_order := GMT_memory 0 [] st.i
        use_column := GMT_memory 0 [] st.i }
    let r := initOrder I st.i 0 (X1, G)
    some
      { X := { r.1 with
          n_data_cols := x2sys_n_data_cols r.1
          rec_size := (8 + x2sys_n_data_cols r.1) * 8 }
        read_file :=
          if fname = "gmt".toList then .x2sys_read_gmtfile
          else if fname = "mgd77".toList then .x2sys_read_mgd77file
          else .x2sys_read_file
        G := r.2 }

/-- A stand-in on `Dec` for the conversion `%lf`: the leading run of digits,
points and minus signs is converted as `decScanf` converts a token, and the
conversion fails when that gives no number. -/
def decScanLf (l : List Char) : Option (Dec × List Char) :=
  match decScanf ((skipSpace l).takeWhile (fun c => c.isDigit || c = '.' || c = '-')) 0 with
  | .nan => none
  | v => some (v, (skipSpace l).dropWhile (fun c => c.isDigit || c = '.' || c = '-'))

/-- An environment of `x2sys_initialize` on `Dec`; the three column types are
given distinct values. -/
def decInit : InitEnv Dec where
  scanf_lf := decScanLf
  GMT_IS_LON := 4
  GMT_IS_LAT := 2
  GMT_IS_UNKNOWN := 1024

/-- Uncleared storage that holds a cleared descriptor, the character `?` and an
empty text. -/
def decJunk : InitJunk Dec where
  entry := clearedField decOps
  yes_no := '?'
  cardcol := []

/-- A definition file: a comment, a header directive and three ascii-token
fields, the second with the yes/no character `Y`, the third with `y`. -/
def exampleDef : FILE :=
  "# lon/lat/depth\n#SKIP 1\nlon a N 0 1 0 %g\nlat a Y 0 1 0.0 %g\ndepth a y -9999 0.5 0 %g\n".toList

/-- A definition file with a field named `x` and a later field named `lon`. -/
def twoLonDef : FILE :=
  "x a N 0 1 0 %g\ny a N 0 1 0 %g\nlon a N 0 1 0 %g\n".toList

/-- The index, counted from `i` on, of the last descriptor of the list whose name
is `a` or `b`, and `c` when no descriptor has such a name. -/
def lastNamed {D : Type} (a b : String) : List (X2SYS_DATA_INFO D) → Nat → Int → Int
  | [], _, c => c
  | f :: fs, i, c => lastNamed a b fs (i + 1) (if isNamed a b f.name then (i : Int) else c)

/-- The statement that `col` is the column that the names `a` and `b` select among
the descriptors `info` when the last match wins: -1 when no descriptor has one
of the two names, and otherwise the index of the last descriptor that has. -/
def IsLastNamed {D : Type} (a b : String) (info : List (X2SYS_DATA_INFO D)) (col : Int) : Prop :=
  (col = -1 ∧ ∀ f ∈ info, isNamed a b f.name = false) ∨
  ∃ (k : Nat) (f : X2SYS_DATA_INFO D), col = (k : Int) ∧ info[k]? = some f ∧
    isNamed a b f.name = true ∧
    ∀ (k1 : Nat) (f1 : X2SYS_DATA_INFO D), k < k1 → info[k1]? = some f1 →
      isNamed a b f1.name = false

/-! ## The legacy readers (`x2sys_read_gmtfile`, `x2sys_read_mgd77file`) -/

/-- The record `struct GMTMGG_REC` of `gmt_mgg.h`, with the members the readers
use: `time`, `lat`, `lon` and the three entries of `gmt[3]`. -/
structure GMTMGG_REC where
  time : Int
  lat : Int
  lon : Int
  gmt_0 : Int
  gmt_1 : Int
  gmt_2 : Int
  deriving DecidableEq

/-- The decoder state `struct GMTMGG_TIME` of `gmt_mgg.h`; the readers use its
member `first_year` only. -/
structure GMTMGG_TIME where
  first_year : Int
  deriving DecidableEq

/-- What the legacy readers take from outside `x2sys.c`. -/
structure MggEnv (D : Type) where
  /-- The constant `MDEG2DEG`. -/
  MDEG2DEG : D
  /-- The constant `GMTMGG_NODATA`. -/
  GMTMGG_NODATA : Int
  /-- The `double` constant `0.1`. -/
  tenth : D
  /-- The `struct GMTMGG_REC` whose object representation is the given 18 bytes. -/
  rec_of_bytes : List Char → GMTMGG_REC
  /-- The call `gmtmgg_decode_MGD77 (line, FALSE, &record, &gmt)` with `gmt` holding
  the given state (`none` for the null pointer): the returned value, the
  record and the state of `gmt` it leaves. -/
  gmtmgg_decode_MGD77 : List Char → Option GMTMGG_TIME → Int × GMTMGG_REC × Option GMTMGG_TIME

/-- The six values `x2sys_read_gmtfile` stores for a record (lines 603 to 608):
`z[0][j]` to `z[5][j]`. -/
def gmtRow {D : Type} (F : DoubleOps D) (M : MggEnv D) (record : GMTMGG_REC) : List D :=
  [F.ofInt record.time,
   F.mul (F.ofInt record.lat) M.MDEG2DEG,
   F.mul (F.ofInt record.lon) M.MDEG2DEG,
   if record.gmt_0 = M.GMTMGG_NODATA then F.nan else F.mul M.tenth (F.ofInt record.gmt_0),
   if record.gmt_1 = M.GMTMGG_NODATA then F.nan else F.ofInt record.gmt_1,
   if record.gmt_2 = M.GMTMGG_NODATA then F.nan else F.ofInt record.gmt_2]

/-- The six values `x2sys_read_mgd77file` stores for a record (lines 648 to 653):
`z[0][j]` to `z[5][j]`. -/
def mgd77Row {D : Type} (F : DoubleOps D) (M : MggEnv D) (record : GMTMGG_REC) : List D :=
  [F.ofInt record.time,
   F.mul (F.ofInt record.lon) M.MDEG2DEG,
   F.mul (F.ofInt record.lat) M.MDEG2DEG,
   if record.gmt_0 = M.GMTMGG_NODATA then F.nan else F.mul M.tenth (F.ofInt record.gmt_0),
   if record.gmt_1 = M.GMTMGG_NODATA then F.nan else F.ofInt record.gmt_1,
   if record.gmt_2 = M.GMTMGG_NODATA then F.nan else F.ofInt record.gmt_2]

/-- The loop `for (j = 0; j < p->n_rows; j++) { ... }` of `x2sys_read_gmtfile` from
row `j` with `k` rows left: the matrix `z`, or `none` when a record cannot be
read and the function ends the program (`exit (EXIT_FAILURE)`). -/
def gmtLoop {D : Type} (F : DoubleOps D) (M : MggEnv D) :
    Nat → Nat → FILE → List (List D) → Option (List (List D))
  | 0, _, _, z => some z
  | k + 1, j, fp, z =>
    match (fread 18 fp).1 with
    | none => none
    | some b =>
      gmtLoop F M k (j + 1) (fread 18 fp).2 (storeRow j z (gmtRow F M (M.rec_of_bytes b)))

/-- The function `x2sys_read_gmtfile (fname, data, s, p, G)`.  The path lookup is
outside `x2sys.c`: `found` tells whether `gmtmggpath_func` found the leg, `file`
is the content of the file found (`none` when `fopen` fails).  The result is
`none` when the call does not return: the `exit` of the record loop, and a
negative row count, whose conversion `(size_t)p->n_rows` asks `GMT_memory` for
more entries than an allocation can hold.  The bit 0 of `s->flags` is set on
entry.  After a failed read of the agency `p->name` holds the bytes that were
left in the file. -/
def x2sys_read_gmtfile {D : Type} (F : DoubleOps D) (E : Env D) (M : MggEnv D)
    (found : Bool) (file : Option FILE) (s : X2SYS_INFO D) (p : X2SYS_FILE_INFO) :
    Option (ReadFileResult D) :=
  let s1 : X2SYS_INFO D := { s with flags := if s.flags % 2 = 0 then s.flags + 1 else s.flags }
  if !found then some { ret := -1, data := [], s := s1, p := p }
  else
    match file with
    | none => some { ret := -1, data := [], s := s1, p := p }
    | some fp =>
      match (fread 4 fp).1 with
      | none => some { ret := -1, data := [], s := s1, p := p }
      | some b_year =>
        let p1 : X2SYS_FILE_INFO := { p with year := E.int_of_bytes 'i' b_year }
        match (fread 4 (fread 4 fp).2).1 with
        | none => some { ret := -1, data := [], s := s1, p := p1 }
        | some b_rows =>
          let p2 : X2SYS_FILE_INFO := { p1 with n_rows := E.int_of_bytes 'i' b_rows }
          let fp2 := (fread 4 (fread 4 fp).2).2
          match (fread 10 fp2).1 with
          | none => some { ret := -1, data := [], s := s1, p := { p2 with name := cstr fp2 } }
          | some b_name =>
            let p3 : X2SYS_FILE_INFO := { p2 with name := cstr b_name }
            if p3.n_rows < 0 then none
            else
              match gmtLoop F M p3.n_rows.toNat 0 (fread 10 fp2).2
                  (List.replicate 6 (GMT_memory (F.ofInt 0) [] p3.n_rows.toNat)) with
              | none => none
              | some z => some { ret := p3.n_rows, data := z, s := s1, p := p3 }

/-- The variables of the reading loop of `x2sys_read_mgd77file`: the matrix `z`,
the row count `j`, the allocated length `n_alloc` and the pointer `gmt` (`none`
for NULL). -/
structure MgdState (D : Type) where
  z : List (List D)
  j : Nat
  n_alloc : Nat
  gmt : Option GMTMGG_TIME

/-- The body of the loop `while (fgets (line, BUFSIZ, fp)) { ... }` of
`x2sys_read_mgd77file` for one line. -/
def mgd77Step {D : Type} (F : DoubleOps D) (E : Env D) (M : MggEnv D) (line : List Char)
    (st : MgdState D) : MgdState D :=
  if !(firstChar line = '3' || firstChar line = '5') then st
  else if line.length ≠ 121 then st
  else
    let r := M.gmtmgg_decode_MGD77 line st.gmt
    let st1 : MgdState D :=
      if r.1 = 0 then
        { st with z := storeRow st.j st.z (mgd77Row F M r.2.1), j := st.j + 1, gmt := r.2.2 }
      else { st with gmt := r.2.2 }
    if st1.j = st1.n_alloc then
      { st1 with
        n_alloc := st1.n_alloc + E.GMT_CHUNK
        z := st1.z.map (fun col => GMT_memory (F.ofInt 0) col (st1.n_alloc + E.GMT_CHUNK)) }
    else st1

/-- The loop `while (fgets (line, BUFSIZ, fp)) { ... }` of `x2sys_read_mgd77file`
over the lines of the file. -/
def mgd77Loop {D : Type} (F : DoubleOps D) (E : Env D) (M : MggEnv D) :
    List (List Char) → MgdState D → MgdState D
  | [], st => st
  | line :: ls, st => mgd77Loop F E M ls (mgd77Step F E M line st)

/-- The function `x2sys_read_mgd77file (fname, data, s, p, G)`.  `file` is the
content of the file `fname`, `none` when `fopen` fails.  The result is `none`
when the call has no defined result: the statement `p->year = gmt->first_year`
with `gmt` still the null pointer. -/
def x2sys_read_mgd77file {D : Type} (F : DoubleOps D) (E : Env D) (M : MggEnv D)
    (fname : List Char) (file : Option FILE) (s : X2SYS_INFO D) (p : X2SYS_FILE_INFO) :
    Option (ReadFileResult D) :=
  match file with
  | none => some { ret := -1, data := [], s := s, p := p }
  | some fp =>
    let st := mgd77Loop F E M (fgetsAll E.BUFSIZ fp.length fp)
      { z := List.replicate 6 (GMT_memory (F.ofInt 0) [] E.GMT_CHUNK)
        j := 0
        n_alloc := E.GMT_CHUNK
        gmt := none }
    match st.gmt with
    | none => none
    | some t =>
      some
        { ret := st.j
          data := st.z.map (fun col => GMT_memory (F.ofInt 0) col st.j)
          s := s
          p := { p with name := fname.take 32, year := t.first_year, n_rows := st.j } }

/-- The records of the body of a compact-binary file, told without the storage:
the `n` successive 18-byte items of `body`. -/
def gmtRecords {D : Type} (M : MggEnv D) (n : Nat) (body : FILE) : List GMTMGG_REC :=
  (List.range n).map (fun j => M.rec_of_bytes ((body.drop (18 * j)).take 18))

/-- The records the decoder accepts among the lines of a fixed-width text file,
told without the storage, and the state of `gmt` after the last line: a line
counts when it starts with `3` or `5`, is 121 characters long and is decoded
with result 0. -/
def decodedMgd77 {D : Type} (M : MggEnv D) :
    List (List Char) → Option GMTMGG_TIME → List GMTMGG_REC × Option GMTMGG_TIME
  | [], gmt => ([], gmt)
  | line :: ls, gmt =>
    if (firstChar line = '3' ∨ firstChar line = '5') ∧ line.length = 121 then
      if (M.gmtmgg_decode_MGD77 line gmt).1 = 0 then
        ((M.gmtmgg_decode_MGD77 line gmt).2.1 ::
            (decodedMgd77 M ls (M.gmtmgg_decode_MGD77 line gmt).2.2).1,
          (decodedMgd77 M ls (M.gmtmgg_decode_MGD77 line gmt).2.2).2)
      else decodedMgd77 M ls (M.gmtmgg_decode_MGD77 line gmt).2.2
    else decodedMgd77 M ls gmt

/-- The columns of a list of rows of width `w`: column `c` lists entry `c` of
every row. -/
def columnsOf {D : Type} (w : Nat) (rows : List (List D)) : List (List D) :=
  (List.range w).map (fun c => rows.filterMap (fun row => row[c]?))

/-- The indices `i` of the stores `s->out_order[i] = j` that the loop of
`x2sys_pick_fields` makes over the remaining names, `i` names having been
handled; the list ends at an unknown name, where the function ends the
program. -/
def pickStores {D : Type} : List (List Char) → Nat → X2SYS_INFO D → List Nat
  | [], _, _ => []
  | p :: ps, i, s =>
    if findName p s.info 0 < s.n_fields then i :: pickStores ps (i + 1) s else []

/-- The bytes with the given values. -/
def bytes (l : List Nat) : List Char := l.map Char.ofNat

/-- A little-endian layout of `struct GMTMGG_REC`: three 4-byte integers and three
2-byte integers. -/
def leRec (b : List Char) : GMTMGG_REC where
  time := leInt 'i' (b.take 4)
  lat := leInt 'i' ((b.drop 4).take 4)
  lon := leInt 'i' ((b.drop 8).take 4)
  gmt_0 := leInt 'h' ((b.drop 12).take 2)
  gmt_1 := leInt 'h' ((b.drop 14).take 2)
  gmt_2 := leInt 'h' ((b.drop 16).take 2)

/-- The value of the decimal digit at position `i` of a line, 0 when there is
none. -/
def digitAt (line : List Char) (i : Nat) : Int :=
  if (line.getD i ' ').isDigit then (((line.getD i ' ').toNat - 48 : Nat) : Int) else 0

/-- A stand-in for `gmtmgg_decode_MGD77`, which is not part of `x2sys.c`: a line
is accepted (result 0) when its second character is a digit; the record takes
time, latitude and longitude (in degrees) from the digits at positions 1, 2
and 3, the first channel from position 4, and has no data in the second
channel; the first call allocates the state with `first_year` 1971. -/
def toyDecode (line : List Char) (gmt : Option GMTMGG_TIME) :
    Int × GMTMGG_REC × Option GMTMGG_TIME :=
  (if (line.getD 1 ' ').isDigit then 0 else 1,
   { time := digitAt line 1
     lat := 1000000 * digitAt line 2
     lon := 1000000 * digitAt line 3
     gmt_0 := digitAt line 4
     gmt_1 := -32000
     gmt_2 := 7 },
   match gmt with
   | none => some { first_year := 1971 }
   | some t => some t)

/-- An example environment of the legacy readers over `Dec`. -/
def decMgg : MggEnv Dec where
  MDEG2DEG := .val 1 6
  GMTMGG_NODATA := -32000
  tenth := .val 1 1
  rec_of_bytes := leRec
  gmtmgg_decode_MGD77 := toyDecode

/-- The 18 bytes of the record with time 10, latitude 1000000, longitude 2000000
and the channel values 25, -32000 and 7. -/
def recBytes : List Char :=
  bytes [10, 0, 0, 0, 64, 66, 15, 0, 128, 132, 30, 0, 25, 0, 0, 131, 7, 0]

/-- A compact-binary file: year 1999, one row, agency `LDEO`, one record. -/
def gmtFile : FILE :=
  bytes [207, 7, 0, 0, 1, 0, 0, 0, 76, 68, 69, 79, 0, 0, 0, 0, 0, 0] ++ recBytes

/-- A compact-binary file whose header announces two rows and whose body holds
one record and 5 bytes more. -/
def shortGmtFile : FILE :=
  bytes [207, 7, 0, 0, 2, 0, 0, 0, 76, 68, 69, 79, 0, 0, 0, 0, 0, 0] ++ recBytes ++
    bytes [1, 2, 3, 4, 5]

/-- A line of 121 characters, the newline included, that starts with `text`. -/
def mgdLine (text : String) : List Char :=
  (text.toList ++ List.replicate 120 ' ').take 120 ++ ['\n']

/-- A fixed-width text file: a header line, a data line that decodes (time 4,
latitude 1, longitude 2, first channel 5) and a data line that is too short. -/
def mgdFile : FILE :=
  mgdLine "1 header" ++ mgdLine "34125" ++ "34125\n".toList

/-- A two-field binary schema: a 4-byte integer `n` and a 4-byte float `v`,
without NaN proxy, scale 1 and offset 0. -/
def intFloatSchema : X2SYS_INFO Dec :=
  mkSchema
    [mkField "n" 'i' false (.val 0 0) (.val 1 0) (.val 0 0),
     mkField "v" 'f' false (.val 0 0) (.val 1 0) (.val 0 0)] (-1) (-1) (-1)

/-- The type character that the `sscanf` call of `x2sys_initialize` reads from a
data line: the first character after the name and the white space that follows
it; `none` when the line has no second item, where the call leaves `intype` as
it was. -/
def typeChar (line : List Char) : Option Char :=
  match scanf_s line with
  | none => none
  | some (_, r) => (scanf_c r).map (fun v => v.1)

/-- The data lines among the lines of a definition file, told from the text: the
lines that are not empty and do not start with `#`. -/
def dataLines (ls : List (List Char)) : List (List Char) :=
  ls.filter (fun l => !decide (l = []) && !decide (firstChar l = '#'))

/-- The lines of the definition file `exampleDef`. -/
def exampleLines : List (List Char) :=
  ["# lon/lat/depth\n".toList, "#SKIP 1\n".toList, "lon a N 0 1 0 %g\n".toList,
   "lat a Y 0 1 0.0 %g\n".toList, "depth a y -9999 0.5 0 %g\n".toList]

/-- The lines of a definition file with the directive `#BINARY` and two fields, a
4-byte integer and a 2-byte integer. -/
def binaryLines : List (List Char) :=
  ["#BINARY\n".toList, "time i N 0 1 0 %g\n".toList, "depth h Y -9999 0.5 0 %g\n".toList]

/-- The lines of a definition file without directive whose second field is a
2-byte integer. -/
def mixedLines : List (List Char) :=
  ["lon a N 0 1 0 %g\n".toList, "depth h Y -9999 0.5 0 %g\n".toList]

/-! ## Post-processing: NaN proxies, scale and offset -/

theorem postLoop_getElem? {D : Type} (F : DoubleOps D) (E : Env D) (s : X2SYS_INFO D) :
    ∀ (fs : List (X2SYS_DATA_INFO D)) (ds : List D) (i k : Nat) (f : X2SYS_DATA_INFO D) (d : D),
      fs[k]? = some f → ds[k]? = some d →
      (postLoop F E s i fs ds).1[k]? = some (postField F E s (i + k) f d).2 ∧
      (postLoop F E s i fs ds).2[k]? = some (postField F E s (i + k) f d).1 := by
  intro fs
  induction fs with
  | nil => intro ds i k f d hf; simp at hf
  | cons f0 fs ih =>
    intro ds i k f d hf hd
    cases ds with
    | nil => simp at hd
    | cons d0 ds =>
      cases k with
      | zero =>
        simp only [List.getElem?_cons_zero, Option.some.injEq] at hf hd
        subst hf; subst hd
        simp [postLoop]
      | succ k =>
        simp only [List.getElem?_cons_succ] at hf hd
        have h := ih ds (i + 1) k f d hf hd
        have e : i + 1 + k = i + (k + 1) := by omega
        rw [e] at h
        simpa [postLoop] using h

theorem postLoop_length {D : Type} (F : DoubleOps D) (E : Env D) (s : X2SYS_INFO D) :
    ∀ (fs : List (X2SYS_DATA_INFO D)) (ds : List D) (i : Nat),
      (postLoop F E s i fs ds).1.length = fs.length ∧
      (postLoop F E s i fs ds).2.length = ds.length := by
  intro fs
  induction fs with
  | nil => intro ds i; simp [postLoop]
  | cons f0 fs ih =>
    intro ds i
    cases ds with
    | nil => simp [postLoop]
    | cons d0 ds => simp [postLoop, ih ds (i + 1)]

/-- C1: in the post-processing of `x2sys_read_record`, a field `i` with
`has_nan_proxy` set whose raw value compares equal to its `nan_proxy` ends as the
NaN of `GMT_make_dnan` (passed through `GMT_lon_range_adjust` when it is the
longitude column of a geographic schema, which keeps it a NaN), whatever its
`scale`, `offset` and `do_scale` are; and its `has_nans` flag is set. -/
theorem postProcess_nan_proxy {D : Type} (F : DoubleOps D) (E : Env D) (s : X2SYS_INFO D)
    (data : List D) (i : Nat) (f : X2SYS_DATA_INFO D) (d : D)
    (hnan : F.isNan F.nan = true)
    (hadj : ∀ r : Int, F.isNan (E.GMT_lon_range_adjust r F.nan) = true)
    (hf : s.info[i]? = some f) (hd : data[i]? = some d)
    (hp : f.has_nan_proxy = true) (he : F.eq d f.nan_proxy = true) :
    ∃ (d1 : D) (f1 : X2SYS_DATA_INFO D),
      (postProcess F E s data).2[i]? = some d1 ∧
      (postProcess F E s data).1.info[i]? = some f1 ∧
      F.isNan d1 = true ∧ f1.has_nans = true ∧
      d1 = (if decide ((i : Int) = s.x_col) && s.geographic
              then E.GMT_lon_range_adjust s.geodetic F.nan else F.nan) := by
  have h := postLoop_getElem? F E s s.info data 0 i f d hf hd
  simp only [Nat.zero_add] at h
  refine ⟨(postField F E s i f d).1, (postField F E s i f d).2, h.2, h.1, ?_, ?_, ?_⟩
  · simp only [postField, hp, he, Bool.and_self, if_true]
    split
    · exact hadj _
    · exact hnan
  · simp [postField, hp, he, hnan]
  · simp [postField, hp, he]

/-- The example behind C1: a field with proxy -9999, scale 2 and offset 1 whose
raw value is -9999. -/
theorem postProcess_nan_proxy_witness :
    ∃ (d1 : Dec) (f1 : X2SYS_DATA_INFO Dec),
      (postProcess decOps (decEnv 2) depthSchema [.val (-9999) 0]).2[0]? = some d1 ∧
      (postProcess decOps (decEnv 2) depthSchema [.val (-9999) 0]).1.info[0]? = some f1 ∧
      decOps.isNan d1 = true ∧ f1.has_nans = true ∧
      d1 = (if decide (((0 : Nat) : Int) = depthSchema.x_col) && depthSchema.geographic
            then (decEnv 2).GMT_lon_range_adjust depthSchema.geodetic decOps.nan
            else decOps.nan) :=
  postProcess_nan_proxy decOps (decEnv 2) depthSchema [.val (-9999) 0] 0
    (mkField "depth" 'h' true (.val (-9999) 0) (.val 2 0) (.val 1 0))
    (.val (-9999) 0) (by decide) (by intro r; rfl) rfl rfl (by decide) (by decide)

/-- C2, as stated, fails on the longitude column of a geographic schema: the
byte 0xFB is the raw value -5; with scale 2 and offset 0 the formula gives -10,
but the stored value is 350, the formula's value after `GMT_lon_range_adjust`. -/
theorem scale_offset_longitude_counterexample :
    leInt 'c' [Char.ofNat 251] = -5 ∧
    lonSchema.info.map (fun f => (f.do_scale, f.has_nan_proxy)) = [(true, false)] ∧
    (x2sys_read_record decOps (decEnv 2) noColTypes [Char.ofNat 251] [.val 0 0] lonSchema
      zeroLocals).map (fun r => (r.1, r.2.data)) = some (0, [.val 350 0]) ∧
    Dec.add (Dec.mul (.val (-5) 0) (.val 2 0)) (.val 0 0) = .val (-10) 0 ∧
    Dec.eq (.val 350 0) (.val (-10) 0) = false := by
  decide

/-- C2, amended: in the post-processing of `x2sys_read_record`, for a field `i`
whose raw value `d` is not replaced by the NaN-proxy rule, the stored value is
`d * scale + offset` when `do_scale` is set, and `d` itself when `do_scale` is as
`x2sys_initialize` computes it from a scale equal to 1 and an offset equal to 0;
in both cases the value is then passed through `GMT_lon_range_adjust` when the
field is the x column of a geographic schema, and is left as it is otherwise. -/
theorem postProcess_scale_offset {D : Type} (F : DoubleOps D) (E : Env D) (s : X2SYS_INFO D)
    (data : List D) (i : Nat) (f : X2SYS_DATA_INFO D) (d : D)
    (hf : s.info[i]? = some f) (hd : data[i]? = some d)
    (hnp : (f.has_nan_proxy && F.eq d f.nan_proxy) = false) :
    (f.do_scale = true →
      (postProcess F E s data).2[i]? =
        some (if decide ((i : Int) = s.x_col) && s.geographic
          then E.GMT_lon_range_adjust s.geodetic (F.add (F.mul d f.scale) f.offset)
          else F.add (F.mul d f.scale) f.offset)) ∧
    (f.do_scale = initDoScale F f.scale f.offset →
      F.eq f.scale (F.ofInt 1) = true → F.eq f.offset (F.ofInt 0) = true →
      (postProcess F E s data).2[i]? =
        some (if decide ((i : Int) = s.x_col) && s.geographic
          then E.GMT_lon_range_adjust s.geodetic d else d)) := by
  have h := (postLoop_getElem? F E s s.info data 0 i f d hf hd).2
  simp only [Nat.zero_add] at h
  constructor
  · intro hs
    rw [postProcess, h]
    simp [postField, hnp, hs]
  · intro hs h1 h0
    have hs0 : f.do_scale = false := by simp [hs, initDoScale, h1, h0]
    rw [postProcess, h]
    simp [postField, hnp, hs0]

/-- The example behind the amended C2: with scale 2 and offset 1 the raw value 7
is stored as 15. -/
theorem postProcess_scale_offset_witness :
    (postProcess decOps (decEnv 2) depthSchema [.val 7 0]).2[0]? = some (.val 15 0) :=
  (postProcess_scale_offset decOps (decEnv 2) depthSchema [.val 7 0] 0
    (mkField "depth" 'h' true (.val (-9999) 0) (.val 2 0) (.val 1 0)) (.val 7 0)
    rfl rfl (by decide)).1 (by decide)

/-! ## The ascii cases of `x2sys_read_record` -/

/-- C3, the code at the example of the spec: for the ascii-token schema `lon`,
`lat`, `depth` (NaN proxy -9999) the line `120.5 10.25 -9999` is reported as
decoded (value 0) with `depth` still -9999, not NaN, and no `has_nans` flag set:
the `a` case returns before the post-processing loop. -/
theorem read_record_ascii_token_example :
    (x2sys_read_record decOps (decEnv 2) noColTypes "120.5 10.25 -9999\n".toList
      [.val 0 0, .val 0 0, .val 0 0] lonLatDepth zeroLocals).map
        (fun r => (r.1, r.2.data, r.2.s.info.map (fun f => f.has_nans))) =
      some (0, [.val 1205 1, .val 1025 2, .val (-9999) 0], [false, false, false]) ∧
    decOps.isNan (.val (-9999) 0) = false ∧
    lonLatDepth.info.map (fun f => (f.has_nan_proxy, f.nan_proxy)) =
      [(false, .val 0 0), (false, .val 0 0), (true, .val (-9999) 0)] := by
  decide

/-- C4, the code at a one-field ascii-card schema: the line `12345` is parsed
(the value 12345 is stored in `data[0]`) but the call returns -1, because the `A`
case never counts its field in `n_read`. -/
theorem read_record_ascii_card_example :
    (x2sys_read_record decOps (decEnv 2) noColTypes "12345\n".toList [.val 0 0] cardSchema
      zeroLocals).map (fun r => (r.1, r.2.data, r.2.n_read)) =
      some (-1, [.val 12345 0], 0) := by
  decide

theorem scanTokens_length {D : Type} (E : Env D) (G : GMT_IO) :
    ∀ (toks : List (List Char)) (k : Nat) (data d : List D),
      scanTokens E G k toks data = some d → d.length = data.length := by
  intro toks
  induction toks with
  | nil => intro k data d h; simp only [scanTokens, Option.some.injEq] at h; rw [← h]
  | cons t ts ih =>
    intro k data d h
    simp only [scanTokens] at h
    split at h
    · have := ih _ _ _ h
      simpa using this
    · simp at h

/-- The token loop stores past the end of `data` exactly when there are more
tokens left than entries from `k` on. -/
theorem scanTokens_eq_none_iff {D : Type} (E : Env D) (G : GMT_IO) :
    ∀ (toks : List (List Char)) (k : Nat) (data : List D), k ≤ data.length →
      (scanTokens E G k toks data = none ↔ data.length < k + toks.length) := by
  intro toks
  induction toks with
  | nil => intro k data hk; simp [scanTokens]; omega
  | cons t ts ih =>
    intro k data hk
    simp only [scanTokens, List.length_cons]
    by_cases h : k < data.length
    · rw [if_pos h, ih (k + 1) _ (by simp; omega)]
      simp only [List.length_set]
      omega
    · rw [if_neg h]
      simp only [true_iff]
      omega

theorem scanTokens_some {D : Type} (E : Env D) (G : GMT_IO) (toks : List (List Char))
    (data : List D) (h : toks.length ≤ data.length) :
    ∃ d : List D, scanTokens E G 0 toks data = some d := by
  cases hd : scanTokens E G 0 toks data with
  | some d => exact ⟨d, rfl⟩
  | none =>
    have := (scanTokens_eq_none_iff E G toks 0 data (Nat.zero_le _)).mp hd
    omega

theorem scanTokens_getElem?_lt {D : Type} (E : Env D) (G : GMT_IO) :
    ∀ (toks : List (List Char)) (k : Nat) (data d : List D) (m : Nat),
      scanTokens E G k toks data = some d → m < k → d[m]? = data[m]? := by
  intro toks
  induction toks with
  | nil => intro k data d m h _; simp only [scanTokens, Option.some.injEq] at h; rw [← h]
  | cons t ts ih =>
    intro k data d m h hm
    simp only [scanTokens] at h
    split at h
    · rw [ih (k + 1) _ d m h (by omega), List.getElem?_set_ne (by omega)]
    · simp at h

theorem scanTokens_getElem? {D : Type} (E : Env D) (G : GMT_IO) :
    ∀ (toks : List (List Char)) (k : Nat) (data d : List D) (i : Nat) (t : List Char),
      scanTokens E G k toks data = some d → toks[i]? = some t →
      d[k + i]? = some (E.GMT_scanf t (G.in_col_type.getD (k + i) 0)) := by
  intro toks
  induction toks with
  | nil => intro k data d i t _ ht; simp at ht
  | cons t0 ts ih =>
    intro k data d i t h ht
    simp only [scanTokens] at h
    split at h
    · rename_i hk
      cases i with
      | zero =>
        simp only [List.getElem?_cons_zero, Option.some.injEq] at ht
        subst ht
        rw [Nat.add_zero, scanTokens_getElem?_lt E G ts (k + 1) _ d k h (by omega)]
        exact List.getElem?_set_self hk
      | succ i =>
        simp only [List.getElem?_cons_succ] at ht
        have := ih (k + 1) _ d i t h ht
        have e : k + 1 + i = k + (i + 1) := by omega
        rw [e] at this
        exact this
    · simp at h

/-- The `a` case decides the whole call: when the first field has type `a`, the
call is the data-line search followed by the token loop and the early return;
it has no defined outcome when the search never ends or the token loop stores
past the end of `data`. -/
theorem read_record_ascii_token_eq {D : Type} (F : DoubleOps D) (E : Env D) (G : GMT_IO)
    (fp : FILE) (data : List D) (s : X2SYS_INFO D) (loc : Locals)
    (f : X2SYS_DATA_INFO D) (fs : List (X2SYS_DATA_INFO D))
    (hs : s.info = f :: fs) (hf : f.intype = 'a') :
    x2sys_read_record F E G fp data s loc =
      (getDataLine E s loc.line fp).bind (fun r =>
        (scanTokens E G 0 (strtokAll r.1) data).map (fun d =>
          ((if (strtokAll r.1).length ≠ s.n_fields then -1 else 0 : Int),
            ({ fp := r.2.1
               data := d
               s := { s with ms_next := r.2.2 }
               loc := { loc with line := r.1 }
               n_read := 0
               error := false } : ReadState D)))) := by
  unfold x2sys_read_record
  rw [hs]
  simp only [readFields, readField, hf]
  cases hg : getDataLine E s loc.line fp with
  | none => simp +decide [hg]
  | some r =>
    obtain ⟨line, fp1, ms⟩ := r
    cases hd : scanTokens E G 0 (strtokAll line) data with
    | none => simp +decide [hg, hs, hd]
    | some d => simp +decide [hg, hs, hd]

/-- The call on an ascii-token schema has no defined outcome in two cases only:
the header-skipping loop never ends, or the data line has more tokens than
`data` has entries. -/
theorem read_record_ascii_token_none_iff {D : Type} (F : DoubleOps D) (E : Env D) (G : GMT_IO)
    (fp : FILE) (data : List D) (s : X2SYS_INFO D) (loc : Locals)
    (f : X2SYS_DATA_INFO D) (fs : List (X2SYS_DATA_INFO D))
    (hs : s.info = f :: fs) (hf : f.intype = 'a') :
    x2sys_read_record F E G fp data s loc = none ↔
      getDataLine E s loc.line fp = none ∨
      ∃ r : List Char × FILE × Bool, getDataLine E s loc.line fp = some r ∧
        data.length < (strtokAll r.1).length := by
  rw [read_record_ascii_token_eq F E G fp data s loc f fs hs hf]
  cases hg : getDataLine E s loc.line fp with
  | none => simp
  | some r =>
    have := scanTokens_eq_none_iff E G (strtokAll r.1) 0 data (Nat.zero_le _)
    simp only [Nat.zero_add] at this
    simp [this]

/-- C5 (as the code behaves): for the three-field ascii-token schema `lon`, `lat`,
`depth` and a record buffer of three entries, the line `1 2 3 4` has four
tokens and the token loop, which has no bound on `k`, stores `data[3]` past the
end of the buffer: the call has no defined outcome, where the claim gives the
return value -1.  The lines `1 2` and `1 2 3`, which stay within the buffer,
give -1 and 0. -/
theorem read_record_token_overrun_example :
    (strtokAll "1 2 3 4\n".toList).length = 4 ∧ lonLatDepth.n_fields = 3 ∧
    scanTokens (decEnv 2) noColTypes 0 (strtokAll "1 2 3 4\n".toList)
      [.val 0 0, .val 0 0, .val 0 0] = none ∧
    (x2sys_read_record decOps (decEnv 2) noColTypes "1 2 3 4\n".toList
      [.val 0 0, .val 0 0, .val 0 0] lonLatDepth zeroLocals).map (fun r => r.1) = none ∧
    (x2sys_read_record decOps (decEnv 2) noColTypes "1 2\n".toList
      [.val 0 0, .val 0 0, .val 0 0] lonLatDepth zeroLocals).map (fun r => r.1) = some (-1) ∧
    (x2sys_read_record decOps (decEnv 2) noColTypes "1 2 3\n".toList
      [.val 0 0, .val 0 0, .val 0 0] lonLatDepth zeroLocals).map (fun r => r.1) = some 0 := by
  decide

/-- Within the buffer the call does what the token count says: for a schema whose
fields are all ascii-token (at least one field), a stream on which the
header-skipping loop delivers the data line `line`, and a line with at most
`n_fields` tokens, `x2sys_read_record` returns; it returns -1 exactly when the
number of tokens of `line` (split at space, comma, tab and newline) differs
from `n_fields`, and otherwise it returns 0 and `data[k]` is `GMT_scanf` of
token `k` for every `k`. -/
theorem read_record_ascii_token_count {D : Type} (F : DoubleOps D) (E : Env D) (G : GMT_IO)
    (fp : FILE) (data : List D) (s : X2SYS_INFO D) (loc : Locals)
    (line : List Char) (fp1 : FILE) (ms : Bool)
    (hall : ∀ f ∈ s.info, f.intype = 'a') (hne : s.info ≠ [])
    (hdata : data.length = s.n_fields)
    (hline : getDataLine E s loc.line fp = some (line, fp1, ms))
    (htok : (strtokAll line).length ≤ s.n_fields) :
    ∃ (v : Int) (st : ReadState D),
      x2sys_read_record F E G fp data s loc = some (v, st) ∧
      (v = -1 ↔ (strtokAll line).length ≠ s.n_fields) ∧
      ((strtokAll line).length = s.n_fields →
        v = 0 ∧ ∀ (k : Nat) (t : List Char), (strtokAll line)[k]? = some t →
          st.data[k]? = some (E.GMT_scanf t (G.in_col_type.getD k 0))) := by
  obtain ⟨f, fs, hs⟩ := List.exists_cons_of_ne_nil hne
  have hf : f.intype = 'a' := hall f (by simp [hs])
  obtain ⟨d, hd⟩ : ∃ d, scanTokens E G 0 (strtokAll line) data = some d := by
    cases hd : scanTokens E G 0 (strtokAll line) data with
    | some d => exact ⟨d, rfl⟩
    | none =>
      have := (scanTokens_eq_none_iff E G (strtokAll line) 0 data (Nat.zero_le _)).mp hd
      omega
  rw [read_record_ascii_token_eq F E G fp data s loc f fs hs hf, hline]
  simp only [Option.some_bind, hd, Option.map_some']
  refine ⟨_, _, rfl, ?_, ?_⟩
  · by_cases h : (strtokAll line).length = s.n_fields
    · simp [h]
    · simp [h]
  · intro h
    refine ⟨by simp [h], ?_⟩
    intro k t ht
    have := scanTokens_getElem? E G (strtokAll line) 0 data d k t hd ht
    simpa using this

/-- An example of the call within the buffer: the three tokens of
`120.5 10.25 -9999` fill the three fields and the call returns 0. -/
theorem read_record_ascii_token_count_witness :
    ∃ (v : Int) (st : ReadState Dec),
      x2sys_read_record decOps (decEnv 2) noColTypes "120.5 10.25 -9999\n".toList
        [.val 0 0, .val 0 0, .val 0 0] lonLatDepth zeroLocals = some (v, st) ∧
      (v = -1 ↔ (strtokAll "120.5 10.25 -9999\n".toList).length ≠ lonLatDepth.n_fields) ∧
      ((strtokAll "120.5 10.25 -9999\n".toList).length = lonLatDepth.n_fields →
        v = 0 ∧ ∀ (k : Nat) (t : List Char),
          (strtokAll "120.5 10.25 -9999\n".toList)[k]? = some t →
          st.data[k]? = some ((decEnv 2).GMT_scanf t (noColTypes.in_col_type.getD k 0))) :=
  read_record_ascii_token_count decOps (decEnv 2) noColTypes "120.5 10.25 -9999\n".toList
    [.val 0 0, .val 0 0, .val 0 0] lonLatDepth zeroLocals "120.5 10.25 -9999\n".toList [] false
    (by decide) (List.cons_ne_nil _ _) (by decide) (by decide) (by decide)

/-! ## The binary cases of `x2sys_read_record` -/

theorem fieldWidth_pos {D : Type} (E : Env D) (f : X2SYS_DATA_INFO D)
    (hb : isBinaryType f.intype = true) (hlong : 0 < E.sizeof_long) : 0 < fieldWidth E f := by
  simp only [isBinaryType, Bool.or_eq_true, decide_eq_true_eq] at hb
  rcases hb with ((((((h | h) | h) | h) | h) | h) | h) <;> simp +decide [fieldWidth, h, hlong]

theorem readField_binary {D : Type} (F : DoubleOps D) (E : Env D) (G : GMT_IO)
    (f : X2SYS_DATA_INFO D) (j : Nat) (st : ReadState D)
    (hb : isBinaryType f.intype = true) :
    ∃ st1 : ReadState D, readField F E G f j st = .next st1 ∧
      st1.fp = (fread (fieldWidth E f) st.fp).2 ∧
      st1.n_read = st.n_read + freadCount (fread (fieldWidth E f) st.fp) ∧
      st1.error = st.error ∧ st1.s = st.s ∧ st1.data.length = st.data.length := by
  simp only [isBinaryType, Bool.or_eq_true, decide_eq_true_eq] at hb
  rcases hb with ((((((h | h) | h) | h) | h) | h) | h)
  · simp +decide [readField, fieldWidth, h]
  · simp +decide [readField, fieldWidth, h]
  · simp +decide [readField, fieldWidth, h]
  · simp +decide [readField, fieldWidth, h]
  · simp +decide [readField, fieldWidth, h]
  · simp +decide [readField, fieldWidth, h]
  · simp +decide [readField, fieldWidth, h]
    split <;> simp

theorem readFields_binary {D : Type} (F : DoubleOps D) (E : Env D) (G : GMT_IO) :
    ∀ (fs : List (X2SYS_DATA_INFO D)) (j : Nat) (st : ReadState D),
      (∀ f ∈ fs, isBinaryType f.intype = true) → st.error = false →
      ∃ st1 : ReadState D, readFields F E G fs j st = .next st1 ∧
        st1.n_read = st.n_read + completeReads E fs st.fp ∧
        st1.error = false ∧ st1.s = st.s ∧ st1.data.length = st.data.length ∧
        (((fs.map (fieldWidth E)).sum ≤ st.fp.length) →
          st1.fp = st.fp.drop ((fs.map (fieldWidth E)).sum)) := by
  intro fs
  induction fs with
  | nil =>
    intro j st _ he
    exact ⟨st, rfl, by simp [completeReads], he, rfl, rfl, by simp⟩
  | cons f fs ih =>
    intro j st hb he
    obtain ⟨st1, h1, hfp, hn, herr, hs1, hlen1⟩ :=
      readField_binary F E G f j st (hb f (by simp))
    obtain ⟨st2, h2, hn2, herr2, hs2, hlen2, hfp2⟩ :=
      ih (j + 1) st1 (fun g hg => hb g (by simp [hg])) (by rw [herr, he])
    refine ⟨st2, ?_, ?_, herr2, by rw [hs2, hs1], by rw [hlen2, hlen1], ?_⟩
    · simp [readFields, he, h1, h2]
    · rw [hn2, hn, hfp]; simp only [completeReads]; omega
    · intro hle
      simp only [List.map_cons, List.sum_cons] at hle ⊢
      have hw : fieldWidth E f ≤ st.fp.length := by omega
      have hfp1 : st1.fp = st.fp.drop (fieldWidth E f) := by
        rw [hfp]; unfold fread
        by_cases h0 : fieldWidth E f = 0
        · simp [h0]
        · simp [h0, hw]
      rw [hfp2 (by rw [hfp1, List.length_drop]; omega), hfp1, List.drop_drop]

theorem completeReads_le {D : Type} (E : Env D) :
    ∀ (fs : List (X2SYS_DATA_INFO D)) (fp : FILE), completeReads E fs fp ≤ fs.length := by
  intro fs
  induction fs with
  | nil => intro fp; simp [completeReads]
  | cons f fs ih =>
    intro fp
    have := ih (fread (fieldWidth E f) fp).2
    simp only [completeReads, List.length_cons, freadCount]
    split <;> omega

theorem completeReads_eq_length_iff {D : Type} (E : Env D) :
    ∀ (fs : List (X2SYS_DATA_INFO D)) (fp : FILE), (∀ f ∈ fs, 0 < fieldWidth E f) →
      (completeReads E fs fp = fs.length ↔ (fs.map (fieldWidth E)).sum ≤ fp.length) := by
  intro fs
  induction fs with
  | nil => intro fp _; simp [completeReads]
  | cons f fs ih =>
    intro fp hpos
    have hw : 0 < fieldWidth E f := hpos f (by simp)
    have hrest := ih (fread (fieldWidth E f) fp).2 (fun g hg => hpos g (by simp [hg]))
    have hle := completeReads_le E fs (fread (fieldWidth E f) fp).2
    simp only [completeReads, List.length_cons, List.map_cons, List.sum_cons]
    by_cases hfit : fieldWidth E f ≤ fp.length
    · have h1 : fread (fieldWidth E f) fp = (some (fp.take (fieldWidth E f)), fp.drop (fieldWidth E f)) := by
        unfold fread; simp [Nat.pos_iff_ne_zero.mp hw, hfit]
      rw [h1] at hrest hle ⊢
      simp only [freadCount, Option.isSome_some, if_true]
      simp only [List.length_drop] at hrest
      constructor
      · intro h
        have := hrest.mp (by omega)
        omega
      · intro h
        have := hrest.mpr (by omega)
        omega
    · have h1 : fread (fieldWidth E f) fp = (none, []) := by
        unfold fread; simp [Nat.pos_iff_ne_zero.mp hw, hfit]
      have hle0 := completeReads_le E fs ([] : FILE)
      rw [h1]
      simp only [freadCount, Option.isSome_none]
      constructor
      · intro h; simp at h; omega
      · intro h; omega

/-- The binary path of `x2sys_read_record`: the call returns, with 0 when the
number of complete reads is `n_fields` and with -1 otherwise; after a whole
record the stream has advanced by `x2sys_record_length` bytes. -/
theorem read_record_binary_spec {D : Type} (F : DoubleOps D) (E : Env D) (G : GMT_IO)
    (fp : FILE) (data : List D) (s : X2SYS_INFO D) (loc : Locals)
    (hbin : ∀ f ∈ s.info, isBinaryType f.intype = true) :
    ∃ st : ReadState D,
      x2sys_read_record F E G fp data s loc =
        some ((if completeReads E s.info fp = s.n_fields then 0 else -1 : Int), st) ∧
      (x2sys_record_length E s ≤ fp.length → st.fp = fp.drop (x2sys_record_length E s)) := by
  obtain ⟨st1, h1, hn, herr, hs1, _, hfp⟩ := readFields_binary F E G s.info 0
    { fp := fp, data := data, s := s, loc := loc, n_read := 0, error := false } hbin rfl
  simp only [Nat.zero_add] at hn
  dsimp only at hs1 hfp
  unfold x2sys_read_record
  rw [h1]
  refine ⟨{ st1 with
    s := (postProcess F E st1.s st1.data).1, data := (postProcess F E st1.s st1.data).2 },
    ?_, hfp⟩
  by_cases hc : completeReads E s.info fp = s.info.length
  · simp [herr, hn, hs1, X2SYS_INFO.n_fields, hc]
  · simp [herr, hn, hs1, X2SYS_INFO.n_fields, hc]

/-- C6: for a schema whose fields all have binary types (`sizeof (long)` being
positive), `x2sys_read_record` returns, and it returns 0 exactly when every
field's `fread` of its width (1 for `c`/`u`, 2 for `h`, 4 for `i`/`f`,
`sizeof (long)` for `l`, 8 for `d`), taken in schema order, obtained a complete
item, which is exactly when the stream holds `x2sys_record_length` bytes; it
then has consumed that many bytes.  Otherwise it returns -1. -/
theorem read_record_binary_complete {D : Type} (F : DoubleOps D) (E : Env D) (G : GMT_IO)
    (fp : FILE) (data : List D) (s : X2SYS_INFO D) (loc : Locals)
    (hbin : ∀ f ∈ s.info, isBinaryType f.intype = true) (hlong : 0 < E.sizeof_long) :
    ∃ (v : Int) (st : ReadState D),
      x2sys_read_record F E G fp data s loc = some (v, st) ∧
      (v = 0 ↔ completeReads E s.info fp = s.n_fields) ∧
      (v = 0 ↔ x2sys_record_length E s ≤ fp.length) ∧
      (v ≠ 0 → v = -1) ∧
      (v = 0 → st.fp = fp.drop (x2sys_record_length E s)) := by
  obtain ⟨st, hr, hfp⟩ := read_record_binary_spec F E G fp data s loc hbin
  have hiff : completeReads E s.info fp = s.n_fields ↔ x2sys_record_length E s ≤ fp.length :=
    completeReads_eq_length_iff E s.info fp (fun f hf => fieldWidth_pos E f (hbin f hf) hlong)
  refine ⟨_, st, hr, ?_, ?_, ?_, ?_⟩
  · by_cases hc : completeReads E s.info fp = s.n_fields
    · simp [hc]
    · simp [hc]
  · rw [← hiff]
    by_cases hc : completeReads E s.info fp = s.n_fields
    · simp [hc]
    · simp [hc]
  · intro hv
    by_cases hc : completeReads E s.info fp = s.n_fields
    · simp [hc] at hv
    · simp [hc]
  · intro hv
    by_cases hc : completeReads E s.info fp = s.n_fields
    · exact hfp (hiff.mp hc)
    · simp [hc] at hv

/-- The example behind C6: a 2-byte field read from a 3-byte stream. -/
theorem read_record_binary_complete_witness :
    ∃ (v : Int) (st : ReadState Dec),
      x2sys_read_record decOps (decEnv 2) noColTypes [Char.ofNat 7, Char.ofNat 0, Char.ofNat 9]
        [.val 0 0] depthSchema zeroLocals = some (v, st) ∧
      (v = 0 ↔ completeReads (decEnv 2) depthSchema.info
        [Char.ofNat 7, Char.ofNat 0, Char.ofNat 9] = depthSchema.n_fields) ∧
      (v = 0 ↔ x2sys_record_length (decEnv 2) depthSchema ≤
        [Char.ofNat 7, Char.ofNat 0, Char.ofNat 9].length) ∧
      (v ≠ 0 → v = -1) ∧
      (v = 0 → st.fp = [Char.ofNat 7, Char.ofNat 0, Char.ofNat 9].drop
        (x2sys_record_length (decEnv 2) depthSchema)) :=
  read_record_binary_complete decOps (decEnv 2) noColTypes [Char.ofNat 7, Char.ofNat 0, Char.ofNat 9]
    [.val 0 0] depthSchema zeroLocals (by decide) (by decide)

/-! ## The values `x2sys_read_record` returns -/

theorem readField_ret {D : Type} (F : DoubleOps D) (E : Env D) (G : GMT_IO)
    (f : X2SYS_DATA_INFO D) (j : Nat) (st st1 : ReadState D) (v : Int)
    (h : readField F E G f j st = .ret v st1) : v = 0 ∨ v = -1 := by
  unfold readField at h
  split at h
  · dsimp only at h
    split at h <;> simp at h
  · split at h
    · split at h
      · simp at h
      · split at h
        · simp at h
        · simp only [Flow.ret.injEq] at h
          obtain ⟨hv, _⟩ := h
          subst hv
          split <;> simp
    · repeat (first | split at h | simp at h)

theorem readFields_ret {D : Type} (F : DoubleOps D) (E : Env D) (G : GMT_IO) :
    ∀ (fs : List (X2SYS_DATA_INFO D)) (j : Nat) (st st1 : ReadState D) (v : Int),
      readFields F E G fs j st = .ret v st1 → v = 0 ∨ v = -1 := by
  intro fs
  induction fs with
  | nil => intro j st st1 v h; simp [readFields] at h
  | cons f fs ih =>
    intro j st st1 v h
    simp only [readFields] at h
    split at h
    · simp at h
    · split at h
      · exact ih _ _ _ _ h
      · rename_i hr
        simp only [Flow.ret.injEq] at h
        obtain ⟨hv, hst⟩ := h
        subst hv; subst hst
        exact readField_ret F E G f j st _ _ hr
      · simp at h
      · simp at h

/-- C7, as stated, fails: on the one-field binary schema `depthSchema` (a 2-byte
integer) the call at end of input (empty stream) and the call on a short record
(one byte left) both return -1. -/
theorem eof_and_short_record_counterexample :
    (x2sys_read_record decOps (decEnv 2) noColTypes [] [.val 0 0] depthSchema zeroLocals).map
      (fun r => r.1) = some (-1) ∧
    (x2sys_read_record decOps (decEnv 2) noColTypes [Char.ofNat 1] [.val 0 0] depthSchema
      zeroLocals).map (fun r => r.1) = some (-1) := by
  decide

/-- C7, amended: `x2sys_read_record` has two return values only, 0 and -1
(first part, for every schema and stream); and for a schema of binary fields
with at least one field it returns -1 both at end of input (empty stream) and on
a short record (a non-empty stream shorter than `x2sys_record_length`), so the
two situations are reported alike and `x2sys_read_file` stops on either. -/
theorem read_record_eof_same_as_failure {D : Type} (F : DoubleOps D) (E : Env D) (G : GMT_IO)
    (data : List D) (s : X2SYS_INFO D) (loc : Locals)
    (hbin : ∀ f ∈ s.info, isBinaryType f.intype = true) (hlong : 0 < E.sizeof_long)
    (hne : s.info ≠ []) :
    (∀ (fp : FILE) (data1 : List D) (s1 : X2SYS_INFO D) (loc1 : Locals) (v : Int)
        (st : ReadState D),
        x2sys_read_record F E G fp data1 s1 loc1 = some (v, st) → v = 0 ∨ v = -1) ∧
    (x2sys_read_record F E G [] data s loc).map (fun r => r.1) = some (-1) ∧
    (∀ fp : FILE, fp ≠ [] → fp.length < x2sys_record_length E s →
      (x2sys_read_record F E G fp data s loc).map (fun r => r.1) = some (-1)) := by
  have hpos : 0 < x2sys_record_length E s := by
    obtain ⟨f, fs, hs⟩ := List.exists_cons_of_ne_nil hne
    have := fieldWidth_pos E f (hbin f (by simp [hs])) hlong
    simp only [x2sys_record_length, hs, List.map_cons, List.sum_cons]
    omega
  have key : ∀ fp : FILE, fp.length < x2sys_record_length E s →
      (x2sys_read_record F E G fp data s loc).map (fun r => r.1) = some (-1) := by
    intro fp hlt
    obtain ⟨st, hr, _⟩ := read_record_binary_spec F E G fp data s loc hbin
    have hc : ¬ completeReads E s.info fp = s.n_fields := fun hc => by
      have := (completeReads_eq_length_iff E s.info fp
        (fun f hf => fieldWidth_pos E f (hbin f hf) hlong)).mp hc
      unfold x2sys_record_length at hlt
      omega
    rw [hr]
    simp [hc]
  refine ⟨?_, key [] (by simpa using hpos), fun fp _ hlt => key fp hlt⟩
  intro fp data1 s1 loc1 v st h
  unfold x2sys_read_record at h
  split at h
  · simp at h
  · simp at h
  · rename_i v1 st1 hr
    simp only [Option.some.injEq, Prod.mk.injEq] at h
    obtain ⟨hv, _⟩ := h
    subst hv
    exact readFields_ret F E G _ _ _ _ _ hr
  · simp only [Option.some.injEq, Prod.mk.injEq] at h
    obtain ⟨hv, _⟩ := h
    subst hv
    split <;> simp

/-- The example behind the amended C7, on the 2-byte schema `depthSchema`. -/
theorem read_record_eof_same_as_failure_witness :
    (∀ (fp : FILE) (data1 : List Dec) (s1 : X2SYS_INFO Dec) (loc1 : Locals) (v : Int)
        (st : ReadState Dec),
        x2sys_read_record decOps (decEnv 2) noColTypes fp data1 s1 loc1 = some (v, st) →
          v = 0 ∨ v = -1) ∧
    (x2sys_read_record decOps (decEnv 2) noColTypes [] [.val 0 0] depthSchema zeroLocals).map
      (fun r => r.1) = some (-1) ∧
    (∀ fp : FILE, fp ≠ [] → fp.length < x2sys_record_length (decEnv 2) depthSchema →
      (x2sys_read_record decOps (decEnv 2) noColTypes fp [.val 0 0] depthSchema zeroLocals).map
        (fun r => r.1) = some (-1)) :=
  read_record_eof_same_as_failure decOps (decEnv 2) noColTypes [.val 0 0] depthSchema zeroLocals
    (by decide) (by decide) (List.cons_ne_nil _ _)

/-! ## The reading loop of `x2sys_read_file` -/

theorem readField_data_length {D : Type} (F : DoubleOps D) (E : Env D) (G : GMT_IO)
    (f : X2SYS_DATA_INFO D) (j : Nat) (st : ReadState D) :
    (readField F E G f j st).Holds (fun st1 => st1.data.length = st.data.length) := by
  unfold readField
  split
  · dsimp only
    split <;> simp [Flow.Holds]
  · split
    · split
      · simp [Flow.Holds]
      · split
        · simp [Flow.Holds]
        · rename_i hd
          simp only [Flow.Holds]
          exact scanTokens_length E G _ _ _ _ hd
    · repeat (first | split | simp [Flow.Holds])

theorem readFields_data_length {D : Type} (F : DoubleOps D) (E : Env D) (G : GMT_IO) :
    ∀ (fs : List (X2SYS_DATA_INFO D)) (j : Nat) (st : ReadState D),
      (readFields F E G fs j st).Holds (fun st1 => st1.data.length = st.data.length) := by
  intro fs
  induction fs with
  | nil => intro j st; simp [readFields, Flow.Holds]
  | cons f fs ih =>
    intro j st
    simp only [readFields]
    split
    · simp [Flow.Holds]
    · have h1 := readField_data_length F E G f j st
      split
      · rename_i st1 hr
        rw [hr] at h1
        have h2 := ih (j + 1) st1
        simp only [Flow.Holds] at h1
        revert h2
        cases readFields F E G fs (j + 1) st1 <;> simp [Flow.Holds, h1]
      · rename_i v st1 hr
        rw [hr] at h1
        exact h1
      · simp [Flow.Holds]
      · simp [Flow.Holds]

theorem read_record_data_length {D : Type} (F : DoubleOps D) (E : Env D) (G : GMT_IO)
    (fp : FILE) (data : List D) (s : X2SYS_INFO D) (loc : Locals) (v : Int) (r : ReadState D)
    (h : x2sys_read_record F E G fp data s loc = some (v, r)) : r.data.length = data.length := by
  unfold x2sys_read_record at h
  have h1 := readFields_data_length F E G s.info 0
    { fp := fp, data := data, s := s, loc := loc, n_read := 0, error := false }
  split at h
  · simp at h
  · simp at h
  · rename_i v1 st1 hr
    rw [hr] at h1
    simp only [Option.some.injEq, Prod.mk.injEq] at h
    obtain ⟨_, hst⟩ := h
    subst hst
    exact h1
  · rename_i st1 hr
    rw [hr] at h1
    simp only [Option.some.injEq, Prod.mk.injEq] at h
    obtain ⟨_, hst⟩ := h
    subst hst
    simp only [Flow.Holds] at h1
    simp [postProcess, (postLoop_length F E st1.s st1.s.info st1.data 0).2, h1]

theorem GMT_memory_length {α : Type} (fill : α) (prev : List α) (n : Nat) :
    (GMT_memory fill prev n).length = n := by
  simp [GMT_memory]

theorem GMT_memory_take {α : Type} (fill : α) (prev : List α) (n m : Nat)
    (h1 : m ≤ prev.length) (h2 : m ≤ n) : (GMT_memory fill prev n).take m = prev.take m := by
  simp only [GMT_memory, List.take_take]
  rw [Nat.min_eq_left h2, List.take_append_of_le_length h1]

theorem GMT_memory_trim {α : Type} (fill : α) (prev : List α) (n : Nat)
    (h : n ≤ prev.length) : GMT_memory fill prev n = prev.take n := by
  simp only [GMT_memory]
  rw [List.take_append_of_le_length h]

theorem take_succ_set {α : Type} (l : List α) (j : Nat) (v : α) (h : j < l.length) :
    (l.set j v).take (j + 1) = l.take j ++ [v] := by
  induction l generalizing j with
  | nil => simp at h
  | cons a l ih =>
    cases j with
    | zero => simp
    | succ j =>
      simp only [List.length_cons, Nat.add_lt_add_iff_right] at h
      simp [ih j h]

theorem storeRow_length {D : Type} (j : Nat) :
    ∀ (z : List (List D)) (data : List D), (storeRow j z data).length = z.length := by
  intro z
  induction z with
  | nil => intro data; simp [storeRow]
  | cons col cols ih =>
    intro data
    cases data with
    | nil => simp [storeRow]
    | cons v vs => simp [storeRow, ih vs]

theorem storeRow_getElem? {D : Type} (j : Nat) :
    ∀ (z : List (List D)) (data : List D) (i : Nat) (col : List D) (v : D),
      z[i]? = some col → data[i]? = some v → (storeRow j z data)[i]? = some (col.set j v) := by
  intro z
  induction z with
  | nil => intro data i col v hz; simp at hz
  | cons c cols ih =>
    intro data i col v hz hd
    cases data with
    | nil => simp at hd
    | cons d ds =>
      cases i with
      | zero =>
        simp only [List.getElem?_cons_zero, Option.some.injEq] at hz hd
        subst hz; subst hd
        simp [storeRow]
      | succ i =>
        simp only [List.getElem?_cons_succ] at hz hd
        simpa [storeRow] using ih ds i col v hz hd

theorem fileStep_z_getElem? {D : Type} (F : DoubleOps D) (E : Env D) (st : FileState D)
    (r : ReadState D) (hw : r.data.length = st.z.length) (i : Nat) (col : List D)
    (hz : st.z[i]? = some col) :
    ∃ v : D, r.data[i]? = some v ∧
      (fileStep F E st r).z[i]? = some
        (if st.j + 1 = st.n_alloc
          then GMT_memory (F.ofInt 0) (col.set st.j v) (st.n_alloc + E.GMT_CHUNK)
          else col.set st.j v) := by
  have hi : i < st.z.length := (List.getElem?_eq_some_iff.mp hz).1
  have hd : i < r.data.length := by omega
  refine ⟨r.data[i], List.getElem?_eq_getElem hd, ?_⟩
  have h1 := storeRow_getElem? st.j st.z r.data i col r.data[i] hz (List.getElem?_eq_getElem hd)
  simp only [fileStep]
  by_cases hg : st.j + 1 = st.n_alloc
  · simp [hg, h1]
  · simp [hg, h1]

theorem fileStep_inv {D : Type} (F : DoubleOps D) (E : Env D) (st : FileState D)
    (r : ReadState D) (hchunk : 0 < E.GMT_CHUNK) (hinv : FileInv st)
    (hw : r.data.length = st.record.length) : FileInv (fileStep F E st r) := by
  obtain ⟨hroom, hcols, hsegs, hwidth⟩ := hinv
  have hzlen : (fileStep F E st r).z.length = st.z.length := by
    simp only [fileStep]
    split <;> simp [storeRow_length]
  refine ⟨?_, ?_, ?_, ?_⟩
  · simp only [fileStep]
    by_cases hg : st.j + 1 = st.n_alloc
    · simp [hg]; omega
    · simp [hg]; omega
  · intro i col1 h1
    have hi : i < st.z.length := by
      have := (List.getElem?_eq_some_iff.mp h1).1
      omega
    obtain ⟨v, _, h2⟩ := fileStep_z_getElem? F E st r (by omega) i st.z[i]
      (List.getElem?_eq_getElem hi)
    rw [h1] at h2
    simp only [Option.some.injEq] at h2
    have hc := hcols i st.z[i] (List.getElem?_eq_getElem hi)
    subst h2
    by_cases hg : st.j + 1 = st.n_alloc
    · simp [hg, GMT_memory_length, fileStep]
    · simp [hg, hc, fileStep]
  · simp only [fileStep]
    by_cases hg : st.j + 1 = st.n_alloc
    · simp [hg, GMT_memory_length]
    · simp [hg, hsegs]
  · rw [hzlen]
    simp only [fileStep]
    omega

theorem fileStep_ms_take {D : Type} (F : DoubleOps D) (E : Env D) (st : FileState D)
    (r : ReadState D) (hinv : FileInv st) :
    (fileStep F E st r).p.ms_rec.take (st.j + 1) =
      st.p.ms_rec.take st.j ++ [(fileStep F E st r).p.n_segments] := by
  have hj : st.j < st.p.ms_rec.length := by rw [hinv.segs]; exact hinv.room
  simp only [fileStep]
  by_cases hg : st.j + 1 = st.n_alloc
  · simp only [hg, decide_True, if_true]
    rw [GMT_memory_take _ _ _ _ (by simp; omega) (by omega), ← hg]
    exact take_succ_set _ _ _ hj
  · simp only [hg, decide_False]
    exact take_succ_set _ _ _ hj

theorem fileStep_col_take {D : Type} (F : DoubleOps D) (E : Env D) (st : FileState D)
    (r : ReadState D) (hinv : FileInv st) (hw : r.data.length = st.record.length)
    (i : Nat) (col : List D) (hz : st.z[i]? = some col) :
    ∃ col1 : List D, (fileStep F E st r).z[i]? = some col1 ∧
      (col1.take (st.j + 1)).map some = (col.take st.j).map some ++ [r.data[i]?] := by
  obtain ⟨v, hv, h⟩ := fileStep_z_getElem? F E st r (by rw [hw, hinv.width]) i col hz
  have hj : st.j < col.length := by rw [hinv.cols i col hz]; exact hinv.room
  refine ⟨_, h, ?_⟩
  rw [hv]
  by_cases hg : st.j + 1 = st.n_alloc
  · simp only [hg, if_true]
    rw [GMT_memory_take _ _ _ _ (by simp; omega) (by omega), ← hg, take_succ_set _ _ _ hj]
    simp
  · simp only [hg, if_false]
    rw [take_succ_set _ _ _ hj]
    simp

/-- The reading loop against the plain list of decoded records: when the calls
of `x2sys_read_record` give the rows `rows` before the first non-zero value, the
loop exits with `j` advanced by their number, with `ms_rec` extended by their
segment ids and every column extended by its entry of every row. -/
theorem fileLoop_spec {D : Type} (F : DoubleOps D) (E : Env D) (G : GMT_IO) (g : Nat → Locals)
    (hchunk : 0 < E.GMT_CHUNK) :
    ∀ (fuel : Nat) (st : FileState D) (rows : List (List D × Bool)),
      decodedRecords F E G g fuel st.j st.fp st.record st.s = some rows → FileInv st →
      ∃ st1 : FileState D, fileLoop F E G g fuel st = some st1 ∧
        st1.j = st.j + rows.length ∧
        st1.z.length = st.z.length ∧
        (∀ (i : Nat) (col : List D), st1.z[i]? = some col → st1.j ≤ col.length) ∧
        st1.j ≤ st1.p.ms_rec.length ∧
        st1.p.ms_rec.take st1.j =
          st.p.ms_rec.take st.j ++ segIds st.p.n_segments (rows.map (fun row => row.2)) ∧
        (∀ row ∈ rows, row.1.length = st.record.length) ∧
        (∀ (i : Nat) (col : List D), st.z[i]? = some col →
          ∃ col1 : List D, st1.z[i]? = some col1 ∧
            (col1.take st1.j).map some =
              (col.take st.j).map some ++ rows.map (fun row => row.1[i]?)) := by
  intro fuel
  induction fuel with
  | zero => intro st rows h; simp [decodedRecords] at h
  | succ fuel ih =>
    intro st rows h hinv
    simp only [decodedRecords] at h
    cases hr : x2sys_read_record F E G st.fp st.record st.s (g st.j) with
    | none => simp [hr] at h
    | some vr =>
      obtain ⟨v, r⟩ := vr
      simp only [hr] at h
      have hlen := read_record_data_length F E G _ _ _ _ _ _ hr
      by_cases hv : v = 0
      · simp only [hv, ne_eq, not_true_eq_false, if_false, Option.map_eq_some'] at h
        obtain ⟨rows1, hrows1, hrows⟩ := h
        subst hrows
        have hinv1 := fileStep_inv F E st r hchunk hinv hlen
        have hstep : decodedRecords F E G g fuel (fileStep F E st r).j (fileStep F E st r).fp
            (fileStep F E st r).record (fileStep F E st r).s = some rows1 := hrows1
        obtain ⟨st1, hloop, hj, hzl, hcl, hml, hms, hrl, hcol⟩ := ih _ rows1 hstep hinv1
        have hj1 : (fileStep F E st r).j = st.j + 1 := rfl
        have hz1 : (fileStep F E st r).z.length = st.z.length := by
          simp only [fileStep]
          split <;> simp [storeRow_length]
        refine ⟨st1, ?_, ?_, ?_, hcl, hml, ?_, ?_, ?_⟩
        · simp [fileLoop, hr, hv, hloop]
        · rw [hj, hj1]; simp only [List.length_cons]; omega
        · rw [hzl, hz1]
        · rw [hms, hj1, fileStep_ms_take F E st r hinv]
          simp [segIds, fileStep]
        · intro row hrow
          rcases List.mem_cons.mp hrow with h1 | h1
          · rw [h1]; exact hlen
          · rw [hrl row h1]; exact hlen
        · intro i col hz
          obtain ⟨col1, hc1, ht1⟩ := fileStep_col_take F E st r hinv hlen i col hz
          obtain ⟨col2, hc2, ht2⟩ := hcol i col1 hc1
          refine ⟨col2, hc2, ?_⟩
          rw [ht2, hj1, ht1]
          simp
      · simp only [ne_eq, hv, not_false_eq_true, if_true, Option.some.injEq] at h
        subst h
        refine ⟨{ st with fp := r.fp, record := r.data, s := r.s }, ?_, rfl, rfl, ?_, ?_, ?_,
          ?_, ?_⟩
        · simp [fileLoop, hr, hv]
        · intro i col hz
          have := hinv.cols i col hz
          have := hinv.room
          simp only at *
          omega
        · have := hinv.segs
          have := hinv.room
          simp only at *
          omega
        · simp [segIds]
        · simp
        · intro i col hz
          exact ⟨col, hz, by simp⟩

/-- The whole of `x2sys_read_file` against the plain list of decoded records. -/
theorem read_file_spec {D : Type} (F : DoubleOps D) (E : Env D) (G : GMT_IO) (g : Nat → Locals)
    (fuel : Nat) (fname : List Char) (fp0 : FILE) (s : X2SYS_INFO D) (p : X2SYS_FILE_INFO)
    (rows : List (List D × Bool)) (hchunk : 0 < E.GMT_CHUNK)
    (hrows : decodedRecords F E G g fuel 0 (x2sys_skip_header E fp0 s)
      (GMT_memory (F.ofInt 0) [] s.n_fields) s = some rows) :
    ∃ res : ReadFileResult D,
      x2sys_read_file F E G g fuel fname (some fp0) s p = some res ∧
      res.ret = rows.length ∧ res.p.n_rows = rows.length ∧
      res.data.length = s.n_fields ∧
      (∀ col ∈ res.data, col.length = rows.length) ∧
      res.p.ms_rec =
        segIds (if s.multi_segment then -1 else p.n_segments) (rows.map (fun row => row.2)) ∧
      (∀ row ∈ rows, row.1.length = s.n_fields) ∧
      (∀ (i : Nat) (col : List D), res.data[i]? = some col →
        col.map some = rows.map (fun row => row.1[i]?)) := by
  have hinv : FileInv
      ({ fp := x2sys_skip_header E fp0 s
         record := GMT_memory (F.ofInt 0) [] s.n_fields
         s := s
         z := List.replicate s.n_fields (GMT_memory (F.ofInt 0) [] E.GMT_CHUNK)
         p := { p with
           ms_rec := GMT_memory 0 [] E.GMT_CHUNK
           n_segments := if s.multi_segment then -1 else p.n_segments }
         j := 0
         n_alloc := E.GMT_CHUNK } : FileState D) := by
    refine ⟨hchunk, ?_, by simp [GMT_memory_length], by simp [GMT_memory_length]⟩
    intro i col h
    rw [List.getElem?_replicate] at h
    split at h
    · simp only [Option.some.injEq] at h
      rw [← h, GMT_memory_length]
    · simp at h
  obtain ⟨st1, hloop, hj, hzl, hcl, hml, hms, hrl, hcol⟩ :=
    fileLoop_spec F E G g hchunk fuel _ rows hrows hinv
  simp only [Nat.zero_add, List.take_zero, List.nil_append, List.map_nil, List.length_replicate,
    GMT_memory_length] at hj hzl hms hrl hcol
  refine ⟨_, by simp only [x2sys_read_file, hloop]; rfl, ?_, ?_, ?_, ?_, ?_, hrl, ?_⟩
  · simp [hj]
  · simp [hj]
  · simp [hzl]
  · intro col hc
    simp only [List.mem_map] at hc
    obtain ⟨c, _, hc⟩ := hc
    rw [← hc, GMT_memory_length, hj]
  · simp only
    rw [GMT_memory_trim _ _ _ hml, hms]
  · intro i col hc
    simp only [List.getElem?_map, Option.map_eq_some'] at hc
    obtain ⟨c1, hc1, hc⟩ := hc
    have hi : i < s.n_fields := by
      have := (List.getElem?_eq_some_iff.mp hc1).1
      omega
    obtain ⟨c2, hc2, ht⟩ := hcol i (GMT_memory (F.ofInt 0) [] E.GMT_CHUNK)
      (by rw [List.getElem?_replicate]; simp [hi])
    rw [hc1] at hc2
    simp only [Option.some.injEq] at hc2
    subst hc2
    rw [← hc, GMT_memory_trim _ _ _ (hcl i c1 hc1), ht]

/-- C10: when the successive calls of `x2sys_read_record` decode the records
`rows` before the first call that returns a non-zero value (end of input or
decode failure), `x2sys_read_file` returns `j = rows.length` and sets `n_rows`
to it; `*data` has `n_fields` columns, every column and `ms_rec` have length
exactly `j`, and entry `r` of column `i` is field `i` of the `r`-th decoded
record, whatever the number of enlargements by `GMT_CHUNK` (taken positive). -/
theorem read_file_rows {D : Type} (F : DoubleOps D) (E : Env D) (G : GMT_IO) (g : Nat → Locals)
    (fuel : Nat) (fname : List Char) (fp0 : FILE) (s : X2SYS_INFO D) (p : X2SYS_FILE_INFO)
    (rows : List (List D × Bool)) (hchunk : 0 < E.GMT_CHUNK)
    (hrows : decodedRecords F E G g fuel 0 (x2sys_skip_header E fp0 s)
      (GMT_memory (F.ofInt 0) [] s.n_fields) s = some rows) :
    ∃ res : ReadFileResult D,
      x2sys_read_file F E G g fuel fname (some fp0) s p = some res ∧
      res.ret = rows.length ∧ res.p.n_rows = rows.length ∧
      res.data.length = s.n_fields ∧
      (∀ col ∈ res.data, col.length = rows.length) ∧
      res.p.ms_rec.length = rows.length ∧
      (∀ (i r : Nat), i < s.n_fields → r < rows.length →
        ∃ (col : List D) (row : List D × Bool) (v : D),
          res.data[i]? = some col ∧ rows[r]? = some row ∧
          row.1[i]? = some v ∧ col[r]? = some v) := by
  obtain ⟨res, hres, hret, hn, hlen, hcols, hms, hrl, hcol⟩ :=
    read_file_spec F E G g fuel fname fp0 s p rows hchunk hrows
  refine ⟨res, hres, hret, hn, hlen, hcols, ?_, ?_⟩
  · rw [hms]
    have : ∀ (n : Int) (bs : List Bool), (segIds n bs).length = bs.length := by
      intro n bs
      induction bs generalizing n with
      | nil => rfl
      | cons b bs ih => simp [segIds, ih]
    simp [this]
  · intro i r hi hr
    have hi1 : i < res.data.length := by omega
    have hrow : rows[r] ∈ rows := List.getElem_mem hr
    have hv : i < rows[r].1.length := by rw [hrl _ hrow]; exact hi
    refine ⟨res.data[i], rows[r], rows[r].1[i], List.getElem?_eq_getElem hi1,
      List.getElem?_eq_getElem hr, List.getElem?_eq_getElem hv, ?_⟩
    have h := congrArg (fun l => l[r]?) (hcol i res.data[i] (List.getElem?_eq_getElem hi1))
    simp only [List.getElem?_map, List.getElem?_eq_getElem hr, Option.map_some',
      List.getElem?_eq_getElem hv] at h
    cases hc : (res.data[i])[r]? with
    | none => simp [hc] at h
    | some w =>
      rw [hc] at h
      simp only [Option.map_some', Option.some.injEq] at h
      rw [h]

/-- The example behind C10: with `GMT_CHUNK` 2, a file of 7 one-byte records
(3 * 2 + 1 rows) gives 7 rows in columns of length 7. -/
theorem read_file_rows_witness :
    ∃ res : ReadFileResult Dec,
      x2sys_read_file decOps (decEnv 2) noColTypes (fun _ => zeroLocals) 8 "t".toList
        (some [Char.ofNat 1, Char.ofNat 2, Char.ofNat 3, Char.ofNat 4, Char.ofNat 5,
          Char.ofNat 6, Char.ofNat 7]) byteSchema emptyFileInfo = some res ∧
      res.ret = (7 : Nat) ∧ res.p.n_rows = (7 : Nat) ∧
      res.data.length = byteSchema.n_fields ∧
      (∀ col ∈ res.data, col.length = 7) ∧
      res.p.ms_rec.length = 7 ∧
      (∀ (i r : Nat), i < byteSchema.n_fields → r < 7 →
        ∃ (col : List Dec) (row : List Dec × Bool) (v : Dec),
          res.data[i]? = some col ∧
          [([Dec.val 1 0], false), ([Dec.val 2 0], false), ([Dec.val 3 0], false),
            ([Dec.val 4 0], false), ([Dec.val 5 0], false), ([Dec.val 6 0], false),
            ([Dec.val 7 0], false)][r]? = some row ∧
          row.1[i]? = some v ∧ col[r]? = some v) :=
  read_file_rows decOps (decEnv 2) noColTypes (fun _ => zeroLocals) 8 "t".toList
    [Char.ofNat 1, Char.ofNat 2, Char.ofNat 3, Char.ofNat 4, Char.ofNat 5, Char.ofNat 6,
      Char.ofNat 7] byteSchema emptyFileInfo
    [([Dec.val 1 0], false), ([Dec.val 2 0], false), ([Dec.val 3 0], false),
      ([Dec.val 4 0], false), ([Dec.val 5 0], false), ([Dec.val 6 0], false),
      ([Dec.val 7 0], false)] (by decide) (by decide)

/-! ## Segment ids -/

theorem fgetsChunk_line : ∀ (n : Nat) (l rest : List Char), lineFits n l = true →
    fgetsChunk n (l ++ rest) = (l, rest) := by
  intro n
  induction n with
  | zero => intro l rest h; simp [lineFits] at h
  | succ n ih =>
    intro l rest h
    cases l with
    | nil => simp [lineFits] at h
    | cons c cs =>
      simp only [lineFits] at h
      by_cases hc : c = '\n'
      · simp only [hc, if_true, List.isEmpty_iff] at h
        subst h
        simp [fgetsChunk, hc]
      · simp only [hc, if_false] at h
        simp [fgetsChunk, hc, ih cs rest h]

theorem lineFits_ne_nil (n : Nat) (l : List Char) (h : lineFits n l = true) : l ≠ [] := by
  intro hl
  subst hl
  cases n <;> simp [lineFits] at h

theorem fgets_line (size : Nat) (line l rest : List Char)
    (h : lineFits (size - 1) l = true) : fgets size line (l ++ rest) = (cstr l, rest) := by
  have hne := lineFits_ne_nil _ _ h
  cases l with
  | nil => exact absurd rfl hne
  | cons c cs =>
    have := fgetsChunk_line (size - 1) (c :: cs) rest h
    simp only [List.cons_append] at this ⊢
    simp [fgets, this]

theorem skipHeaders_data (size : Nat) (flag : Char) (mseg : Bool) (fuel : Nat)
    (line : List Char) (fp : FILE) (ms : Bool) (h : isHeaderLine flag line = false) :
    skipHeaders size flag mseg fuel line fp ms = some (line, fp, ms) := by
  cases fuel <;> simp [skipHeaders, h]

theorem skipHeaders_run (size : Nat) (flag : Char) (mseg : Bool) (row rest : List Char)
    (hrow : lineFits (size - 1) row = true) (hdata : isHeaderLine flag (cstr row) = false) :
    ∀ (hs : List (List Char)) (fuel : Nat) (line : List Char) (ms : Bool),
      isHeaderLine flag line = true →
      (∀ h ∈ hs, lineFits (size - 1) h = true ∧ isHeaderLine flag (cstr h) = true) →
      hs.length < fuel →
      skipHeaders size flag mseg fuel line (hs.flatten ++ (row ++ rest)) ms =
        some (cstr row, rest, if mseg then true else ms) := by
  intro hs
  induction hs with
  | nil =>
    intro fuel line ms hline _ hfuel
    obtain ⟨f, rfl⟩ : ∃ f, fuel = f + 1 := ⟨fuel - 1, by simp at hfuel; omega⟩
    simp only [skipHeaders, hline, if_true, List.flatten_nil, List.nil_append,
      fgets_line size line row rest hrow]
    exact skipHeaders_data _ _ _ _ _ _ _ hdata
  | cons h hs ih =>
    intro fuel line ms hline hhs hfuel
    obtain ⟨f, rfl⟩ : ∃ f, fuel = f + 1 := ⟨fuel - 1, by simp at hfuel; omega⟩
    have hh := hhs h (by simp)
    simp only [skipHeaders, hline, if_true, List.flatten_cons, List.append_assoc,
      fgets_line size line h _ hh.1]
    rw [ih f (cstr h) _ hh.2 (fun x hx => hhs x (by simp [hx]))
      (by simp only [List.length_cons] at hfuel; omega)]
    cases mseg <;> simp

theorem flatten_length_ge (size : Nat) (hs : List (List Char))
    (h : ∀ x ∈ hs, lineFits size x = true) : hs.length ≤ hs.flatten.length := by
  induction hs with
  | nil => simp
  | cons a hs ih =>
    have ha : a ≠ [] := lineFits_ne_nil _ _ (h a (by simp))
    have hlen : 0 < a.length := List.length_pos.mpr ha
    have := ih (fun x hx => h x (by simp [hx]))
    simp only [List.length_cons, List.flatten_cons, List.length_append]
    omega

/-- The data-line search on a stream that starts with a run of header lines and
a data line: the data line is delivered, and a boundary is noted exactly when
multi-segment is enabled and the run is not empty. -/
theorem getDataLine_block {D : Type} (E : Env D) (s : X2SYS_INFO D) (line0 : List Char)
    (hs : List (List Char)) (row rest : List Char)
    (hhs : ∀ h ∈ hs, lineFits (E.BUFSIZ - 1) h = true ∧ isHeaderLine s.ms_flag (cstr h) = true)
    (hrow : lineFits (E.BUFSIZ - 1) row = true)
    (hdata : isHeaderLine s.ms_flag (cstr row) = false) :
    getDataLine E s line0 (hs.flatten ++ (row ++ rest)) =
      some (cstr row, rest, s.multi_segment && !hs.isEmpty) := by
  cases hs with
  | nil =>
    simp only [getDataLine, List.flatten_nil, List.nil_append, fgets_line _ line0 row rest hrow]
    rw [skipHeaders_data _ _ _ _ _ _ _ hdata]
    simp
  | cons h hs =>
    have hh := hhs h (by simp)
    simp only [getDataLine, List.flatten_cons, List.append_assoc, fgets_line _ line0 h _ hh.1]
    rw [skipHeaders_run _ _ _ row rest hrow hdata hs _ (cstr h) false hh.2
      (fun x hx => hhs x (by simp [hx]))]
    · cases s.multi_segment <;> simp
    · have h1 := flatten_length_ge _ hs (fun x hx => (hhs x (by simp [hx])).1)
      have h2 : 0 < row.length := List.length_pos.mpr (lineFits_ne_nil _ _ hrow)
      simp only [List.length_append]
      omega

theorem getDataLine_congr {D : Type} (E : Env D) (s1 s2 : X2SYS_INFO D) (line : List Char)
    (fp : FILE) (h1 : s1.ms_flag = s2.ms_flag) (h2 : s1.multi_segment = s2.multi_segment) :
    getDataLine E s1 line fp = getDataLine E s2 line fp := by
  simp only [getDataLine, h1, h2]

/-- The records decoded from a stream of blocks with an ascii-token schema and a
record buffer of `n_fields` entries: one per block, with a boundary to count
exactly for the blocks whose header run is not empty (when multi-segment is
enabled). -/
theorem decodedRecords_blocks {D : Type} (F : DoubleOps D) (E : Env D) (G : GMT_IO)
    (g : Nat → Locals) (flag : Char) (mseg : Bool) (f : X2SYS_DATA_INFO D)
    (fs : List (X2SYS_DATA_INFO D)) (hf : f.intype = 'a') (tail : FILE) :
    ∀ (blocks : List Block) (fuel k : Nat) (record : List D) (s : X2SYS_INFO D),
      s.info = f :: fs → s.ms_flag = flag → s.multi_segment = mseg →
      record.length = (f :: fs).length →
      (∀ b ∈ blocks, ∀ h ∈ b.1,
        lineFits (E.BUFSIZ - 1) h = true ∧ isHeaderLine flag (cstr h) = true) →
      (∀ b ∈ blocks,
        lineFits (E.BUFSIZ - 1) b.2 = true ∧ isHeaderLine flag (cstr b.2) = false ∧
        (strtokAll (cstr b.2)).length = (f :: fs).length) →
      (∃ r : List Char × FILE × Bool,
        getDataLine E s (g (k + blocks.length)).line tail = some r ∧
        (strtokAll r.1).length < (f :: fs).length) →
      blocks.length < fuel →
      ∃ rows : List (List D × Bool),
        decodedRecords F E G g fuel k (fileText blocks tail) record s = some rows ∧
        rows.map (fun row => row.2) = blocks.map (fun b => mseg && !b.1.isEmpty) := by
  intro blocks
  induction blocks with
  | nil =>
    intro fuel k record s hinfo hflag hmseg hrec _ _ hstop hfuel
    obtain ⟨n, rfl⟩ : ∃ n, fuel = n + 1 := ⟨fuel - 1, by simp at hfuel; omega⟩
    obtain ⟨r, hr, htok⟩ := hstop
    simp only [List.length_nil, Nat.add_zero] at hr
    obtain ⟨d, hd⟩ := scanTokens_some E G (strtokAll r.1) record (by omega)
    refine ⟨[], ?_, rfl⟩
    simp only [decodedRecords, fileText,
      read_record_ascii_token_eq F E G tail record s (g k) f fs hinfo hf, hr, Option.some_bind,
      hd, Option.map_some', X2SYS_INFO.n_fields, hinfo]
    have hne : ¬ (strtokAll r.1).length = fs.length + 1 := by
      simp only [List.length_cons] at htok
      omega
    simp [hne]
  | cons b bs ih =>
    intro fuel k record s hinfo hflag hmseg hrec hhdr hrows hstop hfuel
    obtain ⟨n, rfl⟩ : ∃ n, fuel = n + 1 := ⟨fuel - 1, by simp at hfuel; omega⟩
    obtain ⟨hfit, hdata, htok⟩ := hrows b (by simp)
    have hline := getDataLine_block E s (g k).line b.1 b.2 (fileText bs tail)
      (by rw [hflag]; exact hhdr b (by simp)) hfit (by rw [hflag]; exact hdata)
    obtain ⟨r, hr, hrtok⟩ := hstop
    obtain ⟨d, hd⟩ := scanTokens_some E G (strtokAll (cstr b.2)) record (by omega)
    have hdlen : d.length = (f :: fs).length := by
      rw [scanTokens_length E G _ _ _ _ hd, hrec]
    have hstop1 : ∃ r : List Char × FILE × Bool,
        getDataLine E { s with ms_next := s.multi_segment && !b.1.isEmpty }
          (g (k + 1 + bs.length)).line tail = some r ∧
        (strtokAll r.1).length < (f :: fs).length := by
      refine ⟨r, ?_, hrtok⟩
      have hc := getDataLine_congr E { s with ms_next := s.multi_segment && !b.1.isEmpty } s
        (g (k + 1 + bs.length)).line tail rfl rfl
      have e : k + 1 + bs.length = k + (b :: bs).length := by
        simp only [List.length_cons]; omega
      rw [hc, e]; exact hr
    obtain ⟨rows1, hrows1, hflags1⟩ := ih n (k + 1) d
      { s with ms_next := s.multi_segment && !b.1.isEmpty } hinfo hflag hmseg hdlen
      (fun x hx => hhdr x (by simp [hx])) (fun x hx => hrows x (by simp [hx])) hstop1
      (by simp only [List.length_cons] at hfuel; omega)
    refine ⟨(d, mseg && !b.1.isEmpty) :: rows1, ?_, ?_⟩
    · have hn : (strtokAll (cstr b.2)).length = s.n_fields := by
        rw [htok, X2SYS_INFO.n_fields, hinfo]
      have hrec1 : x2sys_read_record F E G (fileText (b :: bs) tail) record s (g k) =
          some (0,
            { fp := fileText bs tail
              data := d
              s := { s with ms_next := s.multi_segment && !b.1.isEmpty }
              loc := { g k with line := cstr b.2 }
              n_read := 0
              error := false }) := by
        rw [read_record_ascii_token_eq F E G _ record s (g k) f fs hinfo hf]
        simp only [fileText, hline, Option.some_bind, hd, Option.map_some']
        simp [hn]
      simp only [decodedRecords, hrec1, ne_eq, not_true_eq_false, if_false]
      rw [hrows1]
      subst hmseg
      cases s.multi_segment <;> simp
    · simp [hflags1]

theorem segIds_ge : ∀ (bs : List Bool) (n : Int), ∀ x ∈ segIds n bs, n ≤ x := by
  intro bs
  induction bs with
  | nil => intro n x hx; simp [segIds] at hx
  | cons b bs ih =>
    intro n x hx
    simp only [segIds, List.mem_cons] at hx
    rcases hx with hx | hx
    · subst hx; split <;> omega
    · have := ih _ x hx
      split at this <;> omega

theorem segIds_pairwise : ∀ (bs : List Bool) (n : Int),
    List.Pairwise (fun a b => a ≤ b) (segIds n bs) := by
  intro bs
  induction bs with
  | nil => intro n; simp [segIds]
  | cons b bs ih =>
    intro n
    simp only [segIds, List.pairwise_cons]
    exact ⟨fun x hx => segIds_ge bs _ x hx, ih _⟩

theorem segIds_no_boundary : ∀ (bs : List Bool) (n : Int) (m : Nat),
    (∀ b ∈ bs.take m, b = false) → ∀ r, r < m → r < bs.length → (segIds n bs)[r]? = some n := by
  intro bs
  induction bs with
  | nil => intro n m _ r _ hr; simp at hr
  | cons b bs ih =>
    intro n m hb r hrm hr
    obtain ⟨m1, rfl⟩ : ∃ m1, m = m1 + 1 := ⟨m - 1, by omega⟩
    have hb0 : b = false := hb b (by simp)
    subst hb0
    cases r with
    | zero => simp [segIds]
    | succ r =>
      simp only [segIds, Bool.false_eq_true, if_false, List.getElem?_cons_succ]
      exact ih n m1 (fun x hx => hb x (by simp [hx])) r (by omega)
        (by simp only [List.length_cons] at hr; omega)

theorem segIds_first_boundary : ∀ (bs : List Bool) (n : Int) (m : Nat),
    (∀ b ∈ bs.take m, b = false) → bs[m]? = some true → (segIds n bs)[m]? = some (n + 1) := by
  intro bs
  induction bs with
  | nil => intro n m _ h; simp at h
  | cons b bs ih =>
    intro n m hb h
    cases m with
    | zero =>
      simp only [List.getElem?_cons_zero, Option.some.injEq] at h
      simp [segIds, h]
    | succ m =>
      have hb0 : b = false := hb b (by simp)
      subst hb0
      simp only [List.getElem?_cons_succ] at h
      simp only [segIds, Bool.false_eq_true, if_false, List.getElem?_cons_succ]
      exact ih n m (fun x hx => hb x (by simp [hx])) h

/-- A run of `x2sys_read_file` on a segmented file: it returns one row per block
and `ms_rec` is the running count of non-empty header runs, started at -1. -/
theorem read_file_segmented {D : Type} (F : DoubleOps D) (E : Env D) (G : GMT_IO)
    (g : Nat → Locals) (fuel : Nat) (fname : List Char) (fp0 : FILE) (s : X2SYS_INFO D)
    (p : X2SYS_FILE_INFO) (blocks : List Block) (tail : FILE)
    (hchunk : 0 < E.GMT_CHUNK) (hms : s.multi_segment = true)
    (hfile : SegmentedFile E s g blocks tail (x2sys_skip_header E fp0 s))
    (hfuel : blocks.length < fuel) :
    ∃ res : ReadFileResult D,
      x2sys_read_file F E G g fuel fname (some fp0) s p = some res ∧
      res.ret = blocks.length ∧
      res.p.ms_rec = segIds (-1) (blocks.map (fun b => !b.1.isEmpty)) := by
  obtain ⟨htext, ⟨hall, hne⟩, hhdr, hrows, hstop⟩ := hfile
  obtain ⟨f, fs, hinfo⟩ := List.exists_cons_of_ne_nil hne
  have hf : f.intype = 'a' := hall f (by simp [hinfo])
  obtain ⟨rows, hdec, hflags⟩ := decodedRecords_blocks F E G g s.ms_flag s.multi_segment f fs hf
    tail blocks fuel 0 (GMT_memory (F.ofInt 0) [] s.n_fields) s hinfo rfl rfl
    (by rw [GMT_memory_length, X2SYS_INFO.n_fields, hinfo]) hhdr
    (by simpa [X2SYS_INFO.n_fields, hinfo] using hrows)
    (by simpa [X2SYS_INFO.n_fields, hinfo] using hstop) hfuel
  rw [← htext] at hdec
  obtain ⟨res, hres, hret, _, _, _, hseg, _, _⟩ :=
    read_file_spec F E G g fuel fname fp0 s p rows hchunk hdec
  have hlen : rows.length = blocks.length := by
    have := congrArg List.length hflags
    simpa using this
  refine ⟨res, hres, by rw [hret, hlen], ?_⟩
  rw [hseg, hflags, hms]
  simp

theorem segIds_succ : ∀ (bs : List Bool) (n : Int) (r : Nat) (b : Bool),
    bs[r + 1]? = some b →
    ∃ a : Int, (segIds n bs)[r]? = some a ∧
      (segIds n bs)[r + 1]? = some (if b then a + 1 else a) := by
  intro bs
  induction bs with
  | nil => intro n r b h; simp at h
  | cons b0 bs ih =>
    intro n r b h
    simp only [List.getElem?_cons_succ] at h
    cases r with
    | zero =>
      cases bs with
      | nil => simp at h
      | cons b1 bs =>
        simp only [List.getElem?_cons_zero, Option.some.injEq] at h
        subst h
        exact ⟨if b0 then n + 1 else n, by simp [segIds], by simp [segIds]⟩
    | succ r =>
      obtain ⟨a, h1, h2⟩ := ih (if b0 then n + 1 else n) r b h
      exact ⟨a, by simpa [segIds] using h1, by simpa [segIds] using h2⟩

/-- C8, as stated, fails: with multi-segment enabled and two data rows before any
marker or header line, `x2sys_read_file` records segment id -1, not 0, for
both rows.  (At end of input the line buffer is taken to hold an empty string,
so the third call finds no token and returns -1.) -/
theorem first_rows_segment_counterexample :
    segSchema.multi_segment = true ∧
    (x2sys_read_file decOps (decEnv 2) noColTypes (fun _ => zeroLocals) 5 "t".toList
      (some "1 2 3\n4 5 6\n".toList) segSchema emptyFileInfo).map
        (fun res => (res.ret, res.p.ms_rec)) = some (2, [-1, -1]) := by
  decide

/-- C8, amended: with multi-segment enabled, on an ascii-token file made of
blocks (a run of header lines, possibly empty, then a data row), the data rows
that come before any marker or header line carry the segment id -1, the value
the counter is started with; the first row that follows a run of marker or
header lines carries 0. -/
theorem read_file_first_rows_segment {D : Type} (F : DoubleOps D) (E : Env D) (G : GMT_IO)
    (g : Nat → Locals) (fuel : Nat) (fname : List Char) (fp0 : FILE) (s : X2SYS_INFO D)
    (p : X2SYS_FILE_INFO) (blocks : List Block) (tail : FILE) (m : Nat)
    (hchunk : 0 < E.GMT_CHUNK) (hms : s.multi_segment = true)
    (hfile : SegmentedFile E s g blocks tail (x2sys_skip_header E fp0 s))
    (hfuel : blocks.length < fuel)
    (hlead : ∀ b ∈ blocks.take m, b.1 = []) :
    ∃ res : ReadFileResult D,
      x2sys_read_file F E G g fuel fname (some fp0) s p = some res ∧
      (∀ r : Nat, r < m → r < blocks.length → res.p.ms_rec[r]? = some (-1)) ∧
      (∀ b : Block, blocks[m]? = some b → b.1 ≠ [] → res.p.ms_rec[m]? = some 0) := by
  obtain ⟨res, hres, _, hseg⟩ :=
    read_file_segmented F E G g fuel fname fp0 s p blocks tail hchunk hms hfile hfuel
  have hflags : ∀ x ∈ (blocks.map (fun b => !b.1.isEmpty)).take m, x = false := by
    intro x hx
    rw [← List.map_take, List.mem_map] at hx
    obtain ⟨b, hb, hbx⟩ := hx
    rw [← hbx, hlead b hb]
    rfl
  refine ⟨res, hres, ?_, ?_⟩
  · intro r hr hrl
    rw [hseg]
    exact segIds_no_boundary _ (-1) m hflags r hr (by simpa using hrl)
  · intro b hb hne
    rw [hseg]
    have := segIds_first_boundary (blocks.map (fun b => !b.1.isEmpty)) (-1) m hflags
      (by
        rw [List.getElem?_map, hb]
        cases hb1 : b.1 with
        | nil => exact absurd hb1 hne
        | cons x xs => simp [hb1])
    simpa using this

/-- The example behind the amended C8: two rows before any marker line carry
-1 and the row after the marker line carries 0. -/
theorem read_file_first_rows_segment_witness :
    ∃ res : ReadFileResult Dec,
      x2sys_read_file decOps (decEnv 2) noColTypes (fun _ => zeroLocals) 4 "t".toList
        (some (fileText lateBlocks [])) segSchema emptyFileInfo = some res ∧
      (∀ r : Nat, r < 2 → r < lateBlocks.length → res.p.ms_rec[r]? = some (-1)) ∧
      (∀ b : Block, lateBlocks[2]? = some b → b.1 ≠ [] → res.p.ms_rec[2]? = some 0) :=
  read_file_first_rows_segment decOps (decEnv 2) noColTypes (fun _ => zeroLocals) 4 "t".toList
    (fileText lateBlocks []) segSchema emptyFileInfo lateBlocks [] 2 (by decide) (by decide)
    ⟨by decide, ⟨by decide, List.cons_ne_nil _ _⟩, by decide, by decide,
      ⟨([], [], false), by decide, by decide⟩⟩
    (by decide) (by decide)

/-- C9: with multi-segment enabled, on an ascii-token file made of blocks (a run
of lines starting with `#` or the marker character, possibly empty, then a data
row), `x2sys_read_file` returns one row per block and `ms_rec` is the running
count, started at -1, of the non-empty runs: from one row to the next the
segment id goes up by exactly 1 when a run (of any number of lines) stands
between them and stays the same when none does, so `ms_rec` is non-decreasing. -/
theorem read_file_segment_ids {D : Type} (F : DoubleOps D) (E : Env D) (G : GMT_IO)
    (g : Nat → Locals) (fuel : Nat) (fname : List Char) (fp0 : FILE) (s : X2SYS_INFO D)
    (p : X2SYS_FILE_INFO) (blocks : List Block) (tail : FILE)
    (hchunk : 0 < E.GMT_CHUNK) (hms : s.multi_segment = true)
    (hfile : SegmentedFile E s g blocks tail (x2sys_skip_header E fp0 s))
    (hfuel : blocks.length < fuel) :
    ∃ res : ReadFileResult D,
      x2sys_read_file F E G g fuel fname (some fp0) s p = some res ∧
      res.ret = blocks.length ∧
      res.p.ms_rec = segIds (-1) (blocks.map (fun b => !b.1.isEmpty)) ∧
      (∀ (r : Nat) (b : Block), blocks[r + 1]? = some b →
        ∃ a : Int, res.p.ms_rec[r]? = some a ∧
          res.p.ms_rec[r + 1]? = some (if b.1.isEmpty then a else a + 1)) ∧
      List.Pairwise (fun a b => a ≤ b) res.p.ms_rec := by
  obtain ⟨res, hres, hret, hseg⟩ :=
    read_file_segmented F E G g fuel fname fp0 s p blocks tail hchunk hms hfile hfuel
  refine ⟨res, hres, hret, hseg, ?_, ?_⟩
  · intro r b hb
    obtain ⟨a, h1, h2⟩ := segIds_succ (blocks.map (fun b => !b.1.isEmpty)) (-1) r
      (!b.1.isEmpty) (by rw [List.getElem?_map, hb]; rfl)
    refine ⟨a, by rw [hseg]; exact h1, ?_⟩
    rw [hseg, h2]
    cases b.1.isEmpty <;> simp
  · rw [hseg]
    exact segIds_pairwise _ _

/-- The example behind C9: a run of two header lines, two rows, a run of one
marker line and a third row give the segment ids 0, 0, 1. -/
theorem read_file_segment_ids_witness :
    ∃ res : ReadFileResult Dec,
      x2sys_read_file decOps (decEnv 2) noColTypes (fun _ => zeroLocals) 4 "t".toList
        (some (fileText segBlocks [])) segSchema emptyFileInfo = some res ∧
      res.ret = segBlocks.length ∧
      res.p.ms_rec = segIds (-1) (segBlocks.map (fun b => !b.1.isEmpty)) ∧
      (∀ (r : Nat) (b : Block), segBlocks[r + 1]? = some b →
        ∃ a : Int, res.p.ms_rec[r]? = some a ∧
          res.p.ms_rec[r + 1]? = some (if b.1.isEmpty then a else a + 1)) ∧
      List.Pairwise (fun a b => a ≤ b) res.p.ms_rec :=
  read_file_segment_ids decOps (decEnv 2) noColTypes (fun _ => zeroLocals) 4 "t".toList
    (fileText segBlocks []) segSchema emptyFileInfo segBlocks [] (by decide) (by decide)
    ⟨by decide, ⟨by decide, List.cons_ne_nil _ _⟩, by decide, by decide,
      ⟨([], [], false), by decide, by decide⟩⟩
    (by decide)

/-- For every run of `x2sys_read_file` that returns, whatever the schema and the
file, the segment ids in `ms_rec` are non-decreasing. -/
theorem read_file_ms_rec_nondecreasing {D : Type} (F : DoubleOps D) (E : Env D) (G : GMT_IO)
    (g : Nat → Locals) (fuel : Nat) (fname : List Char) (fp0 : FILE) (s : X2SYS_INFO D)
    (p : X2SYS_FILE_INFO) (rows : List (List D × Bool)) (hchunk : 0 < E.GMT_CHUNK)
    (hrows : decodedRecords F E G g fuel 0 (x2sys_skip_header E fp0 s)
      (GMT_memory (F.ofInt 0) [] s.n_fields) s = some rows) :
    ∃ res : ReadFileResult D,
      x2sys_read_file F E G g fuel fname (some fp0) s p = some res ∧
      List.Pairwise (fun a b => a ≤ b) res.p.ms_rec := by
  obtain ⟨res, hres, _, _, _, _, hseg, _, _⟩ :=
    read_file_spec F E G g fuel fname fp0 s p rows hchunk hrows
  exact ⟨res, hres, by rw [hseg]; exact segIds_pairwise _ _⟩

/-! ## The header-skipping loop and its bound -/

theorem fgetsChunk_length : ∀ (n : Nat) (fp : FILE), 0 < n → fp ≠ [] →
    (fgetsChunk n fp).2.length < fp.length := by
  intro n
  induction n with
  | zero => intro fp h; omega
  | succ n ih =>
    intro fp _ hne
    cases fp with
    | nil => exact absurd rfl hne
    | cons c cs =>
      simp only [fgetsChunk]
      split
      · simp
      · simp only [List.length_cons]
        cases n with
        | zero => simp [fgetsChunk]
        | succ n =>
          cases cs with
          | nil => simp [fgetsChunk]
          | cons d ds =>
            have := ih (d :: ds) (by omega) (by simp)
            simp only [List.length_cons] at this ⊢
            omega

theorem fgets_length (size : Nat) (line : List Char) (fp : FILE) (hsize : 2 ≤ size) :
    (fgets size line fp).2.length ≤ fp.length - 1 := by
  cases fp with
  | nil => simp [fgets]
  | cons c cs =>
    have := fgetsChunk_length (size - 1) (c :: cs) (by omega) (by simp)
    simp only [fgets, List.length_cons] at this ⊢
    omega

theorem skipHeaders_eof (size : Nat) (flag : Char) (mseg : Bool) (line : List Char)
    (h : isHeaderLine flag line = true) :
    ∀ (fuel : Nat) (ms : Bool), skipHeaders size flag mseg fuel line [] ms = none := by
  intro fuel
  induction fuel with
  | zero => intro ms; simp [skipHeaders, h]
  | succ fuel ih => intro ms; simp [skipHeaders, h, fgets, ih]

/-- The bound of `getDataLine` is enough: once the number of passes allowed
reaches the length of the stream, allowing more passes does not change the
outcome of the header-skipping loop (`BUFSIZ` being at least 2).  So `none` is
the loop that never ends: a header line in `line` and the stream at its end. -/
theorem skipHeaders_fuel (size : Nat) (flag : Char) (mseg : Bool) (hsize : 2 ≤ size) :
    ∀ (fuel extra : Nat) (line : List Char) (fp : FILE) (ms : Bool), fp.length ≤ fuel →
      skipHeaders size flag mseg (fuel + extra) line fp ms =
        skipHeaders size flag mseg fuel line fp ms := by
  intro fuel
  induction fuel with
  | zero =>
    intro extra line fp ms hlen
    have hfp : fp = [] := List.length_eq_zero.mp (by omega)
    subst hfp
    cases hh : isHeaderLine flag line with
    | false => rw [skipHeaders_data _ _ _ _ _ _ _ hh, skipHeaders_data _ _ _ _ _ _ _ hh]
    | true => rw [skipHeaders_eof _ _ _ _ hh, skipHeaders_eof _ _ _ _ hh]
  | succ fuel ih =>
    intro extra line fp ms hlen
    cases hh : isHeaderLine flag line with
    | false => rw [skipHeaders_data _ _ _ _ _ _ _ hh, skipHeaders_data _ _ _ _ _ _ _ hh]
    | true =>
      have e : fuel + 1 + extra = (fuel + extra) + 1 := by omega
      rw [e]
      simp only [skipHeaders, hh, if_true]
      exact ih extra _ _ _ (by have := fgets_length size line fp hsize; omega)

/-! ## The ascii-card case never reports success -/

theorem readField_ascii_card {D : Type} (F : DoubleOps D) (E : Env D) (G : GMT_IO)
    (f : X2SYS_DATA_INFO D) (j : Nat) (st : ReadState D) (hf : f.intype = 'A') :
    (readField F E G f j st).Holds
      (fun st1 => st1.n_read = st.n_read ∧ st1.error = st.error ∧ st1.s.info = st.s.info) ∧
    (∀ (v : Int) (st1 : ReadState D), readField F E G f j st ≠ .ret v st1) := by
  unfold readField
  simp only [hf, if_true]
  split <;> simp [Flow.Holds]

theorem readFields_ascii_card {D : Type} (F : DoubleOps D) (E : Env D) (G : GMT_IO) :
    ∀ (fs : List (X2SYS_DATA_INFO D)) (j : Nat) (st : ReadState D),
      (∀ f ∈ fs, f.intype = 'A') →
      (readFields F E G fs j st).Holds
        (fun st1 => st1.n_read = st.n_read ∧ st1.error = st.error ∧ st1.s.info = st.s.info) ∧
      (∀ (v : Int) (st1 : ReadState D), readFields F E G fs j st ≠ .ret v st1) := by
  intro fs
  induction fs with
  | nil => intro j st _; simp [readFields, Flow.Holds]
  | cons f fs ih =>
    intro j st hall
    obtain ⟨h1, h2⟩ := readField_ascii_card F E G f j st (hall f (by simp))
    simp only [readFields]
    split
    · simp [Flow.Holds]
    · split
      · rename_i st1 hr
        rw [hr] at h1
        simp only [Flow.Holds] at h1
        obtain ⟨h3, h4⟩ := ih (j + 1) st1 (fun x hx => hall x (by simp [hx]))
        refine ⟨?_, h4⟩
        revert h3
        cases readFields F E G fs (j + 1) st1 <;> simp [Flow.Holds, h1]
      · rename_i v st1 hr
        exact absurd hr (h2 v st1)
      · simp [Flow.Holds]
      · simp [Flow.Holds]

/-- For every schema whose fields are all ascii-card, with at least one field,
every call of `x2sys_read_record` that returns, returns -1: the count `n_read`
is still 0 at the final test. -/
theorem read_record_ascii_card_fails {D : Type} (F : DoubleOps D) (E : Env D) (G : GMT_IO)
    (fp : FILE) (data : List D) (s : X2SYS_INFO D) (loc : Locals) (v : Int) (st : ReadState D)
    (hall : ∀ f ∈ s.info, f.intype = 'A') (hne : s.info ≠ [])
    (h : x2sys_read_record F E G fp data s loc = some (v, st)) : v = -1 := by
  obtain ⟨h1, h2⟩ := readFields_ascii_card F E G s.info 0
    { fp := fp, data := data, s := s, loc := loc, n_read := 0, error := false } hall
  unfold x2sys_read_record at h
  split at h
  · simp at h
  · simp at h
  · rename_i v1 st1 hr
    exact absurd hr (h2 v1 st1)
  · rename_i st1 hr
    rw [hr] at h1
    simp only [Flow.Holds] at h1
    obtain ⟨hn, he, hi⟩ := h1
    simp only [Option.some.injEq, Prod.mk.injEq] at h
    obtain ⟨hv, _⟩ := h
    have hlen : 0 < s.info.length := List.length_pos.mpr hne
    have hne0 : ¬ (0 = s.info.length) := by omega
    simp [hn, he, X2SYS_INFO.n_fields, hi, hne0] at hv
    exact hv.symm

/-! ## Cumulative distances -/

theorem distLoop_length {D : Type} (F : DoubleOps D) (seg : Nat → Nat → D) :
    ∀ (k this prev : Nat) (d : List D), (distLoop F seg k this prev d).length = d.length := by
  intro k
  induction k with
  | zero => intro this prev d; rfl
  | succ k ih => intro this prev d; simp [distLoop, ih]

/-- The loop of `x2sys_distances` started at `this = prev + 1`: the entries up to
`prev` are left as they were, and every later entry written is the entry before
it plus the segment term. -/
theorem distLoop_spec {D : Type} (F : DoubleOps D) (seg : Nat → Nat → D) :
    ∀ (k prev : Nat) (d : List D), prev + 1 + k ≤ d.length →
      (∀ i, i ≤ prev → (distLoop F seg k (prev + 1) prev d)[i]? = d[i]?) ∧
      (∀ i, prev < i → i ≤ prev + k →
        (distLoop F seg k (prev + 1) prev d)[i]? =
          some (F.add (arr F (distLoop F seg k (prev + 1) prev d) (i - 1)) (seg i (i - 1)))) := by
  intro k
  induction k with
  | zero =>
    intro prev d _
    exact ⟨fun i _ => rfl, fun i h1 h2 => by omega⟩
  | succ k ih =>
    intro prev d hlen
    obtain ⟨h1, h2⟩ := ih (prev + 1)
      (d.set (prev + 1) (F.add (arr F d prev) (seg (prev + 1) prev)))
      (by simp only [List.length_set]; omega)
    have hlow : ∀ i, i ≤ prev → (distLoop F seg (k + 1) (prev + 1) prev d)[i]? = d[i]? := by
      intro i hi
      simp only [distLoop]
      rw [h1 i (by omega), List.getElem?_set_ne (by omega)]
    refine ⟨hlow, ?_⟩
    intro i hi1 hi2
    by_cases hi : i = prev + 1
    · subst hi
      have harr : arr F (distLoop F seg (k + 1) (prev + 1) prev d) prev = arr F d prev := by
        simp only [arr, List.getD_eq_getElem?_getD, hlow prev (Nat.le_refl _)]
      simp only [Nat.add_sub_cancel, harr]
      simp only [distLoop]
      rw [h1 (prev + 1) (Nat.le_refl _)]
      exact List.getElem?_set_self (by omega)
    · have := h2 i (by omega) (by omega)
      simpa only [distLoop] using this

/-- C11: for every `n >= 1`, all arrays `x`, `y` and each of the modes 0, 1 and
2, `x2sys_distances` returns an array `d` of length `n` whose first entry is
the 0 that the allocation left there: no mode writes `d[0]`. -/
theorem distances_first_zero {D : Type} (F : DoubleOps D) (M : DistOps D) (x y : List D)
    (n : Nat) (dist_flag : Int) (hn : 1 ≤ n)
    (hflag : dist_flag = 0 ∨ dist_flag = 1 ∨ dist_flag = 2) :
    ∃ d : List D, x2sys_distances F M x y n dist_flag = some d ∧
      d.length = n ∧ d[0]? = some (F.ofInt 0) := by
  refine ⟨distLoop F (segment F M x y dist_flag) (n - 1) 1 0 (GMT_memory (F.ofInt 0) [] n),
    by simp only [x2sys_distances, hflag, if_true], ?_, ?_⟩
  · rw [distLoop_length, GMT_memory_length]
  · have h := (distLoop_spec F (segment F M x y dist_flag) (n - 1) 0
      (GMT_memory (F.ofInt 0) [] n) (by rw [GMT_memory_length]; omega)).1 0 (Nat.le_refl _)
    rw [h]
    simp only [GMT_memory, List.nil_append, List.take_replicate, Nat.min_self]
    rw [List.getElem?_replicate, if_pos (by omega)]

/-- The example behind C11: three points in flat-earth mode. -/
theorem distances_first_zero_witness :
    ∃ d : List Dec,
      x2sys_distances decOps decDist [.val 0 0, .val 1 0, .val 1 0]
        [.val 60 0, .val 60 0, .val 61 0] 3 1 = some d ∧
      d.length = 3 ∧ d[0]? = some (decOps.ofInt 0) :=
  distances_first_zero decOps decDist [.val 0 0, .val 1 0, .val 1 0]
    [.val 60 0, .val 60 0, .val 61 0] 3 1 (by decide) (by decide)
theorem arr_of_lt {D : Type} (F : DoubleOps D) (a : List D) (i : Nat) (h : i < a.length) :
    a[i]? = some (arr F a i) := by
  simp [arr, List.getD_eq_getElem?_getD, List.getElem?_eq_getElem h]

theorem arr_of_getElem? {D : Type} (F : DoubleOps D) (a : List D) (i : Nat) (v : D)
    (h : a[i]? = some v) : arr F a i = v := by
  simp [arr, List.getD_eq_getElem?_getD, h]

/-- What a run of `x2sys_distances` in a supported mode returns: every entry
after the first is the entry before it plus the segment term of the mode. -/
theorem distances_spec {D : Type} (F : DoubleOps D) (M : DistOps D) (x y : List D)
    (n : Nat) (dist_flag : Int) (hflag : dist_flag = 0 ∨ dist_flag = 1 ∨ dist_flag = 2) :
    ∃ d : List D, x2sys_distances F M x y n dist_flag = some d ∧ d.length = n ∧
      (0 < n → d[0]? = some (F.ofInt 0)) ∧
      (∀ i : Nat, 1 ≤ i → i < n →
        d[i]? = some (F.add (arr F d (i - 1)) (segment F M x y dist_flag i (i - 1)))) := by
  refine ⟨distLoop F (segment F M x y dist_flag) (n - 1) 1 0 (GMT_memory (F.ofInt 0) [] n),
    by simp only [x2sys_distances, hflag, if_true], ?_, ?_, ?_⟩
  · rw [distLoop_length, GMT_memory_length]
  · intro hn
    have h := (distLoop_spec F (segment F M x y dist_flag) (n - 1) 0
      (GMT_memory (F.ofInt 0) [] n) (by rw [GMT_memory_length]; omega)).1 0 (Nat.le_refl _)
    rw [h]
    simp only [GMT_memory, List.nil_append, List.take_replicate, Nat.min_self]
    rw [List.getElem?_replicate, if_pos hn]
  · intro i h1 hi
    exact (distLoop_spec F (segment F M x y dist_flag) (n - 1) 0
      (GMT_memory (F.ofInt 0) [] n) (by rw [GMT_memory_length]; omega)).2 i (by omega) (by omega)

/-- C12: in planar mode (flag 0), for arrays `x`, `y` of length `n`,
`x2sys_distances` returns `d` of length `n` with
`d[i] = d[i-1] + hypot (x[i] - x[i-1], y[i] - y[i-1])` for every `1 <= i < n`,
so that `d[i]` is the sum, taken from 0 in index order, of the lengths of the
first `i` segments. -/
theorem distances_planar {D : Type} (F : DoubleOps D) (M : DistOps D) (x y : List D)
    (n : Nat) (hx : x.length = n) (hy : y.length = n) :
    ∃ d : List D, x2sys_distances F M x y n 0 = some d ∧ d.length = n ∧
      (∀ i : Nat, 1 ≤ i → i < n →
        ∃ xi xp yi yp dp : D,
          x[i]? = some xi ∧ x[i - 1]? = some xp ∧ y[i]? = some yi ∧ y[i - 1]? = some yp ∧
          d[i - 1]? = some dp ∧
          d[i]? = some (F.add dp (M.hypot (M.sub xi xp) (M.sub yi yp)))) ∧
      (∀ i : Nat, i < n →
        d[i]? = some (((List.range i).map (fun k =>
          M.hypot (M.sub (arr F x (k + 1)) (arr F x k))
            (M.sub (arr F y (k + 1)) (arr F y k)))).foldl F.add (F.ofInt 0))) := by
  obtain ⟨d, hd, hlen, h0, hrec⟩ := distances_spec F M x y n 0 (Or.inl rfl)
  refine ⟨d, hd, hlen, ?_, ?_⟩
  · intro i h1 hi
    refine ⟨arr F x i, arr F x (i - 1), arr F y i, arr F y (i - 1), arr F d (i - 1),
      arr_of_lt F x i (by omega), arr_of_lt F x (i - 1) (by omega),
      arr_of_lt F y i (by omega), arr_of_lt F y (i - 1) (by omega),
      arr_of_lt F d (i - 1) (by omega), ?_⟩
    rw [hrec i h1 hi]
    simp [segment]
  · intro i
    induction i with
    | zero => intro hn; simpa using h0 hn
    | succ i ih =>
      intro hi
      have hprev := ih (by omega)
      rw [hrec (i + 1) (by omega) hi, Nat.add_sub_cancel, arr_of_getElem? F d i _ hprev]
      simp [segment, List.range_succ, List.foldl_append]

/-- The example behind C12: for the points (0,0) and (3,4) the second cumulative
distance is 5. -/
theorem distances_planar_witness :
    x2sys_distances decOps decDist [.val 0 0, .val 3 0] [.val 0 0, .val 4 0] 2 0 =
      some [.val 0 0, .val 5 0] ∧
    ∃ d : List Dec,
      x2sys_distances decOps decDist [.val 0 0, .val 3 0] [.val 0 0, .val 4 0] 2 0 = some d ∧
      d.length = 2 ∧
      (∀ i : Nat, 1 ≤ i → i < 2 →
        ∃ xi xp yi yp dp : Dec,
          [Dec.val 0 0, Dec.val 3 0][i]? = some xi ∧ [Dec.val 0 0, Dec.val 3 0][i - 1]? = some xp ∧
          [Dec.val 0 0, Dec.val 4 0][i]? = some yi ∧ [Dec.val 0 0, Dec.val 4 0][i - 1]? = some yp ∧
          d[i - 1]? = some dp ∧
          d[i]? = some (decOps.add dp (decDist.hypot (decDist.sub xi xp) (decDist.sub yi yp)))) ∧
      (∀ i : Nat, i < 2 →
        d[i]? = some (((List.range i).map (fun k =>
          decDist.hypot
            (decDist.sub (arr decOps [Dec.val 0 0, Dec.val 3 0] (k + 1))
              (arr decOps [Dec.val 0 0, Dec.val 3 0] k))
            (decDist.sub (arr decOps [Dec.val 0 0, Dec.val 4 0] (k + 1))
              (arr decOps [Dec.val 0 0, Dec.val 4 0] k)))).foldl decOps.add (decOps.ofInt 0))) :=
  ⟨by decide,
    distances_planar decOps decDist [.val 0 0, .val 3 0] [.val 0 0, .val 4 0] 2 rfl rfl⟩
/-- C13, as stated, fails for a NaN coordinate: in planar mode the points
(0,0) and (NaN,0) give `d = [0, NaN]`, and `d[0] <= d[1]` is false. -/
theorem distances_nan_counterexample :
    x2sys_distances decOps decDist [.val 0 0, .nan] [.val 0 0, .val 0 0] 2 0 =
      some [.val 0 0, .nan] ∧
    decDist.le (.val 0 0) .nan = false := by
  decide

/-- C13, amended: in each supported mode, when every term the loop adds (the
segment length of the mode) compares as `0 <= term`, which excludes NaN
coordinates, the array returned by `x2sys_distances` is non-decreasing:
`d[i-1] <= d[i]` for every `1 <= i < n`.  The two facts of floating-point
arithmetic used are `0 <= 0` and that adding a term with `0 <= term` to a value
with `0 <= value` gives a result not below the value. -/
theorem distances_nondecreasing {D : Type} (F : DoubleOps D) (M : DistOps D) (x y : List D)
    (n : Nat) (dist_flag : Int) (hflag : dist_flag = 0 ∨ dist_flag = 1 ∨ dist_flag = 2)
    (hzero : M.le (F.ofInt 0) (F.ofInt 0) = true)
    (hadd : ∀ a h : D, M.le (F.ofInt 0) a = true → M.le (F.ofInt 0) h = true →
      M.le a (F.add a h) = true ∧ M.le (F.ofInt 0) (F.add a h) = true)
    (hseg : ∀ i : Nat, 1 ≤ i → i < n →
      M.le (F.ofInt 0) (segment F M x y dist_flag i (i - 1)) = true) :
    ∃ d : List D, x2sys_distances F M x y n dist_flag = some d ∧ d.length = n ∧
      ∀ i : Nat, 1 ≤ i → i < n → M.le (arr F d (i - 1)) (arr F d i) = true := by
  obtain ⟨d, hd, hlen, h0, hrec⟩ := distances_spec F M x y n dist_flag hflag
  have hpos : ∀ i : Nat, i < n → M.le (F.ofInt 0) (arr F d i) = true := by
    intro i
    induction i with
    | zero => intro hn; rw [arr_of_getElem? F d 0 _ (h0 hn)]; exact hzero
    | succ i ih =>
      intro hi
      rw [arr_of_getElem? F d (i + 1) _ (hrec (i + 1) (by omega) hi), Nat.add_sub_cancel]
      exact (hadd _ _ (ih (by omega)) (by simpa using hseg (i + 1) (by omega) hi)).2
  refine ⟨d, hd, hlen, ?_⟩
  intro i h1 hi
  rw [arr_of_getElem? F d i _ (hrec i h1 hi)]
  exact (hadd _ _ (hpos (i - 1) (by omega)) (hseg i h1 hi)).1

theorem Dec.le_add (a h : Dec) (ha : Dec.le (.val 0 0) a = true)
    (hh : Dec.le (.val 0 0) h = true) :
    Dec.le a (Dec.add a h) = true ∧ Dec.le (.val 0 0) (Dec.add a h) = true := by
  cases a with
  | nan => simp [Dec.le] at ha
  | val m1 e1 =>
    cases h with
    | nan => simp [Dec.le] at hh
    | val m2 e2 =>
      simp only [Dec.le, decide_eq_true_eq, Dec.add, zero_mul, pow_zero, mul_one] at ha hh ⊢
      have p1 : (0 : Int) < 10 ^ e1 := by positivity
      have p2 : (0 : Int) < 10 ^ e2 := by positivity
      constructor
      · have : m1 * 10 ^ (e1 + e2) = m1 * 10 ^ e2 * 10 ^ e1 := by ring
        rw [this, add_mul]
        have : 0 ≤ m2 * 10 ^ e1 * 10 ^ e1 := by positivity
        linarith
      · positivity

/-- The example behind the amended C13: three points in planar mode. -/
theorem distances_nondecreasing_witness :
    ∃ d : List Dec,
      x2sys_distances decOps decDist [.val 0 0, .val 3 0, .val 3 0]
        [.val 0 0, .val 4 0, .val 45 1] 3 0 = some d ∧ d.length = 3 ∧
      ∀ i : Nat, 1 ≤ i → i < 3 → decDist.le (arr decOps d (i - 1)) (arr decOps d i) = true :=
  distances_nondecreasing decOps decDist [.val 0 0, .val 3 0, .val 3 0]
    [.val 0 0, .val 4 0, .val 45 1] 3 0 (by decide) (by decide)
    (fun a h ha hh => Dec.le_add a h ha hh)
    (fun i h1 hi => by
      have h : i = 1 ∨ i = 2 := by omega
      rcases h with h | h <;> subst h <;> decide)

/-! ## Column selection -/

theorem findName_le {D : Type} (p : List Char) :
    ∀ (fs : List (X2SYS_DATA_INFO D)) (j : Nat),
      j ≤ findName p fs j ∧ findName p fs j ≤ j + fs.length := by
  intro fs
  induction fs with
  | nil => intro j; simp [findName]
  | cons f fs ih =>
    intro j
    simp only [findName, List.length_cons]
    split
    · omega
    · have := ih (j + 1); omega

/-- The search of `x2sys_pick_fields` stops at the first field whose name is
`p`: when it stops before the end, the field found has that name and no field
before it has; when it reaches the end, no field has that name. -/
theorem findName_spec {D : Type} (p : List Char) :
    ∀ (fs : List (X2SYS_DATA_INFO D)) (j : Nat),
      (findName p fs j < j + fs.length →
        (∃ f, fs[findName p fs j - j]? = some f ∧ f.name = p) ∧
        ∀ k f, k < findName p fs j - j → fs[k]? = some f → f.name ≠ p) ∧
      (findName p fs j = j + fs.length → ∀ f ∈ fs, f.name ≠ p) := by
  intro fs
  induction fs with
  | nil => intro j; simp [findName]
  | cons f fs ih =>
    intro j
    simp only [findName, List.length_cons]
    by_cases hp : p = f.name
    · simp only [hp, if_true, Nat.sub_self]
      refine ⟨fun _ => ⟨⟨f, by simp, rfl⟩, fun k g hk => by omega⟩, fun h => by omega⟩
    · simp only [hp, if_false]
      obtain ⟨h1, h2⟩ := ih (j + 1)
      have hle := findName_le p fs (j + 1)
      have e : findName p fs (j + 1) - j = (findName p fs (j + 1) - (j + 1)) + 1 := by omega
      refine ⟨fun hlt => ?_, fun heq => ?_⟩
      · obtain ⟨⟨g, hg, hgn⟩, hbefore⟩ := h1 (by omega)
        refine ⟨⟨g, by rw [e]; simpa using hg, hgn⟩, ?_⟩
        intro k g1 hk hg1
        cases k with
        | zero =>
          simp only [List.getElem?_cons_zero, Option.some.injEq] at hg1
          subst hg1
          exact fun h => hp h.symm
        | succ k =>
          simp only [List.getElem?_cons_succ] at hg1
          exact hbefore k g1 (by omega) hg1
      · intro g hg
        rcases List.mem_cons.mp hg with h | h
        · subst h; exact fun h => hp h.symm
        · exact h2 (by omega) g h

theorem findName_lt_iff {D : Type} (p : List Char) (fs : List (X2SYS_DATA_INFO D)) :
    findName p fs 0 < fs.length ↔ ∃ f ∈ fs, f.name = p := by
  obtain ⟨h1, h2⟩ := findName_spec p fs 0
  have hle := findName_le p fs 0
  constructor
  · intro h
    obtain ⟨⟨f, hf, hn⟩, _⟩ := h1 (by omega)
    exact ⟨f, List.getElem?_mem hf, hn⟩
  · rintro ⟨f, hf, hn⟩
    by_contra hlt
    exact h2 (by omega) f hf hn

theorem pickLoop_info {D : Type} :
    ∀ (names : List (List Char)) (i : Nat) (s s1 : X2SYS_INFO D),
      pickLoop names i s = some s1 → s1.info = s.info := by
  intro names
  induction names with
  | nil => intro i s s1 h; simp only [pickLoop, Option.some.injEq] at h; rw [← h]
  | cons p ps ih =>
    intro i s s1 h
    simp only [pickLoop] at h
    split at h
    · have := ih _ _ _ h
      exact this
    · simp at h

/-- C16, the code at an empty column selection: after `x2sys_pick_fields` with an
empty list `n_out_columns` is 0, yet `x2sys_output_record` in ascii mode writes
the value of field `out_order[0]` and a newline, and returns 0: the statement
after the loop writes a last value whatever the count is. -/
theorem output_record_no_columns_example :
    (x2sys_pick_fields (decEnv 2) "".toList lonLat).map
      (fun s => (s.ascii_out, s.n_out_columns,
        x2sys_output_record decOps decOut [] [.val 1205 1, .val (-1025) 2] s)) =
      some (true, 0, ("120.5\n".toList, 0)) := by
  decide

theorem outputBinaryLoop_eq {D : Type} (F : DoubleOps D) (O : OutEnv D) (s : X2SYS_INFO D)
    (data : List D) :
    ∀ (k i : Nat), outputBinaryLoop F O s data k i =
      ((List.range' i k).map (fun i =>
        O.bytes_of_double (arr F data (s.out_order.getD i 0).toNat))).flatten := by
  intro k
  induction k with
  | zero => intro i; simp [outputBinaryLoop]
  | succ k ih => intro i; simp [outputBinaryLoop, ih, List.range'_succ]

/-- C17, as stated, fails: for the schema `lon`, `lat` and the selection
`lat,lon`, binary mode writes the value of `lat` (20) first and the value of
`lon` (10) second, not the two in schema order. -/
theorem output_binary_order_counterexample :
    (x2sys_pick_fields (decEnv 2) "lat,lon".toList lonLat).map
      (fun s => (s.out_order,
        (x2sys_output_record decOps decOut [] [.val 10 0, .val 20 0]
          { s with ascii_out := false }).1)) =
      some ([1, 0], decOut.bytes_of_double (.val 20 0) ++ decOut.bytes_of_double (.val 10 0)) ∧
    decOut.bytes_of_double (.val 20 0) ++ decOut.bytes_of_double (.val 10 0) ≠
      decOut.bytes_of_double (.val 10 0) ++ decOut.bytes_of_double (.val 20 0) := by
  decide

/-- C17, amended: in binary mode `x2sys_output_record` appends to the stream the
8-byte values of the fields `out_order[0]`, `out_order[1]`, ... up to
`n_out_columns`, in that order (the order of the selection, which is schema
order only when no selection reordered the columns), with nothing between them,
and returns `n_out_columns`. -/
theorem output_record_binary {D : Type} (F : DoubleOps D) (O : OutEnv D) (fp : List Char)
    (data : List D) (s : X2SYS_INFO D) (hbin : s.ascii_out = false) :
    x2sys_output_record F O fp data s =
      (fp ++ ((List.range s.n_out_columns.toNat).map (fun i =>
        O.bytes_of_double (arr F data (s.out_order.getD i 0).toNat))).flatten,
       s.n_out_columns) := by
  simp only [x2sys_output_record, hbin, Bool.false_eq_true, if_false, outputBinaryLoop_eq,
    List.range_eq_range']

/-- The example behind the amended C17: the selection `lat,lon` written in
binary mode. -/
theorem output_record_binary_witness :
    x2sys_output_record decOps decOut [] [.val 10 0, .val 20 0]
        { lonLat with out_order := [1, 0], ascii_out := false } =
      ([] ++ ((List.range
          ({ lonLat with out_order := [1, 0], ascii_out := false } :
            X2SYS_INFO Dec).n_out_columns.toNat).map (fun i =>
        decOut.bytes_of_double (arr decOps [.val 10 0, .val 20 0]
          (({ lonLat with out_order := [1, 0], ascii_out := false } :
            X2SYS_INFO Dec).out_order.getD i 0).toNat))).flatten,
       ({ lonLat with out_order := [1, 0], ascii_out := false } :
            X2SYS_INFO Dec).n_out_columns) :=
  output_record_binary decOps decOut [] [.val 10 0, .val 20 0]
    { lonLat with out_order := [1, 0], ascii_out := false } rfl
theorem outputAsciiLoop_eq {D : Type} (F : DoubleOps D) (O : OutEnv D) (s : X2SYS_INFO D)
    (data : List D) :
    ∀ (k i : Nat), outputAsciiLoop F O s data k i ++ outputCell F O s data (i + k) =
      List.intercalate ['\t'] ((List.range' i (k + 1)).map (outputCell F O s data)) := by
  intro k
  induction k with
  | zero => intro i; simp [outputAsciiLoop, List.intercalate, List.range'_succ]
  | succ k ih =>
    intro i
    have h := ih (i + 1)
    have e : i + 1 + k = i + (k + 1) := by omega
    rw [e] at h
    rw [List.range'_succ, List.map_cons, List.range'_succ, List.map_cons]
    rw [List.range'_succ, List.map_cons] at h
    simp only [List.intercalate, List.intersperse, List.flatten_cons] at h ⊢
    simp only [outputAsciiLoop, List.append_assoc, List.cons_append, List.nil_append,
      List.singleton_append]
    rw [h]

/-- For a selection of at least one column, ascii mode writes the selected values
separated by tabs and ended by a newline, and returns their number. -/
theorem output_record_ascii {D : Type} (F : DoubleOps D) (O : OutEnv D) (fp : List Char)
    (data : List D) (s : X2SYS_INFO D) (m : Nat) (hasc : s.ascii_out = true)
    (hm : s.n_out_columns = (m : Int) + 1) :
    x2sys_output_record F O fp data s =
      (fp ++ List.intercalate ['\t'] ((List.range (m + 1)).map (outputCell F O s data)) ++ ['\n'],
       (m : Int) + 1) := by
  have h := outputAsciiLoop_eq F O s data m 0
  simp only [Nat.zero_add] at h
  simp only [x2sys_output_record, hasc, if_true, hm, add_sub_cancel_right, Int.toNat_ofNat,
    List.range_eq_range', List.append_assoc]
  rw [← h]
  simp

theorem tolower_cases (c : Char) :
    (tolower c = c ∧ ¬ (65 ≤ c.toNat ∧ c.toNat ≤ 90)) ∨
    (∃ n, 65 ≤ n ∧ n ≤ 90 ∧ c = Char.ofNat n ∧ tolower c = Char.ofNat (n + 32)) := by
  unfold tolower
  by_cases h : 65 ≤ c.toNat ∧ c.toNat ≤ 90
  · right
    exact ⟨c.toNat, h.1, h.2, (Char.ofNat_toNat c).symm, by simp [h]⟩
  · left
    simp [h]

/-- The value of `tolower` is never the capital letter `Y`. -/
theorem tolower_ne_Y (c : Char) : tolower c ≠ 'Y' := by
  rcases tolower_cases c with ⟨h1, h2⟩ | ⟨n, h1, h2, _, h4⟩
  · rw [h1]
    intro hc
    subst hc
    exact h2 (by decide)
  · rw [h4]
    interval_cases n <;> decide

/-- The value of `tolower` is `a` exactly for the letters `a` and `A`. -/
theorem tolower_eq_a_iff (c : Char) : tolower c = 'a' ↔ c = 'a' ∨ c = 'A' := by
  rcases tolower_cases c with ⟨h1, h2⟩ | ⟨n, h1, h2, h3, h4⟩
  · rw [h1]
    constructor
    · intro h; exact Or.inl h
    · rintro (h | h)
      · exact h
      · subst h; exact absurd (by decide) h2
  · rw [h4, h3]
    interval_cases n <;> decide

theorem initField_has_nan_proxy {D : Type} (F : DoubleOps D) (I : InitEnv D) (line : List Char)
    (f : X2SYS_DATA_INFO D) (yes_no : Char) (cardcol : List Char) :
    (initField F I line f yes_no cardcol).f.has_nan_proxy = true := by
  simp only [initField, ne_eq, tolower_ne_Y, not_false_eq_true, if_true]
  split <;> split <;> rfl

theorem initDirective_spec {D : Type} (line : List Char) (X : X2SYS_INFO D) :
    (initDirective line X).info = X.info ∧ (initDirective line X).x_col = X.x_col ∧
    (initDirective line X).y_col = X.y_col ∧ (initDirective line X).t_col = X.t_col ∧
    (initDirective line X).ascii_in =
      (X.ascii_in && !decide (line.take 7 = "#BINARY".toList)) := by
  unfold initDirective
  split_ifs <;> simp_all

theorem take_ne_binary (line : List Char) (h : firstChar line ≠ '#') :
    line.take 7 ≠ "#BINARY".toList := by
  intro hb
  cases line with
  | nil => simp at hb
  | cons c cs =>
    apply h
    have := congrArg (fun l => l.headD ' ') hb
    simpa [firstChar] using this

/-- One data line of the definition file: the field count goes up by one, the
new descriptor is what `initField` makes of the entry `X->info[i]`, and the
earlier descriptors stay. -/
theorem initDataLine_spec {D : Type} (F : DoubleOps D) (I : InitEnv D) (J : InitJunk D)
    (line : List Char) (st : InitState D) (hi : st.i < st.n_alloc)
    (hlen : st.X.info.length = st.n_alloc) :
    (initDataLine F I J line st).i = st.i + 1 ∧
    (initDataLine F I J line st).i < (initDataLine F I J line st).n_alloc ∧
    (initDataLine F I J line st).X.info.length = (initDataLine F I J line st).n_alloc ∧
    (initDataLine F I J line st).X.info.take (st.i + 1) =
      st.X.info.take st.i ++
        [(initField F I line (st.X.info.getD st.i J.entry) st.yes_no st.cardcol).f] := by
  have hj : st.i < st.X.info.length := by omega
  refine ⟨rfl, ?_, ?_, ?_⟩
  · simp only [initDataLine]
    by_cases hg : st.i + 1 = st.n_alloc
    · simp [hg]
    · simp [hg]; omega
  · simp only [initDataLine]
    by_cases hg : st.i + 1 = st.n_alloc
    · simp [hg, GMT_memory_length]
    · simp [hg, hlen]
  · simp only [initDataLine]
    by_cases hg : st.i + 1 = st.n_alloc
    · simp only [hg, decide_True, if_true]
      rw [GMT_memory_take _ _ _ _ (by simp; omega) (by omega), ← hg]
      exact take_succ_set _ _ _ hj
    · simp only [hg, decide_False]
      exact take_succ_set _ _ _ hj

/-- The reading loop of `x2sys_initialize` against the list of the descriptors it
adds: one per data line, each with `has_nan_proxy` set; `ascii_in` stays true
only without a `#BINARY` prefix among the lines and with `tolower (intype)`
equal to `a` for every added descriptor; the x, y and t columns end at the last
added descriptor with one of their names. -/
theorem initLoop_spec {D : Type} (F : DoubleOps D) (I : InitEnv D) (J : InitJunk D) :
    ∀ (ls : List (List Char)) (st : InitState D) (acc : List (X2SYS_DATA_INFO D)),
      st.i < st.n_alloc → st.X.info.length = st.n_alloc → st.X.info.take st.i = acc →
      ∃ fields : List (X2SYS_DATA_INFO D),
        (initLoop F I J ls st).X.info.take (initLoop F I J ls st).i = acc ++ fields ∧
        (initLoop F I J ls st).i = st.i + fields.length ∧
        (initLoop F I J ls st).i < (initLoop F I J ls st).n_alloc ∧
        (initLoop F I J ls st).X.info.length = (initLoop F I J ls st).n_alloc ∧
        (∀ f ∈ fields, f.has_nan_proxy = true) ∧
        (initLoop F I J ls st).X.ascii_in =
          (st.X.ascii_in && ls.all (fun l => !decide (l.take 7 = "#BINARY".toList)) &&
            fields.all (fun f => decide (tolower f.intype = 'a'))) ∧
        (initLoop F I J ls st).X.x_col = lastNamed "x" "lon" fields st.i st.X.x_col ∧
        (initLoop F I J ls st).X.y_col = lastNamed "y" "lat" fields st.i st.X.y_col ∧
        (initLoop F I J ls st).X.t_col = lastNamed "t" "time" fields st.i st.X.t_col := by
  intro ls
  induction ls with
  | nil =>
    intro st acc hi hlen hacc
    exact ⟨[], by simp [initLoop, hacc], by simp [initLoop], hi, hlen, by simp,
      by simp [initLoop], rfl, rfl, rfl⟩
  | cons line ls ih =>
    intro st acc hi hlen hacc
    by_cases h0 : line = []
    · obtain ⟨fields, h1, h2, h3, h4, h5, h6, h7, h8, h9⟩ := ih st acc hi hlen hacc
      have e : initLoop F I J (line :: ls) st = initLoop F I J ls st := by
        simp only [initLoop, h0, if_true]
      rw [e]
      refine ⟨fields, h1, h2, h3, h4, h5, ?_, h7, h8, h9⟩
      rw [h6, h0]
      simp
    · by_cases hd : firstChar line = '#'
      · obtain ⟨d1, d2, d3, d4, d5⟩ := initDirective_spec line st.X
        obtain ⟨fields, h1, h2, h3, h4, h5, h6, h7, h8, h9⟩ :=
          ih { st with X := initDirective line st.X } acc hi (by rw [d1]; exact hlen)
            (by rw [d1]; exact hacc)
        have e : initLoop F I J (line :: ls) st =
            initLoop F I J ls { st with X := initDirective line st.X } := by
          simp only [initLoop, h0, hd, if_true, if_false]
        rw [e]
        refine ⟨fields, h1, h2, h3, h4, h5, ?_, ?_, ?_, ?_⟩
        · rw [h6, d5]; simp only [List.all_cons, Bool.and_assoc]
        · rw [h7, d2]
        · rw [h8, d3]
        · rw [h9, d4]
      · obtain ⟨s1, s2, s3, s4⟩ := initDataLine_spec F I J line st hi hlen
        obtain ⟨fields, h1, h2, h3, h4, h5, h6, h7, h8, h9⟩ :=
          ih (initDataLine F I J line st)
            (acc ++ [(initField F I line (st.X.info.getD st.i J.entry) st.yes_no st.cardcol).f])
            s2 s3 (by rw [s1, s4, hacc])
        have e : initLoop F I J (line :: ls) st =
            initLoop F I J ls (initDataLine F I J line st) := by
          simp only [initLoop, h0, hd, if_false]
        rw [e]
        refine ⟨(initField F I line (st.X.info.getD st.i J.entry) st.yes_no st.cardcol).f ::
          fields, ?_, ?_, h3, h4, ?_, ?_, ?_, ?_, ?_⟩
        · rw [h1]; simp
        · rw [h2, s1]; simp only [List.length_cons]; omega
        · intro f hf
          rcases List.mem_cons.mp hf with h | h
          · rw [h]; exact initField_has_nan_proxy F I _ _ _ _
          · exact h5 f h
        · have hb := take_ne_binary line hd
          have key : (initDataLine F I J line st).X.ascii_in =
              (st.X.ascii_in && decide (tolower
                (initField F I line (st.X.info.getD st.i J.entry) st.yes_no
                  st.cardcol).f.intype = 'a')) := by
            simp only [initDataLine]
            split <;> rename_i ha
            · simp only [ne_eq] at ha; simp only [ha, decide_False, Bool.and_false]
            · simp only [ne_eq, not_not] at ha; simp only [ha, decide_True, Bool.and_true]
          rw [h6, key]
          simp only [List.all_cons, hb, decide_False, Bool.not_false, Bool.true_and]
          generalize decide (tolower (initField F I line (st.X.info.getD st.i J.entry) st.yes_no
            st.cardcol).f.intype = 'a') = b
          generalize st.X.ascii_in = a
          generalize (ls.all fun l => !decide (List.take 7 l = "#BINARY".toList)) = c
          generalize (fields.all fun f => decide (tolower f.intype = 'a')) = d
          cases a <;> cases b <;> cases c <;> cases d <;> rfl
        · rw [h7, s1]; rfl
        · rw [h8, s1]; rfl
        · rw [h9, s1]; rfl

theorem lastNamed_spec {D : Type} (a b : String) :
    ∀ (fs : List (X2SYS_DATA_INFO D)) (i : Nat) (c : Int),
      (lastNamed a b fs i c = c ∧ ∀ f ∈ fs, isNamed a b f.name = false) ∨
      ∃ (k : Nat) (f : X2SYS_DATA_INFO D), lastNamed a b fs i c = ((i + k : Nat) : Int) ∧
        fs[k]? = some f ∧ isNamed a b f.name = true ∧
        ∀ (k1 : Nat) (f1 : X2SYS_DATA_INFO D), k < k1 → fs[k1]? = some f1 →
          isNamed a b f1.name = false := by
  intro fs
  induction fs with
  | nil => intro i c; left; simp [lastNamed]
  | cons f fs ih =>
    intro i c
    rcases ih (i + 1) (if isNamed a b f.name then (i : Int) else c) with ⟨h1, h2⟩ | ⟨k, g, h1, h2, h3, h4⟩
    · by_cases hf : isNamed a b f.name = true
      · right
        refine ⟨0, f, ?_, by simp, hf, ?_⟩
        · simp only [hf, if_true] at h1
          simp only [lastNamed, hf, if_true, h1, Nat.add_zero]
        · intro k1 f1 hk hf1
          obtain ⟨k2, rfl⟩ : ∃ k2, k1 = k2 + 1 := ⟨k1 - 1, by omega⟩
          simp only [List.getElem?_cons_succ] at hf1
          exact h2 f1 (List.getElem?_mem hf1)
      · left
        simp only [Bool.not_eq_true] at hf
        simp only [hf, Bool.false_eq_true, if_false] at h1
        refine ⟨by simp only [lastNamed, hf, Bool.false_eq_true, if_false, h1], ?_⟩
        intro g hg
        rcases List.mem_cons.mp hg with h | h
        · rw [h]; exact hf
        · exact h2 g h
    · right
      refine ⟨k + 1, g, ?_, by simpa using h2, h3, ?_⟩
      · simp only [lastNamed, h1]
        congr 1
        omega
      · intro k1 f1 hk hf1
        obtain ⟨k2, rfl⟩ : ∃ k2, k1 = k2 + 1 := ⟨k1 - 1, by omega⟩
        simp only [List.getElem?_cons_succ] at hf1
        exact h4 k2 f1 (by omega) hf1

theorem initOrder_spec {D : Type} (I : InitEnv D) :
    ∀ (k i : Nat) (X : X2SYS_INFO D) (G : GMT_IO),
      i + k ≤ X.out_order.length → i + k ≤ X.use_column.length →
      (initOrder I k i (X, G)).1.out_order.take (i + k) =
        X.out_order.take i ++ (List.range' i k).map Int.ofNat ∧
      (initOrder I k i (X, G)).1.use_column.take (i + k) =
        X.use_column.take i ++ List.replicate k 1 ∧
      (initOrder I k i (X, G)).1.out_order.length = X.out_order.length ∧
      (initOrder I k i (X, G)).1.use_column.length = X.use_column.length ∧
      (initOrder I k i (X, G)).1.info = X.info ∧
      (initOrder I k i (X, G)).1.ascii_in = X.ascii_in ∧
      (initOrder I k i (X, G)).1.n_out_columns = X.n_out_columns ∧
      (initOrder I k i (X, G)).1.x_col = X.x_col ∧
      (initOrder I k i (X, G)).1.y_col = X.y_col ∧
      (initOrder I k i (X, G)).1.t_col = X.t_col := by
  intro k
  induction k with
  | zero => intro i X G _ _; simp [initOrder]
  | succ k ih =>
    intro i X G h1 h2
    obtain ⟨a1, a2, a3, a4, a5, a6, a7, a8, a9, a10⟩ := ih (i + 1)
      { X with out_order := X.out_order.set i (i : Int), use_column := X.use_column.set i 1 }
      { in_col_type := G.in_col_type.set i
          (if X.x_col = (i : Int) then I.GMT_IS_LON
           else if X.y_col = (i : Int) then I.GMT_IS_LAT else I.GMT_IS_UNKNOWN)
        out_col_type := G.out_col_type.set i
          (if X.x_col = (i : Int) then I.GMT_IS_LON
           else if X.y_col = (i : Int) then I.GMT_IS_LAT else I.GMT_IS_UNKNOWN) }
      (by simp only [List.length_set]; omega) (by simp only [List.length_set]; omega)
    have e : i + 1 + k = i + (k + 1) := by omega
    rw [e] at a1 a2
    simp only [initOrder]
    refine ⟨?_, ?_, by simpa using a3, by simpa using a4, a5, a6, a7, a8, a9, a10⟩
    · rw [a1, take_succ_set _ _ _ (by omega), List.range'_succ]
      simp
    · rw [a2, take_succ_set _ _ _ (by omega), List.replicate_succ]
      simp

/-- What `x2sys_initialize` returns for a definition file that opens, in terms of
the list of descriptors that its lines produce. -/
theorem initialize_fields {D : Type} (F : DoubleOps D) (E : Env D) (I : InitEnv D)
    (J : InitJunk D) (fname : List Char) (fp : FILE) (G : GMT_IO) :
    ∃ (r : InitResult D) (fields : List (X2SYS_DATA_INFO D)),
      x2sys_initialize F E I J fname (some fp) G = some r ∧
      r.X.info = fields ∧
      (∀ f ∈ fields, f.has_nan_proxy = true) ∧
      r.X.ascii_in =
        ((defLines E fp).all (fun l => !decide (l.take 7 = "#BINARY".toList)) &&
          fields.all (fun f => decide (tolower f.intype = 'a'))) ∧
      r.X.x_col = lastNamed "x" "lon" fields 0 (-1) ∧
      r.X.y_col = lastNamed "y" "lat" fields 0 (-1) ∧
      r.X.t_col = lastNamed "t" "time" fields 0 (-1) ∧
      r.X.n_out_columns = (fields.length : Int) ∧
      r.X.out_order = (List.range fields.length).map Int.ofNat ∧
      r.X.use_column = List.replicate fields.length 1 := by
  obtain ⟨fields, h1, h2, h3, h4, h5, h6, h7, h8, h9⟩ := initLoop_spec F I J (defLines E fp)
    { X := initSchema F fname, i := 0, n_alloc := 10, yes_no := J.yes_no, cardcol := J.cardcol }
    [] (by show (0 : Nat) < 10; omega) (by simp [initSchema, GMT_memory_length]) (by simp)
  simp only [List.nil_append, Nat.zero_add] at h1 h2
  generalize hst : initLoop F I J (defLines E fp)
    { X := initSchema F fname, i := 0, n_alloc := 10, yes_no := J.yes_no,
      cardcol := J.cardcol } = st at h1 h2 h3 h4 h6 h7 h8 h9
  have hinfo : (if st.i < st.n_alloc then GMT_memory J.entry st.X.info st.i else st.X.info) =
      fields := by
    rw [if_pos h3, GMT_memory_trim _ _ _ (by omega), h1]
  have h6a : st.X.ascii_in =
      ((defLines E fp).all (fun l => !decide (l.take 7 = "#BINARY".toList)) &&
        fields.all (fun f => decide (tolower f.intype = 'a'))) := by
    rw [h6]; simp [initSchema]
  obtain ⟨a1, a2, a3, a4, a5, a6, a7, a8, a9, a10⟩ := initOrder_spec I st.i 0
    { st.X with
      info := if st.i < st.n_alloc then GMT_memory J.entry st.X.info st.i else st.X.info
      n_out_columns := (st.i : Int)
      out_order := GMT_memory 0 [] st.i
      use_column := GMT_memory 0 [] st.i } G
    (by simp [GMT_memory_length]) (by simp [GMT_memory_length])
  simp only [Nat.zero_add, List.take_zero, List.nil_append, GMT_memory_length] at a1 a2 a3 a4
  rw [List.take_of_length_le (by omega)] at a1 a2
  apply Exists.intro
  refine ⟨fields, ?_, ?_⟩
  · simp only [ x2sys_initialize, hst]; rfl
  · exact ⟨a5.trans hinfo, h5, a6.trans h6a, a8.trans h7, a9.trans h8, a10.trans h9,
      a7.trans (by rw [h2]), a1.trans (by rw [← List.range_eq_range', h2]),
      a2.trans (by rw [h2])⟩

/-- C18 (as the code behaves): on the three-field definition whose second line has
the yes/no character `Y` and whose third has `y`, `x2sys_initialize` sets
`has_nan_proxy` for every field, so the fields with `Y` and `y` do have it set. -/
theorem initialize_yes_no_example :
    ( x2sys_initialize decOps (decEnv 2) decInit decJunk "xyz".toList (some exampleDef)
        { in_col_type := [0, 0, 0, 0, 0], out_col_type := [0, 0, 0, 0, 0] }).map
      (fun r => r.X.info.map (fun f => (String.mk f.name, f.has_nan_proxy))) =
      some [("lon", true), ("lat", true), ("depth", true)] := by
  decide

theorem convert_intype {D α : Type} (scan : List Char → Option (α × List Char))
    (assign : LineScan D → α → LineScan D) (st : LineScan D)
    (h : ∀ (st : LineScan D) (v : α), (assign st v).f.intype = st.f.intype) :
    (convert scan assign st).f.intype = st.f.intype := by
  unfold convert
  split
  · rfl
  · split
    · rfl
    · exact h st _

theorem cardColumns_intype {D : Type} (cardcol : List Char) (f : X2SYS_DATA_INFO D) :
    (cardColumns cardcol f).intype = f.intype := by
  unfold cardColumns
  dsimp only
  repeat' split
  all_goals rfl

/-- The type character a data line leaves in its descriptor: the one the line
gives, and what the entry held when the line gives none. -/
theorem initField_intype {D : Type} (F : DoubleOps D) (I : InitEnv D) (line : List Char)
    (f : X2SYS_DATA_INFO D) (yes_no : Char) (cardcol : List Char) :
    (initField F I line f yes_no cardcol).f.intype = (typeChar line).getD f.intype := by
  have h1 : (initField F I line f yes_no cardcol).f.intype =
      (sscanfDataLine I line f yes_no cardcol).f.intype := by
    simp only [initField]
    split_ifs <;> simp [cardColumns_intype]
  rw [h1]
  simp only [sscanfDataLine]
  refine Eq.trans (convert_intype _ _ _ ?_) ?_
  · intro _ _; rfl
  refine Eq.trans (convert_intype _ _ _ ?_) ?_
  · intro _ _; rfl
  refine Eq.trans (convert_intype _ _ _ ?_) ?_
  · intro _ _; rfl
  refine Eq.trans (convert_intype _ _ _ ?_) ?_
  · intro _ _; rfl
  refine Eq.trans (convert_intype _ _ _ ?_) ?_
  · intro _ _; rfl
  refine Eq.trans (convert_intype _ _ _ ?_) ?_
  · intro _ _; rfl
  simp only [convert, typeChar]
  cases hs : scanf_s line with
  | none => rfl
  | some v =>
    obtain ⟨nm, r1⟩ := v
    cases hc : scanf_c r1 with
    | none => simp [hc]
    | some w => simp [hc]

/-- The lines `fgets` delivers from a text made of lines that fit the buffer: the
C strings of these lines. -/
theorem fgetsAll_lines (size : Nat) :
    ∀ (ls : List (List Char)) (fuel : Nat),
      (∀ l ∈ ls, lineFits (size - 1) l = true) → ls.length ≤ fuel →
      fgetsAll size fuel ls.flatten = ls.map cstr := by
  intro ls
  induction ls with
  | nil => intro fuel _ _; cases fuel <;> simp [fgetsAll]
  | cons l ls ih =>
    intro fuel hfit hfuel
    obtain ⟨n, rfl⟩ : ∃ n, fuel = n + 1 := ⟨fuel - 1, by simp at hfuel; omega⟩
    have hl := hfit l (by simp)
    have hne := lineFits_ne_nil _ _ hl
    obtain ⟨c, cs, hcs⟩ := List.exists_cons_of_ne_nil hne
    have hread := fgets_line size [] l ls.flatten hl
    simp only [List.flatten_cons, List.map_cons]
    rw [hcs] at hread ⊢
    simp only [List.cons_append] at hread ⊢
    simp only [fgetsAll, hread]
    rw [ih n (fun x hx => hfit x (by simp [hx])) (by simp at hfuel; omega)]

theorem defLines_lines {D : Type} (E : Env D) (ls : List (List Char))
    (hfit : ∀ l ∈ ls, lineFits (E.BUFSIZ - 1) l = true) :
    defLines E ls.flatten = ls.map cstr :=
  fgetsAll_lines E.BUFSIZ ls _ hfit (flatten_length_ge _ ls hfit)

/-- The reading loop of `x2sys_initialize` against the data lines: it adds one
descriptor per line that is neither empty nor a `#` line, in order, and the
descriptor of a line that gives a type character holds that character. -/
theorem initLoop_intypes {D : Type} (F : DoubleOps D) (I : InitEnv D) (J : InitJunk D) :
    ∀ (ls : List (List Char)) (st : InitState D) (acc : List (X2SYS_DATA_INFO D)),
      st.i < st.n_alloc → st.X.info.length = st.n_alloc → st.X.info.take st.i = acc →
      ∃ fields : List (X2SYS_DATA_INFO D),
        (initLoop F I J ls st).X.info.take (initLoop F I J ls st).i = acc ++ fields ∧
        (initLoop F I J ls st).i < (initLoop F I J ls st).n_alloc ∧
        (initLoop F I J ls st).X.info.length = (initLoop F I J ls st).n_alloc ∧
        fields.length = (dataLines ls).length ∧
        ∀ (k : Nat) (l : List Char) (c : Char), (dataLines ls)[k]? = some l →
          typeChar l = some c →
          ∃ f : X2SYS_DATA_INFO D, fields[k]? = some f ∧ f.intype = c := by
  intro ls
  induction ls with
  | nil =>
    intro st acc hi hlen hacc
    exact ⟨[], by simp [initLoop, hacc], hi, hlen, rfl, by simp [dataLines]⟩
  | cons line ls ih =>
    intro st acc hi hlen hacc
    by_cases h0 : line = []
    · obtain ⟨fields, h1, h2, h3, h4, h5⟩ := ih st acc hi hlen hacc
      have e : initLoop F I J (line :: ls) st = initLoop F I J ls st := by
        simp only [initLoop, h0, if_true]
      have ed : dataLines (line :: ls) = dataLines ls := by
        simp [dataLines, List.filter_cons, h0]
      rw [e, ed]
      exact ⟨fields, h1, h2, h3, h4, h5⟩
    · by_cases hd : firstChar line = '#'
      · obtain ⟨d1, _⟩ := initDirective_spec line st.X
        obtain ⟨fields, h1, h2, h3, h4, h5⟩ :=
          ih { st with X := initDirective line st.X } acc hi (by rw [d1]; exact hlen)
            (by rw [d1]; exact hacc)
        have e : initLoop F I J (line :: ls) st =
            initLoop F I J ls { st with X := initDirective line st.X } := by
          simp only [initLoop, h0, hd, if_true, if_false]
        have ed : dataLines (line :: ls) = dataLines ls := by
          simp [dataLines, List.filter_cons, hd]
        rw [e, ed]
        exact ⟨fields, h1, h2, h3, h4, h5⟩
      · obtain ⟨s1, s2, s3, s4⟩ := initDataLine_spec F I J line st hi hlen
        obtain ⟨fields, h1, h2, h3, h4, h5⟩ :=
          ih (initDataLine F I J line st)
            (acc ++ [(initField F I line (st.X.info.getD st.i J.entry) st.yes_no st.cardcol).f])
            s2 s3 (by rw [s1, s4, hacc])
        have e : initLoop F I J (line :: ls) st =
            initLoop F I J ls (initDataLine F I J line st) := by
          simp only [initLoop, h0, hd, if_false]
        have ed : dataLines (line :: ls) = line :: dataLines ls := by
          simp [dataLines, List.filter_cons, h0, hd]
        rw [e, ed]
        refine ⟨(initField F I line (st.X.info.getD st.i J.entry) st.yes_no st.cardcol).f ::
          fields, ?_, h2, h3, ?_, ?_⟩
        · rw [h1]; simp
        · simp only [List.length_cons, h4]
        · intro k l c hl hc
          cases k with
          | zero =>
            simp only [List.getElem?_cons_zero, Option.some.injEq] at hl
            subst hl
            refine ⟨_, List.getElem?_cons_zero, ?_⟩
            rw [initField_intype, hc]
            rfl
          | succ k =>
            simp only [List.getElem?_cons_succ] at hl ⊢
            exact h5 k l c hl hc

/-- The descriptors `x2sys_initialize` returns, against the data lines of the
definition file: one per data line, in order, with the type character of the
line. -/
theorem initialize_intypes {D : Type} (F : DoubleOps D) (E : Env D) (I : InitEnv D)
    (J : InitJunk D) (fname : List Char) (fp : FILE) (G : GMT_IO) :
    ∃ r : InitResult D, x2sys_initialize F E I J fname (some fp) G = some r ∧
      r.X.info.length = (dataLines (defLines E fp)).length ∧
      ∀ (k : Nat) (l : List Char) (c : Char), (dataLines (defLines E fp))[k]? = some l →
        typeChar l = some c →
        ∃ f : X2SYS_DATA_INFO D, r.X.info[k]? = some f ∧ f.intype = c := by
  obtain ⟨fields, h1, h3, h4, h5, h6⟩ := initLoop_intypes F I J (defLines E fp)
    { X := initSchema F fname, i := 0, n_alloc := 10, yes_no := J.yes_no, cardcol := J.cardcol }
    [] (by show (0 : Nat) < 10; omega) (by simp [initSchema, GMT_memory_length]) (by simp)
  simp only [List.nil_append] at h1
  generalize hst : initLoop F I J (defLines E fp)
    { X := initSchema F fname, i := 0, n_alloc := 10, yes_no := J.yes_no,
      cardcol := J.cardcol } = st at h1 h3 h4
  have hinfo : (if st.i < st.n_alloc then GMT_memory J.entry st.X.info st.i else st.X.info) =
      fields := by
    rw [if_pos h3, GMT_memory_trim _ _ _ (by omega), h1]
  have hi : st.i = fields.length := by
    have := congrArg List.length h1
    simp only [List.length_take] at this
    omega
  obtain ⟨_, _, _, _, a5, _⟩ := initOrder_spec I st.i 0
    { st.X with
      info := if st.i < st.n_alloc then GMT_memory J.entry st.X.info st.i else st.X.info
      n_out_columns := (st.i : Int)
      out_order := GMT_memory 0 [] st.i
      use_column := GMT_memory 0 [] st.i } G
    (by simp [GMT_memory_length]) (by simp [GMT_memory_length])
  apply Exists.intro
  refine ⟨?_, ?_⟩
  · simp only [ x2sys_initialize, hst]; rfl
  · have e := a5.trans hinfo
    refine ⟨(congrArg List.length e).trans h5, ?_⟩
    intro k l c hl hc
    obtain ⟨f, hf, hfc⟩ := h6 k l c hl hc
    exact ⟨f, (congrArg (fun x => x[k]?) e).trans hf, hfc⟩

/-- C19: for a definition file made of the lines `ls` (each ending in its newline
and fitting the line buffer), `x2sys_initialize` returns a schema with one
field per data line of the file (a line that is neither empty nor starts with
`#`), in order, whose type character is the one the line gives; and `ascii_in`
is true exactly when no line of the file starts with `#BINARY` and the type
character of every field is `a` or `A`.  When every data line gives a type
character this reads on the text alone: `ascii_in` is true exactly when no
line starts with `#BINARY` and the type character of every data line is `a` or
`A`. -/
theorem initialize_ascii_in_iff {D : Type} (F : DoubleOps D) (E : Env D) (I : InitEnv D)
    (J : InitJunk D) (fname : List Char) (ls : List (List Char)) (G : GMT_IO)
    (hfit : ∀ l ∈ ls, lineFits (E.BUFSIZ - 1) l = true) :
    ∃ r : InitResult D, x2sys_initialize F E I J fname (some ls.flatten) G = some r ∧
      r.X.info.length = (dataLines (ls.map cstr)).length ∧
      (∀ (k : Nat) (l : List Char) (c : Char), (dataLines (ls.map cstr))[k]? = some l →
        typeChar l = some c →
        ∃ f : X2SYS_DATA_INFO D, r.X.info[k]? = some f ∧ f.intype = c) ∧
      (r.X.ascii_in = true ↔
        (∀ l ∈ ls, (cstr l).take 7 ≠ "#BINARY".toList) ∧
          ∀ f ∈ r.X.info, f.intype = 'a' ∨ f.intype = 'A') ∧
      ((∀ l ∈ dataLines (ls.map cstr), typeChar l ≠ none) →
        (r.X.ascii_in = true ↔
          (∀ l ∈ ls, (cstr l).take 7 ≠ "#BINARY".toList) ∧
            ∀ l ∈ dataLines (ls.map cstr), typeChar l = some 'a' ∨ typeChar l = some 'A')) := by
  obtain ⟨r, fields, h0, h1, _, h3, _⟩ := initialize_fields F E I J fname ls.flatten G
  obtain ⟨r1, g0, g1, g2⟩ := initialize_intypes F E I J fname ls.flatten G
  rw [h0] at g0
  simp only [Option.some.injEq] at g0
  subst g0
  rw [defLines_lines E ls hfit] at g1 g2 h3
  have hiff : r.X.ascii_in = true ↔
      (∀ l ∈ ls, (cstr l).take 7 ≠ "#BINARY".toList) ∧
        ∀ f ∈ r.X.info, f.intype = 'a' ∨ f.intype = 'A' := by
    rw [h3, h1]
    simp only [Bool.and_eq_true, List.all_eq_true, Bool.not_eq_true', decide_eq_false_iff_not,
      decide_eq_true_eq, tolower_eq_a_iff, ne_eq, List.mem_map, forall_exists_index, and_imp,
      forall_apply_eq_imp_iff₂]
  refine ⟨r, h0, g1, g2, hiff, ?_⟩
  intro hall
  rw [hiff]
  constructor
  · rintro ⟨hb, hf⟩
    refine ⟨hb, ?_⟩
    intro l hl
    obtain ⟨k, hk, hkl⟩ := List.getElem_of_mem hl
    have hlk : (dataLines (ls.map cstr))[k]? = some l := by
      rw [List.getElem?_eq_getElem hk, hkl]
    cases hc : typeChar l with
    | none => exact absurd hc (hall l hl)
    | some c =>
      obtain ⟨f, hfk, hfc⟩ := g2 k l c hlk hc
      have := hf f (List.getElem?_mem hfk)
      rw [hfc] at this
      rcases this with h | h
      · left; rw [h]
      · right; rw [h]
  · rintro ⟨hb, hl⟩
    refine ⟨hb, ?_⟩
    intro f hf
    obtain ⟨k, hk, hkf⟩ := List.getElem_of_mem hf
    have hk1 : k < (dataLines (ls.map cstr)).length := by omega
    have hlk : (dataLines (ls.map cstr))[k]? = some (dataLines (ls.map cstr))[k] :=
      List.getElem?_eq_getElem hk1
    have hmem := List.getElem?_mem hlk
    cases hc : typeChar (dataLines (ls.map cstr))[k] with
    | none => exact absurd hc (hall _ hmem)
    | some c =>
      obtain ⟨f1, hfk, hfc⟩ := g2 k _ c hlk hc
      rw [List.getElem?_eq_getElem hk, hkf] at hfk
      simp only [Option.some.injEq] at hfk
      subst hfk
      have := hl _ hmem
      rw [hc] at this
      simp only [Option.some.injEq] at this
      rw [hfc]
      exact this

/-- The example behind C19: the definition with the two comment lines and the
three ascii fields `lon`, `lat`, `depth`. -/
theorem initialize_ascii_in_iff_witness :
    ∃ r : InitResult Dec,
      x2sys_initialize decOps (decEnv 2) decInit decJunk "xyz".toList (some exampleLines.flatten)
        noColTypes = some r ∧
      r.X.info.length = (dataLines (exampleLines.map cstr)).length ∧
      (∀ (k : Nat) (l : List Char) (c : Char),
        (dataLines (exampleLines.map cstr))[k]? = some l → typeChar l = some c →
        ∃ f : X2SYS_DATA_INFO Dec, r.X.info[k]? = some f ∧ f.intype = c) ∧
      (r.X.ascii_in = true ↔
        (∀ l ∈ exampleLines, (cstr l).take 7 ≠ "#BINARY".toList) ∧
          ∀ f ∈ r.X.info, f.intype = 'a' ∨ f.intype = 'A') ∧
      ((∀ l ∈ dataLines (exampleLines.map cstr), typeChar l ≠ none) →
        (r.X.ascii_in = true ↔
          (∀ l ∈ exampleLines, (cstr l).take 7 ≠ "#BINARY".toList) ∧
            ∀ l ∈ dataLines (exampleLines.map cstr),
              typeChar l = some 'a' ∨ typeChar l = some 'A')) :=
  initialize_ascii_in_iff decOps (decEnv 2) decInit decJunk "xyz".toList exampleLines noColTypes
    (by decide)

/-- Three definition files evaluated: the ascii definition `exampleLines` gives
`ascii_in` true with the type characters `a`, `a`, `a`; the definition with the
directive `#BINARY` and the one whose second field has type `h` give false. -/
theorem initialize_ascii_in_examples :
    ( x2sys_initialize decOps (decEnv 2) decInit decJunk "xyz".toList (some exampleLines.flatten)
        noColTypes).map (fun r => (r.X.ascii_in, r.X.info.map (fun f => f.intype))) =
      some (true, ['a', 'a', 'a']) ∧
    ( x2sys_initialize decOps (decEnv 2) decInit decJunk "xyz".toList (some binaryLines.flatten)
        noColTypes).map (fun r => (r.X.ascii_in, r.X.info.map (fun f => f.intype))) =
      some (false, ['i', 'h']) ∧
    ( x2sys_initialize decOps (decEnv 2) decInit decJunk "xyz".toList (some mixedLines.flatten)
        noColTypes).map (fun r => (r.X.ascii_in, r.X.info.map (fun f => f.intype))) =
      some (false, ['a', 'h']) ∧
    exampleLines.flatten = exampleDef := by
  decide

/-- C20 (counterexample): for the definition with the fields `x`, `y`, `lon` in this
order, `x2sys_initialize` leaves `x_col = 2`, the index of the field `lon`, and
not 0, the index of the first field named `x` or `lon`. -/
theorem initialize_x_col_counterexample :
    ( x2sys_initialize decOps (decEnv 2) decInit decJunk "xyz".toList (some twoLonDef)
        { in_col_type := [0, 0, 0, 0, 0], out_col_type := [0, 0, 0, 0, 0] }).map
      (fun r => (r.X.info.map (fun f => String.mk f.name), r.X.x_col, r.X.y_col, r.X.t_col)) =
      some (["x", "y", "lon"], 2, 1, -1) := by
  decide

/-- C20 (amended): after `x2sys_initialize` on a definition file that opens, `x_col`
is the index of the last field named `x` or `lon`, `y_col` the index of the
last field named `y` or `lat`, `t_col` the index of the last field named `t` or
`time`, and each is -1 when no field has such a name. -/
theorem initialize_columns_last {D : Type} (F : DoubleOps D) (E : Env D) (I : InitEnv D)
    (J : InitJunk D) (fname : List Char) (fp : FILE) (G : GMT_IO) :
    ∃ r : InitResult D, x2sys_initialize F E I J fname (some fp) G = some r ∧
      IsLastNamed "x" "lon" r.X.info r.X.x_col ∧
      IsLastNamed "y" "lat" r.X.info r.X.y_col ∧
      IsLastNamed "t" "time" r.X.info r.X.t_col := by
  obtain ⟨r, fields, h0, h1, _, _, h4, h5, h6, _⟩ := initialize_fields F E I J fname fp G
  have key : ∀ (a b : String), IsLastNamed a b fields (lastNamed a b fields 0 (-1)) := by
    intro a b
    rcases lastNamed_spec a b fields 0 (-1) with ⟨e1, e2⟩ | ⟨k, f, e1, e2, e3, e4⟩
    · exact Or.inl ⟨e1, e2⟩
    · exact Or.inr ⟨k, f, by rw [e1, Nat.zero_add], e2, e3, e4⟩
  refine ⟨r, h0, ?_, ?_, ?_⟩
  · rw [h1, h4]; exact key _ _
  · rw [h1, h5]; exact key _ _
  · rw [h1, h6]; exact key _ _

/-! ## Column selection -/

theorem pickLoop_spec {D : Type} :
    ∀ (names : List (List Char)) (i : Nat) (s : X2SYS_INFO D),
      (∀ p ∈ names, findName p s.info 0 < s.info.length) →
      i + names.length ≤ s.out_order.length →
      ∃ s1, pickLoop names i s = some s1 ∧
        s1.n_out_columns = ((i + names.length : Nat) : Int) ∧
        s1.out_order.length = s.out_order.length ∧
        s1.use_column.length = s.use_column.length ∧
        (∀ k, k < i → s1.out_order[k]? = s.out_order[k]?) ∧
        (∀ k p, names[k]? = some p →
          s1.out_order[i + k]? = some ((findName p s.info 0 : Nat) : Int)) ∧
        (∀ j, j < s.use_column.length → (∃ p ∈ names, findName p s.info 0 = j) →
          s1.use_column[j]? = some 1) ∧
        (∀ j, (∀ p ∈ names, findName p s.info 0 ≠ j) →
          s1.use_column[j]? = s.use_column[j]?) := by
  intro names
  induction names with
  | nil =>
    intro i s _ _
    exact ⟨_, rfl, by simp, rfl, rfl, fun _ _ => rfl, by simp, by simp, fun _ _ => rfl⟩
  | cons p ps ih =>
    intro i s hall hlen
    have hp : findName p s.info 0 < s.info.length := hall p (List.mem_cons_self _ _)
    simp only [List.length_cons] at hlen
    obtain ⟨s1, h0, h1, h2, h3, h4, h5, h6, h7⟩ := ih (i + 1)
      { s with
        out_order := s.out_order.set i (findName p s.info 0)
        use_column := s.use_column.set (findName p s.info 0) 1 }
      (fun q hq => hall q (List.mem_cons_of_mem _ hq))
      (by simp only [List.length_set]; omega)
    simp only [List.length_set] at h2 h3
    refine ⟨s1, ?_, ?_, h2, h3, ?_, ?_, ?_, ?_⟩
    · simp only [pickLoop, X2SYS_INFO.n_fields, hp, if_true]
      exact h0
    · rw [h1]; simp only [List.length_cons]; congr 1; omega
    · intro k hk
      rw [h4 k (by omega)]
      exact List.getElem?_set_ne (by omega)
    · intro k q hq
      cases k with
      | zero =>
        simp only [List.getElem?_cons_zero, Option.some.injEq] at hq
        subst hq
        rw [Nat.add_zero, h4 i (by omega)]
        exact List.getElem?_set_self (by omega)
      | succ k =>
        simp only [List.getElem?_cons_succ] at hq
        have := h5 k q hq
        rw [show i + (k + 1) = i + 1 + k by omega]
        exact this
    · intro j hj hex
      by_cases hps : ∃ q ∈ ps, findName q s.info 0 = j
      · exact h6 j (by simp only [List.length_set]; exact hj) hps
      · obtain ⟨q, hq, hqj⟩ := hex
        rcases List.mem_cons.mp hq with h | h
        · subst h
          rw [h7 j (fun q1 hq1 he => hps ⟨q1, hq1, he⟩)]
          subst hqj
          exact List.getElem?_set_self hj
        · exact absurd ⟨q, h, hqj⟩ hps
    · intro j hno
      rw [h7 j (fun q hq => hno q (List.mem_cons_of_mem _ hq))]
      exact List.getElem?_set_ne (hno p (List.mem_cons_self _ _))

theorem clearColumns_spec (n : Nat) (u : List Int) (h : u.length = n) :
    clearColumns n u = List.replicate n 0 := by
  subst h
  simp [clearColumns]

/-- C15: for a list of `m` names that all occur in the schema, `m` at most
`n_fields`, `x2sys_pick_fields` returns with `n_out_columns = m`, with
`out_order[i]` the index of the first field whose name is the `i`-th listed
name, and with `use_column[j]` equal to 1 for the fields `j` that some
`out_order[i]`, `i < m`, names and 0 for the other fields; and
`x2sys_initialize`, on a definition file that opens, leaves `out_order` the
identity on `0 .. n_fields - 1`, every `use_column[j] = 1` and
`n_out_columns = n_fields`. -/
theorem pick_fields_order_and_defaults {D : Type} (F : DoubleOps D) (E : Env D)
    (I : InitEnv D) (J : InitJunk D) (fname : List Char) (fp : FILE) (G : GMT_IO)
    (string : List Char) (s : X2SYS_INFO D)
    (hall : ∀ p ∈ pickNames E string, ∃ f ∈ s.info, f.name = p)
    (hm : (pickNames E string).length ≤ s.n_fields)
    (ho : s.out_order.length = s.n_fields) (hu : s.use_column.length = s.n_fields) :
    (∃ s1 : X2SYS_INFO D, x2sys_pick_fields E string s = some s1 ∧
      s1.n_out_columns = ((pickNames E string).length : Int) ∧
      (∀ (i : Nat) (p : List Char), (pickNames E string)[i]? = some p →
        ∃ (j : Nat) (f : X2SYS_DATA_INFO D), s1.out_order[i]? = some (j : Int) ∧
          s.info[j]? = some f ∧ f.name = p ∧
          ∀ (k : Nat) (g : X2SYS_DATA_INFO D), k < j → s.info[k]? = some g → g.name ≠ p) ∧
      (∀ j : Nat, j < s.n_fields →
        ((∃ i : Nat, i < (pickNames E string).length ∧ s1.out_order[i]? = some (j : Int)) →
          s1.use_column[j]? = some 1) ∧
        ((¬ ∃ i : Nat, i < (pickNames E string).length ∧ s1.out_order[i]? = some (j : Int)) →
          s1.use_column[j]? = some 0))) ∧
    (∃ r : InitResult D, x2sys_initialize F E I J fname (some fp) G = some r ∧
      r.X.n_out_columns = (r.X.n_fields : Int) ∧
      r.X.out_order = (List.range r.X.n_fields).map Int.ofNat ∧
      r.X.use_column = List.replicate r.X.n_fields 1) := by
  constructor
  · simp only [X2SYS_INFO.n_fields] at hm ho hu
    obtain ⟨s1, h0, h1, h2, h3, h4, h5, h6, h7⟩ := pickLoop_spec (pickNames E string) 0
      { s with use_column := clearColumns s.n_fields s.use_column }
      (fun p hp => (findName_lt_iff p s.info).mpr (hall p hp))
      (by simp only [Nat.zero_add]; omega)
    simp only [Nat.zero_add] at h1 h5
    have hclear : clearColumns s.n_fields s.use_column = List.replicate s.info.length 0 :=
      clearColumns_spec _ _ hu
    simp only [hclear, List.length_replicate] at h3 h6 h7
    have hord : ∀ i j, i < (pickNames E string).length →
        (s1.out_order[i]? = some ((j : Nat) : Int) ↔
          ∃ p, (pickNames E string)[i]? = some p ∧ findName p s.info 0 = j) := by
      intro i j hi
      obtain ⟨p, hp⟩ : ∃ p, (pickNames E string)[i]? = some p :=
        ⟨_, List.getElem?_eq_getElem hi⟩
      rw [h5 i p hp]
      constructor
      · intro h
        simp only [Option.some.injEq, Nat.cast_inj] at h
        exact ⟨p, hp, h⟩
      · rintro ⟨q, hq, hqj⟩
        rw [hp] at hq
        simp only [Option.some.injEq] at hq
        rw [hq, hqj]
    refine ⟨s1, h0, h1, ?_, ?_⟩
    · intro i p hp
      have hlt : findName p s.info 0 < s.info.length :=
        (findName_lt_iff p s.info).mpr (hall p (List.getElem?_mem hp))
      obtain ⟨⟨f, hf, hn⟩, hbefore⟩ := (findName_spec p s.info 0).1 (by omega)
      simp only [Nat.sub_zero] at hf hbefore
      exact ⟨findName p s.info 0, f, h5 i p hp, hf, hn, hbefore⟩
    · intro j hj
      constructor
      · rintro ⟨i, hi, hij⟩
        obtain ⟨p, hp, hpj⟩ := (hord i j hi).mp hij
        exact h6 j (by simpa only [X2SYS_INFO.n_fields] using hj) ⟨p, List.getElem?_mem hp, hpj⟩
      · intro hno
        rw [h7 j ?_]
        · rw [List.getElem?_replicate, if_pos (by simpa only [X2SYS_INFO.n_fields] using hj)]
        · intro p hp hpj
          obtain ⟨i, hi, hip⟩ := List.getElem_of_mem hp
          exact hno ⟨i, hi, (hord i j hi).mpr ⟨p, by rw [List.getElem?_eq_getElem hi, hip], hpj⟩⟩
  · obtain ⟨r, fields, h0, h1, _, _, _, _, _, h7, h8, h9⟩ := initialize_fields F E I J fname fp G
    refine ⟨r, h0, ?_, ?_, ?_⟩
    · simp only [X2SYS_INFO.n_fields, h1]; exact h7
    · simp only [X2SYS_INFO.n_fields, h1]; exact h8
    · simp only [X2SYS_INFO.n_fields, h1]; exact h9
theorem pick_fields_order_and_defaults_witness :
    (∃ s1 : X2SYS_INFO Dec, x2sys_pick_fields (decEnv 2) "lat,lon".toList lonLat = some s1 ∧
      s1.n_out_columns = ((pickNames (decEnv 2) "lat,lon".toList).length : Int) ∧
      (∀ (i : Nat) (p : List Char), (pickNames (decEnv 2) "lat,lon".toList)[i]? = some p →
        ∃ (j : Nat) (f : X2SYS_DATA_INFO Dec), s1.out_order[i]? = some (j : Int) ∧
          lonLat.info[j]? = some f ∧ f.name = p ∧
          ∀ (k : Nat) (g : X2SYS_DATA_INFO Dec), k < j → lonLat.info[k]? = some g →
            g.name ≠ p) ∧
      (∀ j : Nat, j < lonLat.n_fields →
        ((∃ i : Nat, i < (pickNames (decEnv 2) "lat,lon".toList).length ∧
            s1.out_order[i]? = some (j : Int)) →
          s1.use_column[j]? = some 1) ∧
        ((¬ ∃ i : Nat, i < (pickNames (decEnv 2) "lat,lon".toList).length ∧
            s1.out_order[i]? = some (j : Int)) →
          s1.use_column[j]? = some 0))) ∧
    (∃ r : InitResult Dec,
      x2sys_initialize decOps (decEnv 2) decInit decJunk "xyz".toList (some exampleDef)
        noColTypes = some r ∧
      r.X.n_out_columns = (r.X.n_fields : Int) ∧
      r.X.out_order = (List.range r.X.n_fields).map Int.ofNat ∧
      r.X.use_column = List.replicate r.X.n_fields 1) :=
  pick_fields_order_and_defaults decOps (decEnv 2) decInit decJunk "xyz".toList exampleDef
    noColTypes "lat,lon".toList lonLat (by decide) (by decide) (by decide) (by decide)

/-! ## The stored data-column count -/

theorem pickLoop_n_data_cols {D : Type} :
    ∀ (names : List (List Char)) (i : Nat) (s s1 : X2SYS_INFO D),
      pickLoop names i s = some s1 → s1.n_data_cols = s.n_data_cols := by
  intro names
  induction names with
  | nil => intro i s s1 h; simp only [pickLoop, Option.some.injEq] at h; rw [← h]
  | cons p ps ih =>
    intro i s s1 h
    simp only [pickLoop] at h
    split at h
    · have := ih _ _ _ h
      exact this
    · simp at h

/-- C24 (counterexample): after `x2sys_initialize` on the definition with the fields
`lon`, `lat`, `depth` the stored `n_data_cols` is 1; `x2sys_pick_fields` with
the list `lon,lat` deselects `depth` and leaves the stored value 1, while
`x2sys_n_data_cols` of the new schema is 0. -/
theorem n_data_cols_after_pick_counterexample :
    (( x2sys_initialize decOps (decEnv 2) decInit decJunk "xyz".toList (some exampleDef)
        { in_col_type := [0, 0, 0, 0, 0], out_col_type := [0, 0, 0, 0, 0] }).bind
      (fun r => x2sys_pick_fields (decEnv 2) "lon,lat".toList r.X)).map
      (fun s1 => (s1.use_column, s1.n_data_cols, x2sys_n_data_cols s1)) =
      some ([1, 1, 0], 1, 0) := by
  decide

/-- C24 (amended): right after `x2sys_initialize` the stored `n_data_cols` equals
`x2sys_n_data_cols (s)`, which is then the number of fields that are not the
x, y or t column (no column is deselected yet); `x2sys_pick_fields` does not
store a new count: after a successful call `n_data_cols` is what it was
before the call. -/
theorem n_data_cols_stored {D : Type} (F : DoubleOps D) (E : Env D) (I : InitEnv D)
    (J : InitJunk D) (fname : List Char) (fp : FILE) (G : GMT_IO)
    (string : List Char) (s : X2SYS_INFO D) :
    (∃ r : InitResult D, x2sys_initialize F E I J fname (some fp) G = some r ∧
      r.X.n_data_cols = x2sys_n_data_cols r.X ∧
      x2sys_n_data_cols r.X =
        (((List.range r.X.n_fields).filter (fun (i : Nat) =>
          decide ((i : Int) ≠ r.X.x_col ∧ (i : Int) ≠ r.X.y_col ∧
            (i : Int) ≠ r.X.t_col))).length : Int)) ∧
    (x2sys_pick_fields E string s).map (fun s1 => s1.n_data_cols) =
      (x2sys_pick_fields E string s).map (fun _ => s.n_data_cols) := by
  constructor
  · obtain ⟨r, fields, h0, h1, _, _, _, _, _, _, _, h9⟩ := initialize_fields F E I J fname fp G
    refine ⟨r, h0, ?_, ?_⟩
    · simp only [ x2sys_initialize] at h0
      simp only [Option.some.injEq] at h0
      rw [← h0]
      rfl
    · simp only [x2sys_n_data_cols, X2SYS_INFO.n_fields, h1, h9]
      congr 2
      apply List.filter_congr
      intro i hi
      have hi1 : i < fields.length := List.mem_range.mp hi
      simp [List.getD_eq_getElem?_getD, List.getElem?_replicate, hi1, Int.ofNat_eq_coe,
        Bool.and_assoc]
  · cases h : x2sys_pick_fields E string s with
    | none => rfl
    | some s1 =>
      simp only [Option.map_some', Option.some.injEq]
      unfold x2sys_pick_fields at h
      have := pickLoop_n_data_cols _ _ _ _ h
      exact this

/-! ## The float case of `x2sys_read_record` -/

/-- C25 (as the code behaves): on a schema with a 4-byte integer field and a
4-byte float field, two records with the integer 7 and different float bytes
(those of 1.0 and of 2.0) both give `data[1] = 7`: the `f` case stores the
variable `i`, which holds the integer read for the field before. -/
theorem read_record_float_example :
    (x2sys_read_record decOps (decEnv 2) noColTypes (bytes [7, 0, 0, 0, 0, 0, 128, 63])
      [.val 0 0, .val 0 0] intFloatSchema zeroLocals).map (fun r => (r.1, r.2.data)) =
      some (0, [.val 7 0, .val 7 0]) ∧
    (x2sys_read_record decOps (decEnv 2) noColTypes (bytes [7, 0, 0, 0, 0, 0, 0, 64])
      [.val 0 0, .val 0 0] intFloatSchema zeroLocals).map (fun r => (r.1, r.2.data)) =
      some (0, [.val 7 0, .val 7 0]) := by
  decide

/-! ## The stores of `x2sys_pick_fields` -/

/-- C27 (as the code behaves): for the one-field schema `lon`, whose `out_order`
has one entry, the list `lon,lon` makes `x2sys_pick_fields` store
`out_order[0]` and `out_order[1]`; index 1 is not below `n_fields = 1`. -/
theorem pick_fields_store_example :
    pickStores (pickNames (decEnv 2) "lon,lon".toList) 0 lonSchema = [0, 1] ∧
    lonSchema.n_fields = 1 ∧ lonSchema.out_order.length = 1 ∧
    (x2sys_pick_fields (decEnv 2) "lon,lon".toList lonSchema).map
      (fun s1 => s1.n_out_columns) = some 2 := by
  decide

/-! ## The header-skipping loop at the end of the input -/

theorem skipHeaders_headers_only (size : Nat) (flag : Char) (mseg : Bool) :
    ∀ (hs : List (List Char)) (fuel : Nat) (line : List Char) (ms : Bool),
      isHeaderLine flag line = true →
      (∀ h ∈ hs, lineFits (size - 1) h = true ∧ isHeaderLine flag (cstr h) = true) →
      skipHeaders size flag mseg fuel line hs.flatten ms = none := by
  intro hs
  induction hs with
  | nil =>
    intro fuel line ms hline _
    exact skipHeaders_eof size flag mseg line hline fuel ms
  | cons h hs ih =>
    intro fuel line ms hline hhs
    cases fuel with
    | zero => simp [skipHeaders, hline]
    | succ fuel =>
      have hh := hhs h (by simp)
      simp only [skipHeaders, hline, if_true, List.flatten_cons,
        fgets_line size line h hs.flatten hh.1]
      exact ih fuel (cstr h) _ hh.2 (fun x hx => hhs x (by simp [hx]))

/-- The data-line search on a stream that consists of header lines only, at least
one: the loop never ends. -/
theorem getDataLine_headers_only {D : Type} (E : Env D) (s : X2SYS_INFO D) (line0 : List Char)
    (hs : List (List Char)) (hne : hs ≠ [])
    (hhs : ∀ h ∈ hs, lineFits (E.BUFSIZ - 1) h = true ∧ isHeaderLine s.ms_flag (cstr h) = true) :
    getDataLine E s line0 hs.flatten = none := by
  cases hs with
  | nil => exact absurd rfl hne
  | cons h hs =>
    have hh := hhs h (by simp)
    simp only [getDataLine, List.flatten_cons, fgets_line _ line0 h hs.flatten hh.1]
    exact skipHeaders_headers_only _ _ _ hs _ (cstr h) false hh.2
      (fun x hx => hhs x (by simp [hx]))

theorem fileLoop_headers_hang {D : Type} (F : DoubleOps D) (E : Env D) (G : GMT_IO)
    (g : Nat → Locals) (flag : Char) (f : X2SYS_DATA_INFO D) (fs : List (X2SYS_DATA_INFO D))
    (hf : f.intype = 'a') (hs : List (List Char)) (hne : hs ≠ [])
    (hhs : ∀ h ∈ hs, lineFits (E.BUFSIZ - 1) h = true ∧ isHeaderLine flag (cstr h) = true) :
    ∀ (blocks : List Block) (fuel : Nat) (st : FileState D),
      st.s.info = f :: fs → st.s.ms_flag = flag →
      st.record.length = (f :: fs).length →
      st.fp = fileText blocks hs.flatten →
      (∀ b ∈ blocks, ∀ h ∈ b.1,
        lineFits (E.BUFSIZ - 1) h = true ∧ isHeaderLine flag (cstr h) = true) →
      (∀ b ∈ blocks,
        lineFits (E.BUFSIZ - 1) b.2 = true ∧ isHeaderLine flag (cstr b.2) = false ∧
        (strtokAll (cstr b.2)).length = (f :: fs).length) →
      fileLoop F E G g fuel st = none := by
  intro blocks
  induction blocks with
  | nil =>
    intro fuel st hinfo hflag _ hfp _ _
    cases fuel with
    | zero => rfl
    | succ fuel =>
      simp only [fileLoop]
      rw [read_record_ascii_token_eq F E G _ _ _ _ f fs hinfo hf, hfp]
      simp only [fileText]
      rw [getDataLine_headers_only E st.s _ hs hne (by rw [hflag]; exact hhs)]
      rfl
  | cons b bs ih =>
    intro fuel st hinfo hflag hrec hfp hheads hrows
    cases fuel with
    | zero => rfl
    | succ fuel =>
      have hb := hrows b (by simp)
      obtain ⟨d, hd⟩ := scanTokens_some E G (strtokAll (cstr b.2)) st.record (by omega)
      have hdlen : d.length = (f :: fs).length := by
        rw [scanTokens_length E G _ _ _ _ hd, hrec]
      simp only [fileLoop]
      rw [read_record_ascii_token_eq F E G _ _ _ _ f fs hinfo hf, hfp]
      simp only [fileText]
      rw [getDataLine_block E st.s _ b.1 b.2 _
        (by rw [hflag]; exact fun h hh => hheads b (by simp) h hh)
        hb.1 (by rw [hflag]; exact hb.2.1)]
      simp only [Option.some_bind, hd, Option.map_some', X2SYS_INFO.n_fields, hinfo, hb.2.2,
        ne_eq, not_true_eq_false, if_false]
      exact ih fuel _ rfl hflag hdlen rfl
        (fun x hx => hheads x (by simp [hx])) (fun x hx => hrows x (by simp [hx]))

/-- C26 (as the code behaves): for an ascii-token schema and a file that, after the
skipped header, consists of well-formed rows (each possibly preceded by
header lines) and ends with at least one line that starts with `#` or the
segment marker, `x2sys_read_file` does not return, however many calls of
`x2sys_read_record` are allowed: at the end of the input `fgets` leaves the last
header line in the buffer and the header-skipping loop tests it for ever.  The
cause is that loop and not a store past the record buffer: on the trailing
header lines the data-line search never ends, whatever the buffer held, and
the tokens of every row fit a buffer of `n_fields` entries. -/
theorem read_file_trailing_headers_hang {D : Type} (F : DoubleOps D) (E : Env D) (G : GMT_IO)
    (g : Nat → Locals) (fname : List Char) (fp0 : FILE) (s : X2SYS_INFO D)
    (p : X2SYS_FILE_INFO) (f : X2SYS_DATA_INFO D) (fs : List (X2SYS_DATA_INFO D))
    (blocks : List Block) (hs : List (List Char))
    (hinfo : s.info = f :: fs) (hf : f.intype = 'a') (hne : hs ≠ [])
    (htext : x2sys_skip_header E fp0 s = fileText blocks hs.flatten)
    (hhs : ∀ h ∈ hs,
      lineFits (E.BUFSIZ - 1) h = true ∧ isHeaderLine s.ms_flag (cstr h) = true)
    (hheads : ∀ b ∈ blocks, ∀ h ∈ b.1,
      lineFits (E.BUFSIZ - 1) h = true ∧ isHeaderLine s.ms_flag (cstr h) = true)
    (hrows : ∀ b ∈ blocks,
      lineFits (E.BUFSIZ - 1) b.2 = true ∧ isHeaderLine s.ms_flag (cstr b.2) = false ∧
      (strtokAll (cstr b.2)).length = (f :: fs).length) :
    (∀ fuel : Nat, x2sys_read_file F E G g fuel fname (some fp0) s p = none) ∧
    (∀ line0 : List Char, getDataLine E s line0 hs.flatten = none) ∧
    (∀ b ∈ blocks, ∀ data : List D, data.length = s.n_fields →
      ∃ d : List D, scanTokens E G 0 (strtokAll (cstr b.2)) data = some d) := by
  refine ⟨?_, ?_, ?_⟩
  · intro fuel
    simp only [x2sys_read_file]
    rw [fileLoop_headers_hang F E G g s.ms_flag f fs hf hs hne hhs blocks fuel _ hinfo rfl
      (by rw [GMT_memory_length, X2SYS_INFO.n_fields, hinfo]) htext hheads hrows]
  · intro line0
    exact getDataLine_headers_only E s line0 hs hne hhs
  · intro b hb data hdata
    exact scanTokens_some E G _ data
      (by rw [(hrows b hb).2.2, hdata, X2SYS_INFO.n_fields, hinfo])

/-- The example behind C26: a data row followed by a last line that starts with
`#`; whatever number of calls is allowed, the read gives no result, and on
the last line the data-line search never ends. -/
theorem read_file_trailing_headers_hang_witness :
    (fun fuel : Nat =>
      x2sys_read_file decOps (decEnv 2) noColTypes (fun _ => zeroLocals) fuel "track".toList
        (some "1 2 3\n# end\n".toList) lonLatDepth emptyFileInfo) = (fun _ => none) ∧
    getDataLine (decEnv 2) lonLatDepth [] ["# end\n".toList].flatten = none :=
  ⟨funext
    (read_file_trailing_headers_hang decOps (decEnv 2) noColTypes (fun _ => zeroLocals)
      "track".toList "1 2 3\n# end\n".toList lonLatDepth emptyFileInfo
      (mkField "lon" 'a' false (.val 0 0) (.val 1 0) (.val 0 0))
      [mkField "lat" 'a' false (.val 0 0) (.val 1 0) (.val 0 0),
       mkField "depth" 'a' true (.val (-9999) 0) (.val 1 0) (.val 0 0)]
      [([], "1 2 3\n".toList)] ["# end\n".toList]
      rfl rfl (by decide) (by decide) (by decide) (by decide) (by decide)).1,
   (read_file_trailing_headers_hang decOps (decEnv 2) noColTypes (fun _ => zeroLocals)
      "track".toList "1 2 3\n# end\n".toList lonLatDepth emptyFileInfo
      (mkField "lon" 'a' false (.val 0 0) (.val 1 0) (.val 0 0))
      [mkField "lat" 'a' false (.val 0 0) (.val 1 0) (.val 0 0),
       mkField "depth" 'a' true (.val (-9999) 0) (.val 1 0) (.val 0 0)]
      [([], "1 2 3\n".toList)] ["# end\n".toList]
      rfl rfl (by decide) (by decide) (by decide) (by decide) (by decide)).2.1 []⟩

/-! ## The legacy readers -/

theorem storeRow_cols {D : Type} (j n : Nat) (z : List (List D)) (row : List D)
    (rows : List (List D)) (hz : z.length = row.length) (hj : j < n)
    (hinv : ∀ (i : Nat) (col : List D), z[i]? = some col →
      col.length = n ∧ (col.take j).map some = rows.map (fun r => r[i]?)) :
    ∀ (i : Nat) (col : List D), (storeRow j z row)[i]? = some col →
      col.length = n ∧ (col.take (j + 1)).map some = (rows ++ [row]).map (fun r => r[i]?) := by
  intro i col h
  have hi : i < z.length := by
    have := (List.getElem?_eq_some_iff.mp h).1
    rwa [storeRow_length] at this
  have hz0 : z[i]? = some z[i] := List.getElem?_eq_getElem hi
  have hv : row[i]? = some (row.get ⟨i, by omega⟩) := List.getElem?_eq_getElem (by omega)
  rw [storeRow_getElem? j z row i _ _ hz0 hv] at h
  simp only [Option.some.injEq] at h
  subst h
  obtain ⟨h1, h2⟩ := hinv i _ hz0
  refine ⟨by simp [h1], ?_⟩
  rw [take_succ_set _ _ _ (by omega)]
  simp only [List.map_append, h2, List.map_cons, List.map_nil, hv]

theorem filterMap_of_map_some {α β : Type} (g : α → Option β) :
    ∀ (rows : List α) (col : List β), col.map some = rows.map g → rows.filterMap g = col := by
  intro rows
  induction rows with
  | nil => intro col h; simpa using h
  | cons r rows ih =>
    intro col h
    cases col with
    | nil => simp at h
    | cons c col =>
      simp only [List.map_cons, List.cons.injEq] at h
      rw [List.filterMap_cons, ← h.1, ih col h.2]

theorem columnsOf_of_cols {D : Type} (w : Nat) (z rows : List (List D)) (hz : z.length = w)
    (h : ∀ (i : Nat) (col : List D), z[i]? = some col →
      col.map some = rows.map (fun r => r[i]?)) :
    z = columnsOf w rows := by
  apply List.ext_getElem?
  intro i
  by_cases hi : i < w
  · have hz0 : z[i]? = some z[i] := List.getElem?_eq_getElem (by omega)
    rw [hz0]
    have := filterMap_of_map_some (fun (r : List D) => r[i]?) rows _ (h i _ hz0)
    simp [columnsOf, hi, this]
  · rw [List.getElem?_eq_none (by omega), List.getElem?_eq_none (by simp [columnsOf]; omega)]

theorem gmtRecords_succ {D : Type} (M : MggEnv D) (k : Nat) (fp : FILE) :
    gmtRecords M (k + 1) fp = M.rec_of_bytes (fp.take 18) :: gmtRecords M k (fp.drop 18) := by
  simp only [gmtRecords, List.range_succ_eq_map, List.map_cons, List.map_map, Nat.mul_zero,
    List.drop_zero, List.cons.injEq, true_and]
  apply List.map_congr_left
  intro j _
  simp only [Function.comp, List.drop_drop]
  congr 3
  omega

theorem gmtLoop_spec {D : Type} (F : DoubleOps D) (M : MggEnv D) :
    ∀ (k j : Nat) (fp : FILE) (z rows : List (List D)),
      18 * k ≤ fp.length → z.length = 6 →
      (∀ (i : Nat) (col : List D), z[i]? = some col →
        col.length = j + k ∧ (col.take j).map some = rows.map (fun r => r[i]?)) →
      ∃ z1 : List (List D), gmtLoop F M k j fp z = some z1 ∧ z1.length = 6 ∧
        ∀ (i : Nat) (col : List D), z1[i]? = some col →
          col.map some =
            (rows ++ (gmtRecords M k fp).map (gmtRow F M)).map (fun r => r[i]?) := by
  intro k
  induction k with
  | zero =>
    intro j fp z rows _ hz hinv
    refine ⟨z, rfl, hz, ?_⟩
    intro i col h
    obtain ⟨h1, h2⟩ := hinv i col h
    rw [List.take_of_length_le (by omega)] at h2
    simp [gmtRecords, h2]
  | succ k ih =>
    intro j fp z rows hlen hz hinv
    have hread : fread 18 fp = (some (fp.take 18), fp.drop 18) := by
      simp only [fread]
      rw [if_neg (by decide), if_pos (by omega)]
    obtain ⟨z1, h1, h2, h3⟩ := ih (j + 1) (fp.drop 18)
      (storeRow j z (gmtRow F M (M.rec_of_bytes (fp.take 18))))
      (rows ++ [gmtRow F M (M.rec_of_bytes (fp.take 18))])
      (by simp only [List.length_drop]; omega)
      (by rw [storeRow_length]; exact hz)
      (fun i col h => by
        have := storeRow_cols j (j + (k + 1)) z _ rows (by rw [hz]; rfl) (by omega) hinv i col h
        exact ⟨by omega, this.2⟩)
    refine ⟨z1, ?_, h2, ?_⟩
    · simp only [gmtLoop, hread]
      exact h1
    · intro i col h
      rw [h3 i col h, gmtRecords_succ]
      simp

theorem gmtLoop_short {D : Type} (F : DoubleOps D) (M : MggEnv D) :
    ∀ (k j : Nat) (fp : FILE) (z : List (List D)),
      fp.length < 18 * k → gmtLoop F M k j fp z = none := by
  intro k
  induction k with
  | zero => intro j fp z h; omega
  | succ k ih =>
    intro j fp z h
    by_cases h18 : 18 ≤ fp.length
    · have hread : fread 18 fp = (some (fp.take 18), fp.drop 18) := by
        simp only [fread]
        rw [if_neg (by decide), if_pos h18]
      simp only [gmtLoop, hread]
      exact ih _ _ _ (by simp only [List.length_drop]; omega)
    · have hread : fread 18 fp = (none, []) := by
        simp only [fread]
        rw [if_neg (by decide), if_neg h18]
      simp only [gmtLoop, hread]

theorem fread_some (size : Nat) (fp : FILE) (h0 : 0 < size) (h : size ≤ fp.length) :
    fread size fp = (some (fp.take size), fp.drop size) := by
  simp only [fread]
  rw [if_neg (by omega), if_pos h]

theorem fread_none (size : Nat) (fp : FILE) (h : fp.length < size) :
    (fread size fp).1 = none := by
  simp only [fread]
  split
  · rfl
  · rw [if_neg (by omega)]

/-- The whole of `x2sys_read_gmtfile` on a file that holds the header and the
records it announces, against the plain list of records. -/
theorem read_gmtfile_spec {D : Type} (F : DoubleOps D) (E : Env D) (M : MggEnv D)
    (fp : FILE) (s : X2SYS_INFO D) (p : X2SYS_FILE_INFO)
    (hrows : 0 ≤ E.int_of_bytes 'i' ((fp.drop 4).take 4))
    (hlen : 18 + 18 * (E.int_of_bytes 'i' ((fp.drop 4).take 4)).toNat ≤ fp.length) :
    x2sys_read_gmtfile F E M true (some fp) s p =
      some
        { ret := E.int_of_bytes 'i' ((fp.drop 4).take 4)
          data := columnsOf 6
            ((gmtRecords M (E.int_of_bytes 'i' ((fp.drop 4).take 4)).toNat (fp.drop 18)).map
              (gmtRow F M))
          s := { s with flags := if s.flags % 2 = 0 then s.flags + 1 else s.flags }
          p := { p with
            year := E.int_of_bytes 'i' (fp.take 4)
            n_rows := E.int_of_bytes 'i' ((fp.drop 4).take 4)
            name := cstr (((fp.drop 4).drop 4).take 10) } } := by
  have h1 : fread 4 fp = (some (fp.take 4), fp.drop 4) := fread_some 4 fp (by decide) (by omega)
  have h2 : fread 4 (fp.drop 4) = (some ((fp.drop 4).take 4), (fp.drop 4).drop 4) :=
    fread_some 4 _ (by decide) (by simp only [List.length_drop]; omega)
  have h3 : fread 10 ((fp.drop 4).drop 4) =
      (some (((fp.drop 4).drop 4).take 10), ((fp.drop 4).drop 4).drop 10) :=
    fread_some 10 _ (by decide) (by simp only [List.length_drop]; omega)
  have hd : ((fp.drop 4).drop 4).drop 10 = fp.drop 18 := by simp [List.drop_drop]
  obtain ⟨z1, g1, g2, g3⟩ := gmtLoop_spec F M
    (E.int_of_bytes 'i' ((fp.drop 4).take 4)).toNat 0 (fp.drop 18)
    (List.replicate 6 (GMT_memory (F.ofInt 0) [] (E.int_of_bytes 'i' ((fp.drop 4).take 4)).toNat))
    [] (by simp only [List.length_drop]; omega) (by simp)
    (fun i col h => by
      have := (List.getElem?_eq_some_iff.mp h).2
      simp only [List.getElem_replicate] at this
      rw [← this]
      simp [GMT_memory_length])
  simp only [List.nil_append] at g3
  have hz := columnsOf_of_cols 6 z1 _ g2 g3
  subst hz
  simp only [x2sys_read_gmtfile, Bool.not_true, Bool.false_eq_true, if_false, h1, h2, h3, hd,
    if_neg (not_lt.mpr hrows), g1]
theorem mgd77Loop_spec {D : Type} (F : DoubleOps D) (E : Env D) (M : MggEnv D)
    (hchunk : 0 < E.GMT_CHUNK) :
    ∀ (ls : List (List Char)) (st : MgdState D) (rows : List (List D)),
      st.z.length = 6 → st.j < st.n_alloc →
      (∀ (i : Nat) (col : List D), st.z[i]? = some col →
        col.length = st.n_alloc ∧ (col.take st.j).map some = rows.map (fun r => r[i]?)) →
      (mgd77Loop F E M ls st).z.length = 6 ∧
      (mgd77Loop F E M ls st).j < (mgd77Loop F E M ls st).n_alloc ∧
      (mgd77Loop F E M ls st).j = st.j + (decodedMgd77 M ls st.gmt).1.length ∧
      (mgd77Loop F E M ls st).gmt = (decodedMgd77 M ls st.gmt).2 ∧
      ∀ (i : Nat) (col : List D), (mgd77Loop F E M ls st).z[i]? = some col →
        col.length = (mgd77Loop F E M ls st).n_alloc ∧
        (col.take (mgd77Loop F E M ls st).j).map some =
          (rows ++ (decodedMgd77 M ls st.gmt).1.map (mgd77Row F M)).map (fun r => r[i]?) := by
  intro ls
  induction ls with
  | nil =>
    intro st rows hz hj hinv
    refine ⟨hz, hj, by simp [decodedMgd77, mgd77Loop], rfl, ?_⟩
    intro i col h
    simpa [decodedMgd77, mgd77Loop] using hinv i col h
  | cons line ls ih =>
    intro st rows hz hj hinv
    by_cases hc : (firstChar line = '3' ∨ firstChar line = '5') ∧ line.length = 121
    · by_cases hr : (M.gmtmgg_decode_MGD77 line st.gmt).1 = 0
      · have hd : decodedMgd77 M (line :: ls) st.gmt =
            ((M.gmtmgg_decode_MGD77 line st.gmt).2.1 ::
                (decodedMgd77 M ls (M.gmtmgg_decode_MGD77 line st.gmt).2.2).1,
              (decodedMgd77 M ls (M.gmtmgg_decode_MGD77 line st.gmt).2.2).2) := by
          simp only [decodedMgd77, hc, hr, and_self, if_true]
        have hcols := storeRow_cols st.j st.n_alloc st.z
          (mgd77Row F M (M.gmtmgg_decode_MGD77 line st.gmt).2.1) rows
          (by rw [hz]; rfl) hj hinv
        by_cases hg : st.j + 1 = st.n_alloc
        · have hs : mgd77Step F E M line st =
              { z := (storeRow st.j st.z
                    (mgd77Row F M (M.gmtmgg_decode_MGD77 line st.gmt).2.1)).map
                  (fun col => GMT_memory (F.ofInt 0) col (st.n_alloc + E.GMT_CHUNK))
                j := st.j + 1
                n_alloc := st.n_alloc + E.GMT_CHUNK
                gmt := (M.gmtmgg_decode_MGD77 line st.gmt).2.2 } := by
            simp only [mgd77Step, hc.1, hc.2, hr, hg, decide_True, Bool.or_true, Bool.true_or,
              Bool.not_true, Bool.false_eq_true, if_false, if_true, ne_eq, not_true_eq_false]
            rcases hc.1 with h | h <;> simp [h]
          have hj1 : (mgd77Step F E M line st).j = st.j + 1 := by rw [hs]
          have hg1 : (mgd77Step F E M line st).gmt = (M.gmtmgg_decode_MGD77 line st.gmt).2.2 := by
            rw [hs]
          have := ih (mgd77Step F E M line st)
            (rows ++ [mgd77Row F M (M.gmtmgg_decode_MGD77 line st.gmt).2.1])
            (by rw [hs]; simp [storeRow_length, hz])
            (by rw [hs]; simp only []; omega)
            (by
              rw [hs]
              dsimp only
              intro i col h
              simp only [List.getElem?_map, Option.map_eq_some'] at h
              obtain ⟨col0, h0, rfl⟩ := h
              obtain ⟨c1, c2⟩ := hcols i col0 h0
              refine ⟨GMT_memory_length _ _ _, ?_⟩
              rw [GMT_memory_take _ _ _ _ (by omega) (by omega)]
              exact c2)
          simp only [mgd77Loop, hd]
          rw [hj1, hg1] at this
          obtain ⟨a1, a2, a3, a4, a5⟩ := this
          refine ⟨a1, a2, ?_, a4, ?_⟩
          · rw [a3]; simp only [List.length_cons]; omega
          · intro i col h
            have := a5 i col h
            simpa using this
        · have hs : mgd77Step F E M line st =
              { z := storeRow st.j st.z (mgd77Row F M (M.gmtmgg_decode_MGD77 line st.gmt).2.1)
                j := st.j + 1
                n_alloc := st.n_alloc
                gmt := (M.gmtmgg_decode_MGD77 line st.gmt).2.2 } := by
            simp only [mgd77Step, hc.2, hr, hg, if_false, if_true, ne_eq, not_true_eq_false]
            rcases hc.1 with h | h <;> simp [h]
          have hj1 : (mgd77Step F E M line st).j = st.j + 1 := by rw [hs]
          have hg1 : (mgd77Step F E M line st).gmt = (M.gmtmgg_decode_MGD77 line st.gmt).2.2 := by
            rw [hs]
          have := ih (mgd77Step F E M line st)
            (rows ++ [mgd77Row F M (M.gmtmgg_decode_MGD77 line st.gmt).2.1])
            (by rw [hs]; simp [storeRow_length, hz])
            (by rw [hs]; simp only []; omega)
            (by rw [hs]; exact hcols)
          simp only [mgd77Loop, hd]
          rw [hj1, hg1] at this
          obtain ⟨a1, a2, a3, a4, a5⟩ := this
          refine ⟨a1, a2, ?_, a4, ?_⟩
          · rw [a3]; simp only [List.length_cons]; omega
          · intro i col h
            have := a5 i col h
            simpa using this
      · have hd : decodedMgd77 M (line :: ls) st.gmt =
            decodedMgd77 M ls (M.gmtmgg_decode_MGD77 line st.gmt).2.2 := by
          simp only [decodedMgd77, hc, hr, and_self, if_true, if_false]
        have hs : mgd77Step F E M line st =
            { st with gmt := (M.gmtmgg_decode_MGD77 line st.gmt).2.2 } := by
          simp only [mgd77Step, hc.2, hr, if_false, ne_eq, not_true_eq_false,
            if_neg (Nat.ne_of_lt hj)]
          rcases hc.1 with h | h <;> simp [h]
        have := ih { st with gmt := (M.gmtmgg_decode_MGD77 line st.gmt).2.2 } rows hz hj hinv
        simp only [mgd77Loop, hd, hs]
        exact this
    · have hd : decodedMgd77 M (line :: ls) st.gmt = decodedMgd77 M ls st.gmt := by
        simp only [decodedMgd77, hc, if_false]
      have hs : mgd77Step F E M line st = st := by
        simp only [mgd77Step]
        by_cases h1 : firstChar line = '3' ∨ firstChar line = '5'
        · have h2 : line.length ≠ 121 := fun h => hc ⟨h1, h⟩
          rcases h1 with h | h <;> simp [h, h2]
        · have h3 : firstChar line ≠ '3' := fun h => h1 (Or.inl h)
          have h5 : firstChar line ≠ '5' := fun h => h1 (Or.inr h)
          simp [h3, h5]
      simp only [mgd77Loop, hd, hs]
      exact ih st rows hz hj hinv

/-- The whole of `x2sys_read_mgd77file` on a file for which the decoder has left a
state in `gmt`, against the plain list of decoded records. -/
theorem read_mgd77file_spec {D : Type} (F : DoubleOps D) (E : Env D) (M : MggEnv D)
    (fname : List Char) (fp : FILE) (s : X2SYS_INFO D) (p : X2SYS_FILE_INFO)
    (t : GMTMGG_TIME) (hchunk : 0 < E.GMT_CHUNK)
    (hgmt : (decodedMgd77 M (fgetsAll E.BUFSIZ fp.length fp) none).2 = some t) :
    x2sys_read_mgd77file F E M fname (some fp) s p =
      some
        { ret := ((decodedMgd77 M (fgetsAll E.BUFSIZ fp.length fp) none).1.length : Int)
          data := columnsOf 6
            ((decodedMgd77 M (fgetsAll E.BUFSIZ fp.length fp) none).1.map (mgd77Row F M))
          s := s
          p := { p with
            name := fname.take 32
            year := t.first_year
            n_rows := ((decodedMgd77 M (fgetsAll E.BUFSIZ fp.length fp) none).1.length : Int) } } := by
  obtain ⟨a1, a2, a3, a4, a5⟩ := mgd77Loop_spec F E M hchunk (fgetsAll E.BUFSIZ fp.length fp)
    { z := List.replicate 6 (GMT_memory (F.ofInt 0) [] E.GMT_CHUNK)
      j := 0
      n_alloc := E.GMT_CHUNK
      gmt := none } [] (by simp) hchunk
    (fun i col h => by
      have := (List.getElem?_eq_some_iff.mp h).2
      simp only [List.getElem_replicate] at this
      rw [← this]
      simp [GMT_memory_length])
  simp only [Nat.zero_add, List.nil_append] at a3 a5
  rw [hgmt] at a4
  have hz := columnsOf_of_cols 6
    ((mgd77Loop F E M (fgetsAll E.BUFSIZ fp.length fp)
      { z := List.replicate 6 (GMT_memory (F.ofInt 0) [] E.GMT_CHUNK)
        j := 0
        n_alloc := E.GMT_CHUNK
        gmt := none }).z.map (fun col => GMT_memory (F.ofInt 0) col
          (mgd77Loop F E M (fgetsAll E.BUFSIZ fp.length fp)
            { z := List.replicate 6 (GMT_memory (F.ofInt 0) [] E.GMT_CHUNK)
              j := 0
              n_alloc := E.GMT_CHUNK
              gmt := none }).j))
    ((decodedMgd77 M (fgetsAll E.BUFSIZ fp.length fp) none).1.map (mgd77Row F M))
    (by rw [List.length_map]; exact a1)
    (fun i col h => by
      simp only [List.getElem?_map, Option.map_eq_some'] at h
      obtain ⟨col0, h0, rfl⟩ := h
      obtain ⟨c1, c2⟩ := a5 i col0 h0
      rw [GMT_memory_trim _ _ _ (by omega)]
      exact c2)
  simp only [x2sys_read_mgd77file, a4]
  rw [hz, a3]

/-- The statement `p->year = gmt->first_year` of `x2sys_read_mgd77file` finds `gmt`
as the decoder calls have left it: when that is the null pointer the call has
no defined result. -/
theorem read_mgd77file_null {D : Type} (F : DoubleOps D) (E : Env D) (M : MggEnv D)
    (fname : List Char) (fp : FILE) (s : X2SYS_INFO D) (p : X2SYS_FILE_INFO)
    (hchunk : 0 < E.GMT_CHUNK)
    (hgmt : (decodedMgd77 M (fgetsAll E.BUFSIZ fp.length fp) none).2 = none) :
    x2sys_read_mgd77file F E M fname (some fp) s p = none := by
  obtain ⟨_, _, _, a4, _⟩ := mgd77Loop_spec F E M hchunk (fgetsAll E.BUFSIZ fp.length fp)
    { z := List.replicate 6 (GMT_memory (F.ofInt 0) [] E.GMT_CHUNK)
      j := 0
      n_alloc := E.GMT_CHUNK
      gmt := none } [] (by simp) hchunk
    (fun i col h => by
      have := (List.getElem?_eq_some_iff.mp h).2
      simp only [List.getElem_replicate] at this
      rw [← this]
      simp [GMT_memory_length])
  rw [hgmt] at a4
  simp only [x2sys_read_mgd77file, a4]

theorem decodedMgd77_no_candidate {D : Type} (M : MggEnv D) :
    ∀ (ls : List (List Char)) (gmt : Option GMTMGG_TIME),
      (∀ l ∈ ls, ¬ ((firstChar l = '3' ∨ firstChar l = '5') ∧ l.length = 121)) →
      decodedMgd77 M ls gmt = ([], gmt) := by
  intro ls
  induction ls with
  | nil => intro gmt _; rfl
  | cons l ls ih =>
    intro gmt h
    simp only [decodedMgd77, h l (by simp), if_false]
    exact ih gmt (fun x hx => h x (by simp [hx]))

theorem columnsOf_six {D : Type} (rows : List (List D)) :
    columnsOf 6 rows =
      [rows.filterMap (fun r => r[0]?), rows.filterMap (fun r => r[1]?),
       rows.filterMap (fun r => r[2]?), rows.filterMap (fun r => r[3]?),
       rows.filterMap (fun r => r[4]?), rows.filterMap (fun r => r[5]?)] := by
  rfl

theorem filterMap_map_some {α β γ : Type} (g : α → β) (sel : β → Option γ) (h : α → γ)
    (hs : ∀ a, sel (g a) = some (h a)) :
    ∀ l : List α, (l.map g).filterMap sel = l.map h := by
  intro l
  induction l with
  | nil => rfl
  | cons a l ih => simp [List.filterMap_cons, hs a, ih]

/-- The matrix of `x2sys_read_gmtfile`, column by column: time, latitude,
longitude and the three channels. -/
theorem columnsOf_gmtRow {D : Type} (F : DoubleOps D) (M : MggEnv D) (recs : List GMTMGG_REC) :
    columnsOf 6 (recs.map (gmtRow F M)) =
      [recs.map (fun q => F.ofInt q.time),
       recs.map (fun q => F.mul (F.ofInt q.lat) M.MDEG2DEG),
       recs.map (fun q => F.mul (F.ofInt q.lon) M.MDEG2DEG),
       recs.map (fun q =>
         if q.gmt_0 = M.GMTMGG_NODATA then F.nan else F.mul M.tenth (F.ofInt q.gmt_0)),
       recs.map (fun q => if q.gmt_1 = M.GMTMGG_NODATA then F.nan else F.ofInt q.gmt_1),
       recs.map (fun q => if q.gmt_2 = M.GMTMGG_NODATA then F.nan else F.ofInt q.gmt_2)] := by
  rw [columnsOf_six,
    filterMap_map_some (gmtRow F M) (fun r => r[0]?) (fun q => F.ofInt q.time) (fun _ => rfl),
    filterMap_map_some (gmtRow F M) (fun r => r[1]?)
      (fun q => F.mul (F.ofInt q.lat) M.MDEG2DEG) (fun _ => rfl),
    filterMap_map_some (gmtRow F M) (fun r => r[2]?)
      (fun q => F.mul (F.ofInt q.lon) M.MDEG2DEG) (fun _ => rfl),
    filterMap_map_some (gmtRow F M) (fun r => r[3]?)
      (fun q => if q.gmt_0 = M.GMTMGG_NODATA then F.nan else F.mul M.tenth (F.ofInt q.gmt_0))
      (fun _ => rfl),
    filterMap_map_some (gmtRow F M) (fun r => r[4]?)
      (fun q => if q.gmt_1 = M.GMTMGG_NODATA then F.nan else F.ofInt q.gmt_1) (fun _ => rfl),
    filterMap_map_some (gmtRow F M) (fun r => r[5]?)
      (fun q => if q.gmt_2 = M.GMTMGG_NODATA then F.nan else F.ofInt q.gmt_2) (fun _ => rfl)]

/-- The matrix of `x2sys_read_mgd77file`, column by column: time, longitude,
latitude and the three channels. -/
theorem columnsOf_mgd77Row {D : Type} (F : DoubleOps D) (M : MggEnv D)
    (recs : List GMTMGG_REC) :
    columnsOf 6 (recs.map (mgd77Row F M)) =
      [recs.map (fun q => F.ofInt q.time),
       recs.map (fun q => F.mul (F.ofInt q.lon) M.MDEG2DEG),
       recs.map (fun q => F.mul (F.ofInt q.lat) M.MDEG2DEG),
       recs.map (fun q =>
         if q.gmt_0 = M.GMTMGG_NODATA then F.nan else F.mul M.tenth (F.ofInt q.gmt_0)),
       recs.map (fun q => if q.gmt_1 = M.GMTMGG_NODATA then F.nan else F.ofInt q.gmt_1),
       recs.map (fun q => if q.gmt_2 = M.GMTMGG_NODATA then F.nan else F.ofInt q.gmt_2)] := by
  rw [columnsOf_six,
    filterMap_map_some (mgd77Row F M) (fun r => r[0]?) (fun q => F.ofInt q.time) (fun _ => rfl),
    filterMap_map_some (mgd77Row F M) (fun r => r[1]?)
      (fun q => F.mul (F.ofInt q.lon) M.MDEG2DEG) (fun _ => rfl),
    filterMap_map_some (mgd77Row F M) (fun r => r[2]?)
      (fun q => F.mul (F.ofInt q.lat) M.MDEG2DEG) (fun _ => rfl),
    filterMap_map_some (mgd77Row F M) (fun r => r[3]?)
      (fun q => if q.gmt_0 = M.GMTMGG_NODATA then F.nan else F.mul M.tenth (F.ofInt q.gmt_0))
      (fun _ => rfl),
    filterMap_map_some (mgd77Row F M) (fun r => r[4]?)
      (fun q => if q.gmt_1 = M.GMTMGG_NODATA then F.nan else F.ofInt q.gmt_1) (fun _ => rfl),
    filterMap_map_some (mgd77Row F M) (fun r => r[5]?)
      (fun q => if q.gmt_2 = M.GMTMGG_NODATA then F.nan else F.ofInt q.gmt_2) (fun _ => rfl)]

/-- C21 (counterexample): the compact-binary file with one record of latitude
1000000 and longitude 2000000 (in units of `MDEG2DEG` degrees) is read by
`x2sys_read_gmtfile` into a matrix whose column 1 holds the latitude and whose
column 2 holds the longitude. -/
theorem read_gmtfile_columns_counterexample :
    leRec recBytes =
      { time := 10, lat := 1000000, lon := 2000000, gmt_0 := 25, gmt_1 := -32000, gmt_2 := 7 } ∧
    (x2sys_read_gmtfile decOps (decEnv 2) decMgg true (some gmtFile) lonLat
        emptyFileInfo).map (fun r => (r.ret, r.data)) =
      some (1, [[.val 10 0], [.val 1000000 6], [.val 2000000 6], [.val 25 1], [.nan],
        [.val 7 0]]) := by
  decide

/-- C21 (amended): for a compact-binary file that holds its header and the records
it announces, `x2sys_read_gmtfile` stores for every record the time in column
0, the latitude in column 1 and the longitude in column 2; for a fixed-width
text file on which the decoder has left a state, `x2sys_read_mgd77file` stores
for every decoded record the time in column 0, the longitude in column 1 and
the latitude in column 2.  Each coordinate is the integer of the record times
`MDEG2DEG`; both matrices have the six columns time, two coordinates, three
channels. -/
theorem legacy_readers_columns {D : Type} (F : DoubleOps D) (E : Env D) (M : MggEnv D)
    (fname : List Char) (fp gp : FILE) (s : X2SYS_INFO D) (p : X2SYS_FILE_INFO)
    (t : GMTMGG_TIME)
    (hrows : 0 ≤ E.int_of_bytes 'i' ((fp.drop 4).take 4))
    (hlen : 18 + 18 * (E.int_of_bytes 'i' ((fp.drop 4).take 4)).toNat ≤ fp.length)
    (hchunk : 0 < E.GMT_CHUNK)
    (hgmt : (decodedMgd77 M (fgetsAll E.BUFSIZ gp.length gp) none).2 = some t) :
    (∃ r : ReadFileResult D, x2sys_read_gmtfile F E M true (some fp) s p = some r ∧
      r.data.length = 6 ∧
      r.data[0]? = some ((gmtRecords M (E.int_of_bytes 'i' ((fp.drop 4).take 4)).toNat
        (fp.drop 18)).map (fun q => F.ofInt q.time)) ∧
      r.data[1]? = some ((gmtRecords M (E.int_of_bytes 'i' ((fp.drop 4).take 4)).toNat
        (fp.drop 18)).map (fun q => F.mul (F.ofInt q.lat) M.MDEG2DEG)) ∧
      r.data[2]? = some ((gmtRecords M (E.int_of_bytes 'i' ((fp.drop 4).take 4)).toNat
        (fp.drop 18)).map (fun q => F.mul (F.ofInt q.lon) M.MDEG2DEG))) ∧
    (∃ r : ReadFileResult D, x2sys_read_mgd77file F E M fname (some gp) s p = some r ∧
      r.data.length = 6 ∧
      r.data[0]? = some ((decodedMgd77 M (fgetsAll E.BUFSIZ gp.length gp) none).1.map
        (fun q => F.ofInt q.time)) ∧
      r.data[1]? = some ((decodedMgd77 M (fgetsAll E.BUFSIZ gp.length gp) none).1.map
        (fun q => F.mul (F.ofInt q.lon) M.MDEG2DEG)) ∧
      r.data[2]? = some ((decodedMgd77 M (fgetsAll E.BUFSIZ gp.length gp) none).1.map
        (fun q => F.mul (F.ofInt q.lat) M.MDEG2DEG))) := by
  constructor
  · refine ⟨_, read_gmtfile_spec F E M fp s p hrows hlen, ?_⟩
    simp only [columnsOf_gmtRow]
    exact ⟨rfl, rfl, rfl, rfl⟩
  · refine ⟨_, read_mgd77file_spec F E M fname gp s p t hchunk hgmt, ?_⟩
    simp only [columnsOf_mgd77Row]
    exact ⟨rfl, rfl, rfl, rfl⟩

set_option maxRecDepth 100000 in
theorem legacy_readers_columns_witness :
    (∃ r : ReadFileResult Dec,
      x2sys_read_gmtfile decOps (decEnv 2) decMgg true (some gmtFile) lonLat emptyFileInfo =
        some r ∧
      r.data.length = 6 ∧
      r.data[0]? = some ((gmtRecords decMgg
        ((decEnv 2).int_of_bytes 'i' ((gmtFile.drop 4).take 4)).toNat
        (gmtFile.drop 18)).map (fun q => decOps.ofInt q.time)) ∧
      r.data[1]? = some ((gmtRecords decMgg
        ((decEnv 2).int_of_bytes 'i' ((gmtFile.drop 4).take 4)).toNat
        (gmtFile.drop 18)).map (fun q => decOps.mul (decOps.ofInt q.lat) decMgg.MDEG2DEG)) ∧
      r.data[2]? = some ((gmtRecords decMgg
        ((decEnv 2).int_of_bytes 'i' ((gmtFile.drop 4).take 4)).toNat
        (gmtFile.drop 18)).map (fun q => decOps.mul (decOps.ofInt q.lon) decMgg.MDEG2DEG))) ∧
    (∃ r : ReadFileResult Dec,
      x2sys_read_mgd77file decOps (decEnv 2) decMgg "leg.mgd77".toList (some mgdFile) lonLat
        emptyFileInfo = some r ∧
      r.data.length = 6 ∧
      r.data[0]? = some ((decodedMgd77 decMgg
        (fgetsAll (decEnv 2).BUFSIZ mgdFile.length mgdFile) none).1.map
        (fun q => decOps.ofInt q.time)) ∧
      r.data[1]? = some ((decodedMgd77 decMgg
        (fgetsAll (decEnv 2).BUFSIZ mgdFile.length mgdFile) none).1.map
        (fun q => decOps.mul (decOps.ofInt q.lon) decMgg.MDEG2DEG)) ∧
      r.data[2]? = some ((decodedMgd77 decMgg
        (fgetsAll (decEnv 2).BUFSIZ mgdFile.length mgdFile) none).1.map
        (fun q => decOps.mul (decOps.ofInt q.lat) decMgg.MDEG2DEG))) :=
  legacy_readers_columns decOps (decEnv 2) decMgg "leg.mgd77".toList gmtFile mgdFile lonLat
    emptyFileInfo { first_year := 1971 } (by decide) (by decide) (by decide) (by decide)

/-- C22: in both legacy readers, for every decoded record and each of the three
channels, a raw value equal to `GMTMGG_NODATA` is stored as NaN; otherwise
column 3 holds 0.1 times the raw value of channel 1 and columns 4 and 5 hold
the raw values of channels 2 and 3. -/
theorem legacy_readers_channels {D : Type} (F : DoubleOps D) (E : Env D) (M : MggEnv D)
    (fname : List Char) (fp gp : FILE) (s : X2SYS_INFO D) (p : X2SYS_FILE_INFO)
    (t : GMTMGG_TIME)
    (hrows : 0 ≤ E.int_of_bytes 'i' ((fp.drop 4).take 4))
    (hlen : 18 + 18 * (E.int_of_bytes 'i' ((fp.drop 4).take 4)).toNat ≤ fp.length)
    (hchunk : 0 < E.GMT_CHUNK)
    (hgmt : (decodedMgd77 M (fgetsAll E.BUFSIZ gp.length gp) none).2 = some t) :
    (∃ r : ReadFileResult D, x2sys_read_gmtfile F E M true (some fp) s p = some r ∧
      r.data[3]? = some ((gmtRecords M (E.int_of_bytes 'i' ((fp.drop 4).take 4)).toNat
        (fp.drop 18)).map (fun q =>
          if q.gmt_0 = M.GMTMGG_NODATA then F.nan else F.mul M.tenth (F.ofInt q.gmt_0))) ∧
      r.data[4]? = some ((gmtRecords M (E.int_of_bytes 'i' ((fp.drop 4).take 4)).toNat
        (fp.drop 18)).map (fun q =>
          if q.gmt_1 = M.GMTMGG_NODATA then F.nan else F.ofInt q.gmt_1)) ∧
      r.data[5]? = some ((gmtRecords M (E.int_of_bytes 'i' ((fp.drop 4).take 4)).toNat
        (fp.drop 18)).map (fun q =>
          if q.gmt_2 = M.GMTMGG_NODATA then F.nan else F.ofInt q.gmt_2))) ∧
    (∃ r : ReadFileResult D, x2sys_read_mgd77file F E M fname (some gp) s p = some r ∧
      r.data[3]? = some ((decodedMgd77 M (fgetsAll E.BUFSIZ gp.length gp) none).1.map
        (fun q =>
          if q.gmt_0 = M.GMTMGG_NODATA then F.nan else F.mul M.tenth (F.ofInt q.gmt_0))) ∧
      r.data[4]? = some ((decodedMgd77 M (fgetsAll E.BUFSIZ gp.length gp) none).1.map
        (fun q => if q.gmt_1 = M.GMTMGG_NODATA then F.nan else F.ofInt q.gmt_1)) ∧
      r.data[5]? = some ((decodedMgd77 M (fgetsAll E.BUFSIZ gp.length gp) none).1.map
        (fun q => if q.gmt_2 = M.GMTMGG_NODATA then F.nan else F.ofInt q.gmt_2))) := by
  constructor
  · refine ⟨_, read_gmtfile_spec F E M fp s p hrows hlen, ?_⟩
    simp only [columnsOf_gmtRow]
    exact ⟨rfl, rfl, rfl⟩
  · refine ⟨_, read_mgd77file_spec F E M fname gp s p t hchunk hgmt, ?_⟩
    simp only [columnsOf_mgd77Row]
    exact ⟨rfl, rfl, rfl⟩

set_option maxRecDepth 100000 in
theorem legacy_readers_channels_witness :
    (∃ r : ReadFileResult Dec,
      x2sys_read_gmtfile decOps (decEnv 2) decMgg true (some gmtFile) lonLat emptyFileInfo =
        some r ∧
      r.data[3]? = some ((gmtRecords decMgg
        ((decEnv 2).int_of_bytes 'i' ((gmtFile.drop 4).take 4)).toNat
        (gmtFile.drop 18)).map (fun q =>
          if q.gmt_0 = decMgg.GMTMGG_NODATA then decOps.nan
          else decOps.mul decMgg.tenth (decOps.ofInt q.gmt_0))) ∧
      r.data[4]? = some ((gmtRecords decMgg
        ((decEnv 2).int_of_bytes 'i' ((gmtFile.drop 4).take 4)).toNat
        (gmtFile.drop 18)).map (fun q =>
          if q.gmt_1 = decMgg.GMTMGG_NODATA then decOps.nan else decOps.ofInt q.gmt_1)) ∧
      r.data[5]? = some ((gmtRecords decMgg
        ((decEnv 2).int_of_bytes 'i' ((gmtFile.drop 4).take 4)).toNat
        (gmtFile.drop 18)).map (fun q =>
          if q.gmt_2 = decMgg.GMTMGG_NODATA then decOps.nan else decOps.ofInt q.gmt_2))) ∧
    (∃ r : ReadFileResult Dec,
      x2sys_read_mgd77file decOps (decEnv 2) decMgg "leg.mgd77".toList (some mgdFile) lonLat
        emptyFileInfo = some r ∧
      r.data[3]? = some ((decodedMgd77 decMgg
        (fgetsAll (decEnv 2).BUFSIZ mgdFile.length mgdFile) none).1.map
        (fun q =>
          if q.gmt_0 = decMgg.GMTMGG_NODATA then decOps.nan
          else decOps.mul decMgg.tenth (decOps.ofInt q.gmt_0))) ∧
      r.data[4]? = some ((decodedMgd77 decMgg
        (fgetsAll (decEnv 2).BUFSIZ mgdFile.length mgdFile) none).1.map
        (fun q => if q.gmt_1 = decMgg.GMTMGG_NODATA then decOps.nan else decOps.ofInt q.gmt_1)) ∧
      r.data[5]? = some ((decodedMgd77 decMgg
        (fgetsAll (decEnv 2).BUFSIZ mgdFile.length mgdFile) none).1.map
        (fun q =>
          if q.gmt_2 = decMgg.GMTMGG_NODATA then decOps.nan else decOps.ofInt q.gmt_2))) :=
  legacy_readers_channels decOps (decEnv 2) decMgg "leg.mgd77".toList gmtFile mgdFile lonLat
    emptyFileInfo { first_year := 1971 } (by decide) (by decide) (by decide) (by decide)

theorem read_gmtfile_header_fails {D : Type} (F : DoubleOps D) (E : Env D) (M : MggEnv D)
    (fp : FILE) (s : X2SYS_INFO D) (p : X2SYS_FILE_INFO) (h : fp.length < 18) :
    (x2sys_read_gmtfile F E M true (some fp) s p).map (fun r => r.ret) = some (-1) := by
  simp only [x2sys_read_gmtfile, Bool.not_true, Bool.false_eq_true, if_false]
  by_cases h4 : 4 ≤ fp.length
  · rw [fread_some 4 fp (by decide) h4]
    by_cases h8 : 8 ≤ fp.length
    · rw [fread_some 4 (fp.drop 4) (by decide) (by simp only [List.length_drop]; omega)]
      simp only [fread_none 10 ((fp.drop 4).drop 4) (by simp only [List.length_drop]; omega)]
      rfl
    · simp only [fread_none 4 (fp.drop 4) (by simp only [List.length_drop]; omega)]
      rfl
  · simp only [fread_none 4 fp (by omega)]
    rfl

theorem read_gmtfile_record_fails {D : Type} (F : DoubleOps D) (E : Env D) (M : MggEnv D)
    (fp : FILE) (s : X2SYS_INFO D) (p : X2SYS_FILE_INFO) (h18 : 18 ≤ fp.length)
    (hrows : 0 ≤ E.int_of_bytes 'i' ((fp.drop 4).take 4))
    (hlen : fp.length < 18 + 18 * (E.int_of_bytes 'i' ((fp.drop 4).take 4)).toNat) :
    x2sys_read_gmtfile F E M true (some fp) s p = none := by
  have h1 : fread 4 fp = (some (fp.take 4), fp.drop 4) := fread_some 4 fp (by decide) (by omega)
  have h2 : fread 4 (fp.drop 4) = (some ((fp.drop 4).take 4), (fp.drop 4).drop 4) :=
    fread_some 4 _ (by decide) (by simp only [List.length_drop]; omega)
  have h3 : fread 10 ((fp.drop 4).drop 4) =
      (some (((fp.drop 4).drop 4).take 10), ((fp.drop 4).drop 4).drop 10) :=
    fread_some 10 _ (by decide) (by simp only [List.length_drop]; omega)
  have hd : ((fp.drop 4).drop 4).drop 10 = fp.drop 18 := by simp [List.drop_drop]
  have hl := gmtLoop_short F M (E.int_of_bytes 'i' ((fp.drop 4).take 4)).toNat 0 (fp.drop 18)
    (List.replicate 6 (GMT_memory (F.ofInt 0) [] (E.int_of_bytes 'i' ((fp.drop 4).take 4)).toNat))
    (by simp only [List.length_drop]; omega)
  simp only [x2sys_read_gmtfile, Bool.not_true, Bool.false_eq_true, if_false, h1, h2, h3, hd,
    if_neg (not_lt.mpr hrows), hl]

/-- C23 (counterexample): on the compact-binary file whose header announces two rows
and whose body holds one record and 5 bytes more, `x2sys_read_gmtfile` does
not return -1: the failed read of the second record ends the program. -/
theorem read_gmtfile_short_counterexample :
    (x2sys_read_gmtfile decOps (decEnv 2) decMgg true (some shortGmtFile) lonLat
        emptyFileInfo).map (fun r => r.ret) = none ∧
    shortGmtFile.length = 18 + 18 + 5 ∧
    (decEnv 2).int_of_bytes 'i' ((shortGmtFile.drop 4).take 4) = 2 := by
  decide

/-- C23 (amended): `x2sys_read_gmtfile` returns -1 to its caller when the leg is not
found, when the file cannot be opened and when the read of the year, of the
row count or of the agency fails (the file holds fewer than 18 bytes); when
the header is read and one of the announced records cannot be read, it does
not return: it ends the program with `exit (EXIT_FAILURE)`; when all reads
succeed it returns the row count of the header, with that many rows stored in
each of the six columns. -/
theorem read_gmtfile_returns {D : Type} (F : DoubleOps D) (E : Env D) (M : MggEnv D)
    (file : Option FILE) (fp : FILE) (s : X2SYS_INFO D) (p : X2SYS_FILE_INFO)
    (hrows : 0 ≤ E.int_of_bytes 'i' ((fp.drop 4).take 4)) :
    (x2sys_read_gmtfile F E M false file s p).map (fun r => r.ret) = some (-1) ∧
    (x2sys_read_gmtfile F E M true none s p).map (fun r => r.ret) = some (-1) ∧
    (fp.length < 18 →
      (x2sys_read_gmtfile F E M true (some fp) s p).map (fun r => r.ret) = some (-1)) ∧
    (18 ≤ fp.length →
      fp.length < 18 + 18 * (E.int_of_bytes 'i' ((fp.drop 4).take 4)).toNat →
      x2sys_read_gmtfile F E M true (some fp) s p = none) ∧
    (18 + 18 * (E.int_of_bytes 'i' ((fp.drop 4).take 4)).toNat ≤ fp.length →
      (x2sys_read_gmtfile F E M true (some fp) s p).map
          (fun r => (r.ret, r.data.map List.length)) =
        some (E.int_of_bytes 'i' ((fp.drop 4).take 4),
          List.replicate 6 (E.int_of_bytes 'i' ((fp.drop 4).take 4)).toNat)) := by
  refine ⟨rfl, rfl, read_gmtfile_header_fails F E M fp s p, ?_, ?_⟩
  · intro h18 hlen
    exact read_gmtfile_record_fails F E M fp s p h18 hrows hlen
  · intro hlen
    rw [read_gmtfile_spec F E M fp s p hrows hlen]
    simp only [Option.map_some', columnsOf_gmtRow, List.map_cons, List.map_nil, List.length_map,
      gmtRecords, List.length_range]
    rfl

theorem read_gmtfile_returns_witness :
    (x2sys_read_gmtfile decOps (decEnv 2) decMgg true (some shortGmtFile) lonLat
        emptyFileInfo = none) ∧
    ((x2sys_read_gmtfile decOps (decEnv 2) decMgg true (some gmtFile) lonLat
        emptyFileInfo).map (fun r => (r.ret, r.data.map List.length)) =
      some ((decEnv 2).int_of_bytes 'i' ((gmtFile.drop 4).take 4),
        List.replicate 6 ((decEnv 2).int_of_bytes 'i' ((gmtFile.drop 4).take 4)).toNat)) ∧
    ((x2sys_read_gmtfile decOps (decEnv 2) decMgg true (some (bytes [207, 7, 0, 0, 1])) lonLat
        emptyFileInfo).map (fun r => r.ret) = some (-1)) :=
  ⟨(read_gmtfile_returns decOps (decEnv 2) decMgg none shortGmtFile lonLat emptyFileInfo
      (by decide)).2.2.2.1 (by decide) (by decide),
   (read_gmtfile_returns decOps (decEnv 2) decMgg none gmtFile lonLat emptyFileInfo
      (by decide)).2.2.2.2 (by decide),
   (read_gmtfile_returns decOps (decEnv 2) decMgg none (bytes [207, 7, 0, 0, 1]) lonLat
      emptyFileInfo (by decide)).2.2.1 (by decide)⟩

/-- C28 (as the code behaves): when no line of the file is a candidate record (a line
that starts with `3` or `5` and is 121 characters long), the decoder is never
called, `gmt` is still the null pointer after the loop and the statement
`p->year = gmt->first_year` reads through it: `x2sys_read_mgd77file` has no
defined result.  The empty file is such a file. -/
theorem read_mgd77file_no_candidate {D : Type} (F : DoubleOps D) (E : Env D) (M : MggEnv D)
    (fname : List Char) (fp : FILE) (s : X2SYS_INFO D) (p : X2SYS_FILE_INFO)
    (hchunk : 0 < E.GMT_CHUNK)
    (hno : ∀ l ∈ fgetsAll E.BUFSIZ fp.length fp,
      ¬ ((firstChar l = '3' ∨ firstChar l = '5') ∧ l.length = 121)) :
    x2sys_read_mgd77file F E M fname (some fp) s p = none := by
  apply read_mgd77file_null F E M fname fp s p hchunk
  rw [decodedMgd77_no_candidate M _ none hno]

set_option maxRecDepth 100000 in
theorem read_mgd77file_no_candidate_witness :
    x2sys_read_mgd77file decOps (decEnv 2) decMgg "leg.mgd77".toList
        (some (mgdLine "1 header" ++ "34125\n".toList)) lonLat emptyFileInfo = none ∧
    x2sys_read_mgd77file decOps (decEnv 2) decMgg "leg.mgd77".toList (some []) lonLat
        emptyFileInfo = none :=
  ⟨read_mgd77file_no_candidate decOps (decEnv 2) decMgg "leg.mgd77".toList
      (mgdLine "1 header" ++ "34125\n".toList) lonLat emptyFileInfo (by decide) (by decide),
   read_mgd77file_no_candidate decOps (decEnv 2) decMgg "leg.mgd77".toList [] lonLat
      emptyFileInfo (by decide) (by decide)⟩

end X2sys
